import Mathlib

/-!
The guitarix JSON-RPC control server (`trunk/src/gx_head/engine/jsonrpc.cpp`)

A shallow embedding of the request dispatcher of the guitarix remote-control
server: the argument values (`JsonValue`, `JsonArray`), the two method
switches (`CmdConnection::call`, `CmdConnection::notify`), the request and
batch framing (`CmdConnection::request`, `CmdConnection::process`), the inbound
line assembly (`CmdConnection::on_data_in`), the fan-out of push documents
(`MyService::broadcast`), the delayed save (`MyService::save_state`) and the
outbound queue (`CmdConnection::send`, `sendbytes`, `CmdConnection::on_data_out`).

Conventions of the embedding

* A `JsonWriter` is append-only, so a writer is the list of the calls made on
  it (`JsonEvent`); `write_kv k v` is `write_key k` followed by `write v`.
* The token stream of a `JsonParser` is a list of `Tok`; a place where the
  tokenizer cannot read a token is a token of kind `no_token`.
* Code that runs with a writer and a state is a function
  `S → Except Exn α × List JsonEvent × S`: the outcome (a value or the C++
  exception thrown), the events appended to the writer that was passed in, and
  the state left behind (kept when an exception is thrown).
* `send(jw)` appends `(session, document)` to the log `MyService.wire`.
* The arguments of one call are evaluated from right to left, and the object
  expression of a member call before its arguments, as the compiler does it.
  A null pointer that is passed on as `*p` is used by the callee, once all
  arguments have been evaluated.
* The engine, the settings and the tuner switcher are external collaborators:
  they are reached through the record `Engine`, over a state `σ` of theirs.
* Of the signals of the collaborators, those whose emission the sources at
  hand determine are followed to their slots: the parameter signals to
  `on_param_value_changed` and `on_param_insert_remove`, the logger's to
  `on_log_message`. For the other signals `listen` records the slots a session
  connects; when the collaborators emit them is not in the sources, so the
  documents of a request are stated from the state its handler leaves.
-/

set_option autoImplicit false

/-! ## Exceptions -/

/-- The ways control leaves a function other than by returning: the two C++
exception classes `process` catches, and the failures nothing catches (a failed
`assert`, the use of a null or dangling pointer, an exhausted loop budget of the
embedding). -/
inductive Exn where
  | RpcError (code : Int) (message : String)
  | JsonException (what : String)
  | Fatal (what : String)
  deriving DecidableEq, Repr

deriving instance DecidableEq for Except

/-! ## Numbers -/

/-- A C `double`, kept symbolic: the image of an `int`, or the value that
`istringstream >> float` reads from a number token. -/
inductive Double where
  | ofInt (n : Int)
  | ofText (s : String)
  deriving DecidableEq, Repr

def LONG_MAX : Int := 2 ^ 63 - 1

def LONG_MIN : Int := -(2 ^ 63)

/-- Conversion of a `long` to `int`: the value modulo `2^32`, read as signed. -/
def long_to_int (v : Int) : Int :=
  let w := v % 2 ^ 32
  if w < 2 ^ 31 then w else w - 2 ^ 32

def isspace (c : Char) : Bool :=
  c = ' ' || c = '\t' || c = '\n' || c = '\r' || c.toNat = 11 || c.toNat = 12

def digit_value (c : Char) : Nat := c.toNat - 48

/-- C `strtol(str, &endptr, 10)` on a 64-bit `long`: the value and the text
from `endptr` on. Leading white space and one sign are skipped; without a digit
nothing is converted and `endptr` is `str`; the value saturates at the ends of
the `long` range. -/
def strtol (str : List Char) : Int × List Char :=
  let cs := str.dropWhile isspace
  let signed : Bool × List Char :=
    match cs with
    | '-' :: r => (true, r)
    | '+' :: r => (false, r)
    | _ => (false, cs)
  let ds := signed.2.takeWhile Char.isDigit
  let rest := signed.2.dropWhile Char.isDigit
  if ds.isEmpty then (0, str)
  else
    let mag : Nat := ds.foldl (fun a c => 10 * a + digit_value c) 0
    let v : Int := if signed.1 then -(mag : Int) else (mag : Int)
    (max LONG_MIN (min LONG_MAX v), rest)

/-! ## The writer -/

/-- One call on a `gx_system::JsonWriter`. -/
inductive JsonEvent where
  | begin_object
  | end_object
  | begin_array
  | end_array
  | write_key (k : String)
  | write_string (s : String)
  | write_int (n : Int)
  | write_uint (n : Nat)
  | write_float (d : Double)
  | write_bool (b : Bool)
  | write_null
  deriving DecidableEq, Repr

/-- The content of a `JsonStringWriter`: the calls made on it, in order. -/
abbrev JsonWriter := List JsonEvent

namespace JsonWriter

def write_kv_string (k v : String) : JsonWriter :=
  [JsonEvent.write_key k, JsonEvent.write_string v]

def write_kv_int (k : String) (v : Int) : JsonWriter :=
  [JsonEvent.write_key k, JsonEvent.write_int v]

def write_kv_bool (k : String) (v : Bool) : JsonWriter :=
  [JsonEvent.write_key k, JsonEvent.write_bool v]

def write_kv_float (k : String) (v : Double) : JsonWriter :=
  [JsonEvent.write_key k, JsonEvent.write_float v]

/-- Modelled from the spec: `JsonStringWriter::send_notify_begin` is declared
outside the sources at hand; a server push is
`{"jsonrpc":"2.0","method":<name>,"params":[...]}`. -/
def send_notify_begin (method : String) : JsonWriter :=
  [JsonEvent.begin_object] ++ write_kv_string "jsonrpc" "2.0" ++ write_kv_string "method" method ++
    [JsonEvent.write_key "params", JsonEvent.begin_array]

/-- Modelled from the spec: `JsonStringWriter::send_notify_end` closes the
params array and the object of a server push. -/
def send_notify_end : JsonWriter :=
  [JsonEvent.end_array, JsonEvent.end_object]

end JsonWriter

/-! ## The tokenizer's output -/

/-- The token kinds of `gx_system::JsonParser`. -/
inductive token where
  | no_token
  | end_token
  | begin_object
  | end_object
  | begin_array
  | end_array
  | value_string
  | value_number
  | value_key
  deriving DecidableEq, Repr

/-- A token with its text (`current_value()` once it is consumed). -/
structure Tok where
  kind : token
  value : String
  deriving DecidableEq, Repr

/-- Modelled from the spec: `gx_system::JsonParser` is declared outside the
sources at hand ("pull-style parsing where the caller requests: expect token of
kind X, else fail with a parse error"). The state is the tokens not yet
consumed and the text of the last consumed token. -/
structure JsonParser where
  toks : List Tok
  cur : String
  deriving DecidableEq, Repr

namespace JsonParser

def unexpected : Exn := Exn.JsonException "unexpected token"

/-- The kind of the next token; the end of the input reads as `end_token`, and
a place the tokenizer cannot read raises the parse error. -/
def peek (jp : JsonParser) : Except Exn token :=
  match jp.toks with
  | [] => .ok token.end_token
  | t :: _ => if t.kind = token.no_token then .error unexpected else .ok t.kind

/-- `next(expect)`: consume the next token, which must be of kind `expect`. -/
def next (jp : JsonParser) (expect : token) : Except Exn JsonParser :=
  match jp.toks with
  | [] => .error unexpected
  | t :: r =>
    if t.kind = token.no_token then .error unexpected
    else if t.kind = expect then .ok { toks := r, cur := t.value }
    else .error unexpected

/-- `next()`: consume the next token, whatever its kind. -/
def next_any (jp : JsonParser) : Except Exn JsonParser :=
  match jp.toks with
  | [] => .error unexpected
  | t :: r =>
    if t.kind = token.no_token then .error unexpected
    else .ok { toks := r, cur := t.value }

def current_value (jp : JsonParser) : String := jp.cur

/-- The tokens up to and including the one that closes the value that has been
opened `depth` times, and the tokens after it. -/
def skip_depth : Nat → List Tok → List Tok → Except Exn (List Tok × List Tok)
  | _, _, [] => .error unexpected
  | depth, acc, t :: r =>
    match t.kind with
    | token.begin_object => skip_depth (depth + 1) (acc ++ [t]) r
    | token.begin_array => skip_depth (depth + 1) (acc ++ [t]) r
    | token.end_object =>
      match depth with
      | 0 => .error unexpected
      | 1 => .ok (acc ++ [t], r)
      | d + 2 => skip_depth (d + 1) (acc ++ [t]) r
    | token.end_array =>
      match depth with
      | 0 => .error unexpected
      | 1 => .ok (acc ++ [t], r)
      | d + 2 => skip_depth (d + 1) (acc ++ [t]) r
    | token.value_string => skip_depth depth (acc ++ [t]) r
    | token.value_number => skip_depth depth (acc ++ [t]) r
    | token.value_key => skip_depth depth (acc ++ [t]) r
    | token.no_token => .error unexpected
    | token.end_token => .error unexpected

/-- Modelled from the spec: `skip_object` steps over the embedded object or
array that starts at the current position; the result is the tokens of that
value and the parser behind it. -/
def skip_object (jp : JsonParser) : Except Exn (List Tok × JsonParser) :=
  match jp.toks with
  | [] => .error unexpected
  | t :: r =>
    if t.kind = token.begin_object ∨ t.kind = token.begin_array then
      match skip_depth 1 [t] r with
      | .ok (blob, rest) =>
        .ok (blob, { toks := rest, cur := (blob.getLast?.map Tok.value).getD "" })
      | .error e => .error e
    else .error unexpected

/-- Modelled from the spec: `peek_first_char() == '['`, the test with which
`process` tells a batch from a single request: the document starts with the
token that opens an array. -/
def first_is_bracket (jp : JsonParser) : Bool :=
  match jp.toks with
  | t :: _ => decide (t.kind = token.begin_array)
  | [] => false

end JsonParser

/-! ## Argument values -/

/-- The classes `JsonString`, `JsonFloat`, `JsonInt` and `JsonObject`. A
`JsonObject` records the stream position of an embedded object or array: here
the tokens of that value. -/
inductive JsonValue where
  | JsonString (string : String)
  | JsonFloat (value : Double)
  | JsonInt (value : Int)
  | JsonObject (position : List Tok)
  deriving DecidableEq, Repr

namespace JsonValue

def getFloat : JsonValue → Except Exn Double
  | JsonFloat v => .ok v
  | JsonInt v => .ok (Double.ofInt v)
  | _ => .error (Exn.RpcError (-32602) "Invalid param -- float expected")

def getInt : JsonValue → Except Exn Int
  | JsonInt v => .ok v
  | _ => .error (Exn.RpcError (-32602) "Invalid param -- int expected")

def getString : JsonValue → Except Exn String
  | JsonString s => .ok s
  | _ => .error (Exn.RpcError (-32602) "Invalid param -- string expected")

def getSubParser : JsonValue → Except Exn JsonParser
  | JsonObject position => .ok { toks := position, cur := "" }
  | _ => .error (Exn.RpcError (-32602) "Invalid param -- object expected")

end JsonValue

abbrev JsonArray := List JsonValue

namespace JsonArray

/-- `JsonArray::operator[]`. -/
def index (params : JsonArray) (i : Nat) : Except Exn JsonValue :=
  match params.get? i with
  | some v => .ok v
  | none => .error (Exn.RpcError (-32602) "Invalid param -- wrong argument count")

/-- The value `JsonArray::append` stores for a number token. -/
def number_value (str : String) : JsonValue :=
  let r := strtol str.toList
  if r.2.isEmpty then JsonValue.JsonInt (long_to_int r.1)
  else JsonValue.JsonFloat (Double.ofText str)

/-- `JsonArray::append`: read one argument from the parser. -/
def append (params : JsonArray) (jp : JsonParser) : Except Exn (JsonArray × JsonParser) :=
  match jp.peek with
  | .error e => .error e
  | .ok token.value_string =>
    match jp.next_any with
    | .ok jp1 => .ok (params ++ [JsonValue.JsonString jp1.current_value], jp1)
    | .error e => .error e
  | .ok token.value_number =>
    match jp.next_any with
    | .ok jp1 => .ok (params ++ [number_value jp1.current_value], jp1)
    | .error e => .error e
  | .ok token.begin_array =>
    match jp.skip_object with
    | .ok (blob, jp1) => .ok (params ++ [JsonValue.JsonObject blob], jp1)
    | .error e => .error e
  | .ok token.begin_object =>
    match jp.skip_object with
    | .ok (blob, jp1) => .ok (params ++ [JsonValue.JsonObject blob], jp1)
    | .error e => .error e
  | .ok _ => .error (Exn.JsonException "unexpected token")

end JsonArray

/-! ## Code with a writer and a state -/

/-- A function body that writes to the `JsonWriter` it was given and works on
a state `S`: the outcome, the events appended to the writer, the state left. -/
def W (S : Type) (α : Type) : Type := S → Except Exn α × JsonWriter × S

namespace W

variable {S T : Type} {α β : Type}

def ret (a : α) : W S α := fun s => (.ok a, [], s)

def andThen (x : W S α) (f : α → W S β) : W S β := fun s =>
  match x s with
  | (.ok a, o, s1) => ((f a s1).1, o ++ (f a s1).2.1, (f a s1).2.2)
  | (.error e, o, s1) => (.error e, o, s1)

instance : Monad (W S) where
  pure := ret
  bind := andThen

/-- A C++ `throw`. -/
def raise (e : Exn) : W S α := fun s => (.error e, [], s)

/-- Calls on the writer. -/
def write (evs : JsonWriter) : W S Unit := fun s => (.ok (), evs, s)

def get : W S S := fun s => (.ok s, [], s)

def modify (f : S → S) : W S Unit := fun s => (.ok (), [], f s)

/-- The value of an expression that may throw. -/
def ofExcept (r : Except Exn α) : W S α := fun s => (r, [], s)

/-- Run a body that works on a part of the state. -/
def zoom (proj : T → S) (upd : S → T → T) (x : W S α) : W T α := fun t =>
  ((x (proj t)).1, (x (proj t)).2.1, upd (x (proj t)).2.2 t)

/-- Run a body on a writer of its own: the events come back as a value. -/
def capture (x : W S α) : W S (α × JsonWriter) := fun s =>
  match x s with
  | (.ok a, o, s1) => (.ok (a, o), [], s1)
  | (.error e, _, s1) => (.error e, [], s1)

/-- C++ `try { x } catch (RpcError& e) { h e.code e.message }`. -/
def catchRpc (x : W S α) (h : Int → String → W S α) : W S α := fun s =>
  match x s with
  | (.error (Exn.RpcError c m), o, s1) => ((h c m s1).1, o ++ (h c m s1).2.1, (h c m s1).2.2)
  | r => r

end W

/-! ## The external collaborators -/

inductive GxEngineState where
  | kEngineOff
  | kEngineOn
  | kEngineBypass
  deriving DecidableEq, Repr

def engine_state_to_string : GxEngineState → String
  | .kEngineOff => "stopped"
  | .kEngineOn => "running"
  | .kEngineBypass => "bypassed"

/-- `string_to_engine_state`; an unknown name fails the `assert`. -/
def string_to_engine_state (s : String) : Except Exn GxEngineState :=
  if s = "stopped" then .ok .kEngineOff
  else if s = "running" then .ok .kEngineOn
  else if s = "bypassed" then .ok .kEngineBypass
  else .error (Exn.Fatal "assert(false)")

/-- The calls `UiBuilderVirt` offers to a plugin's `load_ui`. -/
inductive UiCall where
  | openTabBox (label : String)
  | openVerticalBox (label : String)
  | openVerticalBox1 (label : String)
  | openVerticalBox2 (label : String)
  | openHorizontalhideBox (label : String)
  | openHorizontalBox (label : String)
  | insertSpacer
  | set_next_flags (flags : Int)
  | create_small_rackknob (id label : String)
  | create_small_rackknobr (id label : String)
  | create_master_slider (id label : String)
  | create_selector_no_caption (id : String)
  | create_selector (id label : String)
  | create_spin_value (id label : String)
  | create_switch_no_caption (sw_type id : String)
  | create_switch (sw_type id label : String)
  | create_port_display (id label : String)
  | closeBox
  | load_glade (data : String)
  deriving DecidableEq, Repr

/-- What the protocol code reads of a `gx_engine::Plugin` and its `PluginDef`.
`load_ui` is the sequence of builder calls the plugin's `load_ui` makes, `none`
for a null function pointer; `groups` is the array `pdef->groups` without its
terminating null. -/
structure Plugin where
  id : String
  on_off : Bool
  box_visible : Bool
  position : Int
  effect_post_pre : Int
  stereo : Bool
  category : Option String
  name : Option String
  shortname : Option String
  description : Option String
  groups : Option (List String)
  load_ui : Option (List UiCall)
  deriving DecidableEq, Repr

inductive ctrl_type where
  | None
  | Continuous
  | Switch
  | Enum
  deriving DecidableEq, Repr

/-- The kinds of `gx_engine::Parameter` the handlers tell apart (`isFloat`,
`isInt`, `isBool`, `isFile`, `isString`, a `JConvParameter`), each with its
current value; `Other` is a parameter of none of these kinds. -/
inductive ParamValue where
  | Float (v : Double)
  | Int (v : Int)
  | Bool (v : Bool)
  | File (path : String)
  | String (v : String)
  | JConv (settings : List Tok)
  | Other
  deriving DecidableEq, Repr

structure Parameter where
  id : String
  value : ParamValue
  controlType : ctrl_type
  range : Option (Double × Double × Double)
  value_names : Option (List (String × String))
  l_name : String
  l_group : String
  typename : String
  deriving DecidableEq, Repr

/-- A `gx_system::PresetFile*` that is not null. -/
structure PresetFile where
  handle : Nat
  deriving DecidableEq, Repr

/-- A `gx_engine::plugdesc` as read by its `readJSON`. -/
structure plugdesc where
  json : List Tok
  deriving DecidableEq, Repr

structure FileName where
  filename : String
  displayname : String
  deriving DecidableEq, Repr

/-- The out-parameters of `gx_engine::read_audio`. -/
structure AudioData where
  audio_size : Nat
  audio_chan : Int
  audio_type : Int
  audio_form : Int
  audio_rate : Int
  buffer : List Double
  deriving DecidableEq, Repr

inductive GxMsgType where
  | kInfo
  | kWarning
  | kError
  | kMessageTypeCount
  deriving DecidableEq, Repr

/-- The arguments the logger's `signal_message` passes to its slots. -/
structure LogMessage where
  msg : String
  tp : GxMsgType
  plugged : Bool
  deriving DecidableEq, Repr

/-- The value handed to a parameter's `set`. -/
inductive SetArg where
  | Float (v : Double)
  | Int (v : Int)
  | Bool (v : Int)
  | File (path : String)
  | String (v : String)
  | JConv (settings : List Tok)
  deriving DecidableEq, Repr

/-- Calls into the settings, the engine and the tuner switcher that return
nothing to the protocol code. -/
inductive EngineOp where
  | insert_rack_unit (unit before : String) (stereo : Bool)
  | remove_rack_unit (unit : String) (stereo : Bool)
  | banks_reorder (neworder : List String)
  | reorder_preset (pf : PresetFile) (neworder : List String)
  | erase_preset (pf : PresetFile) (name : String)
  | set_flag (pf : PresetFile) (flag v : Int)
  | append (pf : PresetFile) (src : String) (pftgt : PresetFile) (name : String)
  | insert_before (pf : PresetFile) (src : String) (pftgt : PresetFile) (pos name : String)
  | insert_after (pf : PresetFile) (src : String) (pftgt : PresetFile) (pos name : String)
  | banks_save
  | save (pf : PresetFile) (name : String)
  | plugin_preset_list_save (pd : Plugin) (name : String)
  | plugin_preset_list_remove (pd : Plugin) (name : String)
  | set_config_mode (mode : Bool) (ctl : Int)
  | request_midi_value_update
  | deleteParameter (p : Parameter)
  | set_current_control (ctl : Int)
  | modifyCurrent (p : Parameter) (lower upper : Double) (toggle : Int)
  | load_preset (pf : Option PresetFile) (name : String)
  | set_state (s : GxEngineState)
  | check_module_lists
  | tuner_used_for_display (v : Int)
  | tuner_used_for_livedisplay (v : Int)
  | tuner_switcher_activate (v : Int)
  | tuner_switcher_deactivate
  | tuner_switcher_toggle (v : Int)
  | ladspaloader_set_plugins (plugins : List plugdesc)
  | save_to_state
  | maxlevel_reset
  | clear_oscilloscope_buffer
  | set_mul_buffer (n : Int) (bs : Nat)
  | logger_unplug_queue
  deriving DecidableEq, Repr

/-- The state the handlers reach through `serv.settings`, `serv.jack` and
`serv.tuner_switcher`: the parameter directory, in its iteration order, and
the rest of the collaborators' state. -/
structure Eng (σ : Type) where
  param : List Parameter
  ext : σ
  deriving DecidableEq

/-- The collaborators' side of the calls the handlers make. None of it is in
the sources at hand; every field is named after the call it stands for. -/
structure Engine (σ : Type) where
  exec : EngineOp → Eng σ → Eng σ
  GX_VERSION : String
  Parameter_writeJSON : Parameter → JsonWriter
  ParamMap_writeJSON : Eng σ → JsonWriter
  pluginlist_writeJSON : Eng σ → JsonWriter
  Plugin_writeJSON : Plugin → JsonWriter
  writeJSON_one : Parameter → JsonWriter
  JConv_writeJSON : List Tok → JsonWriter
  controller_map_writeJSON : Eng σ → JsonWriter
  copy_object : List Tok → JsonWriter
  value_label : Parameter → String × String → String
  idx_from_id : Parameter → String → Int
  param_set : Parameter → SetArg → Eng σ → Bool × Eng σ
  JConv_readJSON : JsonParser → Except Exn (List Tok)
  plugdesc_readJSON : JsonParser → Except Exn (plugdesc × JsonParser)
  ordered_mono_list : Eng σ → List Plugin
  ordered_stereo_list : Eng σ → List Plugin
  ordered_list : Eng σ → Bool → List Plugin
  lookup_plugin : Eng σ → String → Option Plugin
  find_plugin : Eng σ → String → Option Plugin
  get_rack_unit_order : Eng σ → Bool → List String
  get_file : Eng σ → String → Option PresetFile
  banks : Eng σ → List PresetFile
  PresetFile_writeJSON_remote : Eng σ → PresetFile → JsonWriter
  PresetFile_names : Eng σ → PresetFile → List String
  PresetFile_get_filename : Eng σ → PresetFile → String
  PresetFile_is_mutable : Eng σ → PresetFile → Bool
  file_contents : Eng σ → String → String
  bank_insert_content : String → String → Eng σ → Option PresetFile × Eng σ
  bank_insert_new : String → Eng σ → Option PresetFile × Eng σ
  rename_bank : String → String → Eng σ → (Bool × String) × Eng σ
  rename_preset : PresetFile → String → String → Eng σ → Bool × Eng σ
  check_reparse : Eng σ → Bool × Eng σ
  convert_preset : PresetFile → Eng σ → Bool × Eng σ
  remove_bank : String → Eng σ → Bool × Eng σ
  create_bank : String → Eng σ → Option PresetFile × Eng σ
  get_config_mode : Eng σ → Bool
  get_current_control : Eng σ → Int
  controller_map_size : Eng σ → Int
  get_state : Eng σ → GxEngineState
  get_freq : Eng σ → Double
  get_note : Eng σ → Double
  maxlevel : Eng σ → List Double
  jcpu_load : Eng σ → Double
  jcpu_load_round : Eng σ → Int
  time_is_scaled : Eng σ → Nat
  is_rt : Eng σ → Bool
  jack_bs : Eng σ → Nat
  oscilloscope_buffer : Eng σ → List Double
  get_mul_buffer : Eng σ → Int
  tuner_switcher_active : Eng σ → Bool
  jack_load_status : Eng σ → Int
  list_subdirs : Eng σ → List FileName
  IRFileListing : Eng σ → String → List FileName
  read_audio : Eng σ → String → Option AudioData
  load_ladspalist : Eng σ → List Nat × List JsonWriter
  ladspaloader_load : Eng σ → List JsonWriter × Eng σ
  ladspaloader_plugins : Eng σ → List JsonWriter
  ladspaloader_update_plugins :
    List (Option Plugin) → List plugdesc → Eng σ → (List (String × Bool) × List Plugin) × Eng σ
  ladspaloader_update_instance : Plugin → plugdesc → Eng σ → List (String × Bool) × Eng σ
  plugin_preset_list_load : Plugin → Eng σ → List (String × Bool)
  plugin_preset_list_set : Plugin → Int → String → Eng σ → List Parameter × Eng σ
  setting_is_preset : Eng σ → Bool
  get_current_bank : Eng σ → String
  get_current_name : Eng σ → String
  get_opt_auto_save : Eng σ → Bool
  gx_print_error : String → String → Eng σ → List LogMessage × Eng σ
  tokenize : List Char → List Tok

/-! ## Sessions and the service -/

/-- A `sigc::connection` member of a session and the signal it is made on:
`slots` counts the slots of this session that are connected to the signal,
`handle` says whether the member refers to a connected slot. -/
structure Subscription where
  slots : Nat
  handle : Bool
  deriving DecidableEq, Repr

namespace Subscription

/-- `conn = signal.connect(slot)`: a new slot; the member now refers to it. -/
def connect (c : Subscription) : Subscription := { slots := c.slots + 1, handle := true }

/-- `conn.disconnect()`. -/
def disconnect (c : Subscription) : Subscription :=
  if c.handle then { slots := c.slots - 1, handle := false } else c

end Subscription

/-- The members of a `CmdConnection` the protocol code works on. -/
structure CmdConnection where
  parameter_change_notify : Bool
  midi_config_mode : Bool
  conn_preset_changed : Subscription
  conn_state_changed : Subscription
  conn_freq_changed : Subscription
  conn_display : Subscription
  conn_display_state : Subscription
  conn_selection_done : Subscription
  conn_presetlist_changed : Subscription
  conn_log_message : Subscription
  conn_midi_changed : Subscription
  conn_midi_value_changed : Subscription
  conn_osc_activation : Subscription
  conn_osc_size_changed : Subscription
  closed : Bool
  deriving DecidableEq, Repr

/-- The pointer `MyService::jwc`: null, the writer of the handler that
registered itself, or the address of a writer that no longer exists. -/
inductive JwcPtr where
  | null
  | live (jw : JsonWriter)
  | dangling
  deriving DecidableEq, Repr

/-- The members of `MyService`. `connection_list` pairs each session's
address with its state; `wire` lists, in order, every document handed to
`CmdConnection::send` with the session it was sent on; `now` is what
`time(NULL)` returns; `quit_mainloop` counts the calls of that slot;
`save_conn` is the interval in milliseconds of the timeout that will call
`save_state`, while one is connected. -/
structure MyService (σ : Type) where
  eng : Eng σ
  oldest_unsaved : Int
  last_change : Int
  save_conn : Option Int
  connection_list : List (Nat × CmdConnection)
  jwc : JwcPtr
  preg_map : Option (List (String × Bool))
  wire : List (Nat × JsonWriter)
  now : Int
  quit_mainloop : Nat
  deriving DecidableEq

/-- Handler bodies that reach only the collaborators. -/
abbrev B (σ : Type) (α : Type) : Type := W (Eng σ) α

/-- Handler bodies that reach the service and its sessions. -/
abbrev M (σ : Type) (α : Type) : Type := W (MyService σ) α

namespace B

variable {σ : Type} {α : Type}

def exec (E : Engine σ) (op : EngineOp) : B σ Unit := W.modify (E.exec op)

def read (f : Eng σ → α) : B σ α := fun s => (.ok (f s), [], s)

def run (f : Eng σ → α × Eng σ) : B σ α := fun s => (.ok (f s).1, [], (f s).2)

/-- Dereference a pointer a collaborator returned. -/
def deref (p : Option α) : B σ α :=
  match p with
  | some a => W.ret a
  | none => W.raise (Exn.Fatal "null pointer")

end B

namespace M

variable {σ : Type} {α : Type}

/-- A body over the collaborators, run inside the service. -/
def eng (x : B σ α) : M σ α :=
  W.zoom (fun s : MyService σ => s.eng) (fun e s => { s with eng := e }) x

end M

namespace W

variable {S : Type} {α : Type}

/-- A `for` loop over a container, the body run for each element in order. -/
def forEach : List α → (α → W S Unit) → W S Unit
  | [], _ => W.ret ()
  | a :: l, f => W.andThen (f a) (fun _ => forEach l f)

/-- An `if (c) { x }` without an `else`. -/
def when (c : Bool) (x : W S Unit) : W S Unit := if c then x else W.ret ()

end W

namespace JsonArray

def getString (params : JsonArray) (i : Nat) : Except Exn String :=
  match index params i with
  | .ok v => v.getString
  | .error e => .error e

def getInt (params : JsonArray) (i : Nat) : Except Exn Int :=
  match index params i with
  | .ok v => v.getInt
  | .error e => .error e

def getFloat (params : JsonArray) (i : Nat) : Except Exn Double :=
  match index params i with
  | .ok v => v.getFloat
  | .error e => .error e

def getSubParser (params : JsonArray) (i : Nat) : Except Exn JsonParser :=
  match index params i with
  | .ok v => v.getSubParser
  | .error e => .error e

end JsonArray

/-! ## The parameter directory -/

namespace ParamMap

/-- `param.hasId(id)` and, when it holds, `param[id]`. -/
def find (param : List Parameter) (id : String) : Option Parameter :=
  List.find? (fun p => decide (p.id = id)) param

def hasId (param : List Parameter) (id : String) : Bool := (find param id).isSome

def replace (param : List Parameter) (p : Parameter) : List Parameter :=
  param.map (fun q => if q.id = p.id then p else q)

end ParamMap

/-! ## Serialisers of `jsonrpc.cpp` -/

def opt_kv (k : String) (v : Option String) : JsonWriter :=
  match v with
  | some p => JsonWriter.write_kv_string k p
  | none => []

def write_plugin_state (i : Plugin) : JsonWriter :=
  [JsonEvent.begin_object] ++
  JsonWriter.write_kv_string "id" i.id ++
  JsonWriter.write_kv_bool "on_off" i.on_off ++
  JsonWriter.write_kv_bool "box_visible" i.box_visible ++
  JsonWriter.write_kv_int "position" i.position ++
  JsonWriter.write_kv_int "post_pre" i.effect_post_pre ++
  JsonWriter.write_kv_bool "stereo" i.stereo ++
  opt_kv "category" i.category ++
  opt_kv "name" i.name ++
  opt_kv "shortname" i.shortname ++
  opt_kv "description" i.description ++
  [JsonEvent.end_object]

def write_value_names {σ : Type} (E : Engine σ) (p : Parameter) : JsonWriter :=
  match p.value_names with
  | none => []
  | some pairs =>
    [JsonEvent.write_key "value_names", JsonEvent.begin_array] ++
    pairs.flatMap (fun pr =>
      [JsonEvent.begin_array, JsonEvent.write_string pr.1,
       JsonEvent.write_string (E.value_label p pr), JsonEvent.end_array]) ++
    [JsonEvent.end_array]

def write_ctl (t : ctrl_type) : JsonWriter :=
  match t with
  | .Continuous => [JsonEvent.write_key "ctl_continous", JsonEvent.write_int 1]
  | .Switch => [JsonEvent.write_key "ctl_switch", JsonEvent.write_int 1]
  | .Enum => [JsonEvent.write_key "ctl_enum", JsonEvent.write_int 1]
  | .None => []

def write_parameter_state {σ : Type} (E : Engine σ) (p : Parameter) : JsonWriter :=
  [JsonEvent.begin_object] ++
  (match p.range with
   | some (lo, up, step) =>
     JsonWriter.write_kv_float "lower_bound" lo ++ JsonWriter.write_kv_float "upper_bound" up ++
     JsonWriter.write_kv_float "step" step
   | none => []) ++
  write_value_names E p ++
  JsonWriter.write_kv_string "name" p.l_name ++
  JsonWriter.write_kv_string "group" p.l_group ++
  JsonWriter.write_kv_string "type" p.typename ++
  write_ctl p.controlType ++
  [JsonEvent.write_key "value", JsonEvent.begin_object] ++
  E.Parameter_writeJSON p ++
  [JsonEvent.end_object, JsonEvent.end_object]

/-- The loop of `unit_match` over the group array, two entries a step. -/
def unit_match_groups (id : List Char) : List String → Bool
  | [] => false
  | [p] =>
    match p.toList with
    | '.' :: q => List.isPrefixOf (q ++ ['.']) id
    | _ => false
  | p :: _ :: gl =>
    (match p.toList with
     | '.' :: q => List.isPrefixOf (q ++ ['.']) id
     | _ => false) || unit_match_groups id gl

def unit_match (id pfx : String) (gl : Option (List String)) : Bool :=
  if List.isPrefixOf pfx.toList id.toList then true
  else
    match gl with
    | none => false
    | some groups => unit_match_groups id.toList groups

/-- The array one `UiBuilderVirt` call writes. -/
def UiBuilderVirt (c : UiCall) : JsonWriter :=
  let arr (name : String) (args : JsonWriter) : JsonWriter :=
    [JsonEvent.begin_array, JsonEvent.write_string name] ++ args ++ [JsonEvent.end_array]
  let str (s : String) : JsonEvent := JsonEvent.write_string s
  match c with
  | .openTabBox label => arr "openTabBox" [str label]
  | .openVerticalBox label => arr "openVerticalBox" [str label]
  | .openVerticalBox1 label => arr "openVerticalBox1" [str label]
  | .openVerticalBox2 label => arr "openVerticalBox2" [str label]
  | .openHorizontalhideBox label => arr "openHorizontalhideBox" [str label]
  | .openHorizontalBox label => arr "openHorizontalBox" [str label]
  | .insertSpacer => arr "insertSpacer" []
  | .set_next_flags flags => arr "set_next_flags" [JsonEvent.write_int flags]
  | .create_small_rackknob id label => arr "create_small_rackknob" [str id, str label]
  | .create_small_rackknobr id label => arr "create_small_rackknobr" [str id, str label]
  | .create_master_slider id label => arr "create_master_slider" [str id, str label]
  | .create_selector_no_caption id => arr "create_selector_no_caption" [str id]
  | .create_selector id label => arr "create_selector" [str id, str label]
  | .create_spin_value id label => arr "create_spin_value" [str id, str label]
  | .create_switch_no_caption sw_type id => arr "create_switch_no_caption" [str sw_type, str id]
  | .create_switch sw_type id label => arr "create_switch" [str sw_type, str id, str label]
  | .create_port_display id label => arr "create_port_display" [str id, str label]
  | .closeBox => arr "closeBox" []
  | .load_glade data => arr "load_glade" [str data]

def write_engine_state (s : GxEngineState) : JsonWriter :=
  [JsonEvent.write_string (engine_state_to_string s)]

/-- `CmdConnection::write_error`. -/
def write_error (code : Int) (message : String) : JsonWriter :=
  [JsonEvent.write_key "error", JsonEvent.begin_object] ++
  JsonWriter.write_kv_int "code" code ++ JsonWriter.write_kv_string "message" message ++
  [JsonEvent.end_object]

/-- `CmdConnection::error_response`. -/
def error_response (code : Int) (message : String) : JsonWriter :=
  [JsonEvent.begin_object] ++ JsonWriter.write_kv_string "jsonrpc" "2.0" ++
  [JsonEvent.write_key "id", JsonEvent.write_null] ++ write_error code message ++
  [JsonEvent.end_object]

/-! ## The method table -/

/-- The method ids: `RPCM_n` labels the case `FUNCTION(n)` of `call`, `RPNM_n`
the case `PROCEDURE(n)` of `notify`. -/
inductive m_id where
  | RPCM_get
  | RPCM_parameterlist
  | RPCM_pluginlist
  | RPCM_plugin_load_ui
  | RPCM_get_rack_unit_order
  | RPCM_get_parameter
  | RPCM_get_bank
  | RPCM_banks
  | RPCM_presets
  | RPCM_bank_insert_content
  | RPCM_bank_insert_new
  | RPCM_rename_bank
  | RPCM_rename_preset
  | RPCM_bank_check_reparse
  | RPCM_bank_get_filename
  | RPCM_bank_get_contents
  | RPCM_convert_preset
  | RPCM_bank_remove
  | RPCM_get_midi_controller_map
  | RPCM_midi_get_config_mode
  | RPCM_midi_size
  | RPCM_getstate
  | RPCM_getversion
  | RPCM_get_tuning
  | RPCM_get_max_input_level
  | RPCM_get_max_output_level
  | RPCM_get_tuner_freq
  | RPCM_get_oscilloscope_info
  | RPCM_get_oscilloscope_mul_buffer
  | RPCM_get_tuner_switcher_active
  | RPCM_jack_cpu_load
  | RPCM_get_jack_load_status
  | RPCM_load_impresp_dirs
  | RPCM_read_audio
  | RPCM_load_ladspalist
  | RPCM_ladspaloader_load
  | RPCM_ladspaloader_get_plugins
  | RPCM_ladspaloader_update_plugins
  | RPCM_ladspaloader_update_instance
  | RPCM_plugin_preset_list_load
  | RPCM_queryunit
  | RPCM_desc
  | RPCM_list
  | RPNM_insert_rack_unit
  | RPNM_remove_rack_unit
  | RPNM_bank_reorder
  | RPNM_reorder_preset
  | RPNM_erase_preset
  | RPNM_bank_set_flag
  | RPNM_pf_append
  | RPNM_pf_insert_before
  | RPNM_pf_insert_after
  | RPNM_bank_save
  | RPNM_pf_save
  | RPNM_plugin_preset_list_set
  | RPNM_plugin_preset_list_save
  | RPNM_plugin_preset_list_remove
  | RPNM_midi_set_config_mode
  | RPNM_request_midi_value_update
  | RPNM_midi_deleteParameter
  | RPNM_midi_set_current_control
  | RPNM_midi_modifyCurrent
  | RPNM_set
  | RPNM_setpreset
  | RPNM_setstate
  | RPNM_switch_tuner
  | RPNM_tuner_switcher_activate
  | RPNM_tuner_switcher_deactivate
  | RPNM_tuner_switcher_toggle
  | RPNM_reload_impresp_list
  | RPNM_ladspaloader_set_plugins
  | RPNM_shutdown
  | RPNM_listen
  | RPNM_unlisten
  | RPNM_save_current
  | RPNM_save_preset
  | RPNM_tuner_used_for_display
  | RPNM_tuner_used_for_livedisplay
  | RPNM_clear_oscilloscope_buffer
  | RPNM_set_oscilloscope_mul_buffer
  deriving DecidableEq, Repr

structure methodnames where
  name : String
  m_id : m_id
  deriving DecidableEq, Repr

/-- Modelled from the spec: `jsonrpc_methods.cc`, the generated lookup table, is
not among the sources at hand ("maps method names to two disjoint handler
classes", calls and notifications). The table holds, under its own name, every
method the two switches handle. -/
def wordlist : List methodnames :=
  [methodnames.mk "get" m_id.RPCM_get,
   methodnames.mk "parameterlist" m_id.RPCM_parameterlist,
   methodnames.mk "pluginlist" m_id.RPCM_pluginlist,
   methodnames.mk "plugin_load_ui" m_id.RPCM_plugin_load_ui,
   methodnames.mk "get_rack_unit_order" m_id.RPCM_get_rack_unit_order,
   methodnames.mk "get_parameter" m_id.RPCM_get_parameter,
   methodnames.mk "get_bank" m_id.RPCM_get_bank,
   methodnames.mk "banks" m_id.RPCM_banks,
   methodnames.mk "presets" m_id.RPCM_presets,
   methodnames.mk "bank_insert_content" m_id.RPCM_bank_insert_content,
   methodnames.mk "bank_insert_new" m_id.RPCM_bank_insert_new,
   methodnames.mk "rename_bank" m_id.RPCM_rename_bank,
   methodnames.mk "rename_preset" m_id.RPCM_rename_preset,
   methodnames.mk "bank_check_reparse" m_id.RPCM_bank_check_reparse,
   methodnames.mk "bank_get_filename" m_id.RPCM_bank_get_filename,
   methodnames.mk "bank_get_contents" m_id.RPCM_bank_get_contents,
   methodnames.mk "convert_preset" m_id.RPCM_convert_preset,
   methodnames.mk "bank_remove" m_id.RPCM_bank_remove,
   methodnames.mk "get_midi_controller_map" m_id.RPCM_get_midi_controller_map,
   methodnames.mk "midi_get_config_mode" m_id.RPCM_midi_get_config_mode,
   methodnames.mk "midi_size" m_id.RPCM_midi_size,
   methodnames.mk "getstate" m_id.RPCM_getstate,
   methodnames.mk "getversion" m_id.RPCM_getversion,
   methodnames.mk "get_tuning" m_id.RPCM_get_tuning,
   methodnames.mk "get_max_input_level" m_id.RPCM_get_max_input_level,
   methodnames.mk "get_max_output_level" m_id.RPCM_get_max_output_level,
   methodnames.mk "get_tuner_freq" m_id.RPCM_get_tuner_freq,
   methodnames.mk "get_oscilloscope_info" m_id.RPCM_get_oscilloscope_info,
   methodnames.mk "get_oscilloscope_mul_buffer" m_id.RPCM_get_oscilloscope_mul_buffer,
   methodnames.mk "get_tuner_switcher_active" m_id.RPCM_get_tuner_switcher_active,
   methodnames.mk "jack_cpu_load" m_id.RPCM_jack_cpu_load,
   methodnames.mk "get_jack_load_status" m_id.RPCM_get_jack_load_status,
   methodnames.mk "load_impresp_dirs" m_id.RPCM_load_impresp_dirs,
   methodnames.mk "read_audio" m_id.RPCM_read_audio,
   methodnames.mk "load_ladspalist" m_id.RPCM_load_ladspalist,
   methodnames.mk "ladspaloader_load" m_id.RPCM_ladspaloader_load,
   methodnames.mk "ladspaloader_get_plugins" m_id.RPCM_ladspaloader_get_plugins,
   methodnames.mk "ladspaloader_update_plugins" m_id.RPCM_ladspaloader_update_plugins,
   methodnames.mk "ladspaloader_update_instance" m_id.RPCM_ladspaloader_update_instance,
   methodnames.mk "plugin_preset_list_load" m_id.RPCM_plugin_preset_list_load,
   methodnames.mk "queryunit" m_id.RPCM_queryunit,
   methodnames.mk "desc" m_id.RPCM_desc,
   methodnames.mk "list" m_id.RPCM_list,
   methodnames.mk "insert_rack_unit" m_id.RPNM_insert_rack_unit,
   methodnames.mk "remove_rack_unit" m_id.RPNM_remove_rack_unit,
   methodnames.mk "bank_reorder" m_id.RPNM_bank_reorder,
   methodnames.mk "reorder_preset" m_id.RPNM_reorder_preset,
   methodnames.mk "erase_preset" m_id.RPNM_erase_preset,
   methodnames.mk "bank_set_flag" m_id.RPNM_bank_set_flag,
   methodnames.mk "pf_append" m_id.RPNM_pf_append,
   methodnames.mk "pf_insert_before" m_id.RPNM_pf_insert_before,
   methodnames.mk "pf_insert_after" m_id.RPNM_pf_insert_after,
   methodnames.mk "bank_save" m_id.RPNM_bank_save,
   methodnames.mk "pf_save" m_id.RPNM_pf_save,
   methodnames.mk "plugin_preset_list_set" m_id.RPNM_plugin_preset_list_set,
   methodnames.mk "plugin_preset_list_save" m_id.RPNM_plugin_preset_list_save,
   methodnames.mk "plugin_preset_list_remove" m_id.RPNM_plugin_preset_list_remove,
   methodnames.mk "midi_set_config_mode" m_id.RPNM_midi_set_config_mode,
   methodnames.mk "request_midi_value_update" m_id.RPNM_request_midi_value_update,
   methodnames.mk "midi_deleteParameter" m_id.RPNM_midi_deleteParameter,
   methodnames.mk "midi_set_current_control" m_id.RPNM_midi_set_current_control,
   methodnames.mk "midi_modifyCurrent" m_id.RPNM_midi_modifyCurrent,
   methodnames.mk "set" m_id.RPNM_set,
   methodnames.mk "setpreset" m_id.RPNM_setpreset,
   methodnames.mk "setstate" m_id.RPNM_setstate,
   methodnames.mk "switch_tuner" m_id.RPNM_switch_tuner,
   methodnames.mk "tuner_switcher_activate" m_id.RPNM_tuner_switcher_activate,
   methodnames.mk "tuner_switcher_deactivate" m_id.RPNM_tuner_switcher_deactivate,
   methodnames.mk "tuner_switcher_toggle" m_id.RPNM_tuner_switcher_toggle,
   methodnames.mk "reload_impresp_list" m_id.RPNM_reload_impresp_list,
   methodnames.mk "ladspaloader_set_plugins" m_id.RPNM_ladspaloader_set_plugins,
   methodnames.mk "shutdown" m_id.RPNM_shutdown,
   methodnames.mk "listen" m_id.RPNM_listen,
   methodnames.mk "unlisten" m_id.RPNM_unlisten,
   methodnames.mk "save_current" m_id.RPNM_save_current,
   methodnames.mk "save_preset" m_id.RPNM_save_preset,
   methodnames.mk "tuner_used_for_display" m_id.RPNM_tuner_used_for_display,
   methodnames.mk "tuner_used_for_livedisplay" m_id.RPNM_tuner_used_for_livedisplay,
   methodnames.mk "clear_oscilloscope_buffer" m_id.RPNM_clear_oscilloscope_buffer,
   methodnames.mk "set_oscilloscope_mul_buffer" m_id.RPNM_set_oscilloscope_mul_buffer]

/-- `in_word_set(str, len)`: the entry of the table under that name, if any. -/
def in_word_set (str : String) : Option methodnames :=
  List.find? (fun mn => decide (mn.name = str)) wordlist

/-- The ids `call` has a case for. -/
def m_id.is_call (m : m_id) : Bool :=
  match m with
  | .RPCM_get => true
  | .RPCM_parameterlist => true
  | .RPCM_pluginlist => true
  | .RPCM_plugin_load_ui => true
  | .RPCM_get_rack_unit_order => true
  | .RPCM_get_parameter => true
  | .RPCM_get_bank => true
  | .RPCM_banks => true
  | .RPCM_presets => true
  | .RPCM_bank_insert_content => true
  | .RPCM_bank_insert_new => true
  | .RPCM_rename_bank => true
  | .RPCM_rename_preset => true
  | .RPCM_bank_check_reparse => true
  | .RPCM_bank_get_filename => true
  | .RPCM_bank_get_contents => true
  | .RPCM_convert_preset => true
  | .RPCM_bank_remove => true
  | .RPCM_get_midi_controller_map => true
  | .RPCM_midi_get_config_mode => true
  | .RPCM_midi_size => true
  | .RPCM_getstate => true
  | .RPCM_getversion => true
  | .RPCM_get_tuning => true
  | .RPCM_get_max_input_level => true
  | .RPCM_get_max_output_level => true
  | .RPCM_get_tuner_freq => true
  | .RPCM_get_oscilloscope_info => true
  | .RPCM_get_oscilloscope_mul_buffer => true
  | .RPCM_get_tuner_switcher_active => true
  | .RPCM_jack_cpu_load => true
  | .RPCM_get_jack_load_status => true
  | .RPCM_load_impresp_dirs => true
  | .RPCM_read_audio => true
  | .RPCM_load_ladspalist => true
  | .RPCM_ladspaloader_load => true
  | .RPCM_ladspaloader_get_plugins => true
  | .RPCM_ladspaloader_update_plugins => true
  | .RPCM_ladspaloader_update_instance => true
  | .RPCM_plugin_preset_list_load => true
  | .RPCM_queryunit => true
  | .RPCM_desc => true
  | .RPCM_list => true
  | _ => false

/-! ## Sending and the fan-out -/

namespace CmdConnection

variable {σ : Type}

/-- `CmdConnection::send` on the session at address `this`: the finished
document is handed to the session's socket, or to its `outgoing` queue when
the socket does not take all of it. -/
def send (this : Nat) (jw : JsonWriter) : M σ Unit :=
  W.modify (fun s => { s with wire := s.wire ++ [(this, jw)] })

/-- `CmdConnection::send_notify_end(jw, send_out)`: the writer after the call. -/
def send_notify_end (this : Nat) (jw : JsonWriter) (send_out : Bool) : M σ JsonWriter :=
  if send_out then
    W.andThen (send this (jw ++ JsonWriter.send_notify_end))
      (fun _ => W.ret (jw ++ JsonWriter.send_notify_end))
  else W.ret (jw ++ JsonWriter.send_notify_end)

end CmdConnection

namespace MyService

variable {σ : Type}

/-- `MyService::broadcast_listeners`; a null `sender` is `none`. -/
def broadcast_listeners : List (Nat × CmdConnection) → Option Nat → Bool
  | [], _ => false
  | p :: l, sender =>
    if some p.1 ≠ sender ∧ p.2.parameter_change_notify = true then true
    else broadcast_listeners l sender

/-- The loop of `MyService::broadcast` over `connection_list`. -/
def broadcast_loop (sender : Option Nat) (jw : JsonWriter) :
    List (Nat × CmdConnection) → M σ Unit
  | [] => W.ret ()
  | p :: l =>
    W.andThen
      (if some p.1 ≠ sender ∧ p.2.parameter_change_notify = true then CmdConnection.send p.1 jw
       else W.ret ())
      (fun _ => broadcast_loop sender jw l)

/-- `MyService::broadcast(sender, jw)`. -/
def broadcast (sender : Option Nat) (jw : JsonWriter) : M σ Unit :=
  fun s => broadcast_loop sender jw s.connection_list s

/-- Assignment `m[k] = v` on a `std::map<std::string,bool>`, kept in key order. -/
def map_assign : List (String × Bool) → String → Bool → List (String × Bool)
  | [], k, v => [(k, v)]
  | e :: m, k, v =>
    if k = e.1 then (k, v) :: m
    else if k < e.1 then (k, v) :: e :: m
    else e :: map_assign m k v

/-- `MyService::on_param_insert_remove`, as far as it touches `preg_map`. -/
def on_param_insert_remove (id : String) (inserted : Bool) : M σ Unit :=
  W.modify (fun s =>
    match s.preg_map with
    | some m => { s with preg_map := some (map_assign m id inserted) }
    | none => s)

/-- `MyService::on_param_value_changed`: nothing without a registered writer;
the parameter's id and value on the registered one. -/
def on_param_value_changed (E : Engine σ) (p : Parameter) : M σ Unit := fun s =>
  match s.jwc with
  | .null => (.ok (), [], s)
  | .dangling => (.error (Exn.Fatal "dangling pointer"), [], s)
  | .live jw =>
    match p.value with
    | .Int v =>
      (.ok (), [], { s with jwc := .live (jw ++ [.write_string p.id, .write_int v]) })
    | .Bool v =>
      (.ok (), [], { s with jwc := .live (jw ++ [.write_string p.id, .write_bool v]) })
    | .Float v =>
      (.ok (), [], { s with jwc := .live (jw ++ [.write_string p.id, .write_float v]) })
    | .String v =>
      (.ok (), [], { s with jwc := .live (jw ++ [.write_string p.id, .write_string v]) })
    | .JConv v =>
      (.ok (), [], { s with jwc := .live (jw ++ [.write_string p.id] ++ E.JConv_writeJSON v) })
    | _ => (.error (Exn.Fatal "assert(false)"), [], { s with jwc := .live (jw ++ [.write_string p.id]) })

/-- `MyService::serialize_parameter_change(jw)`. -/
def serialize_parameter_change (E : Engine σ) : M σ Unit := do
  let s ← W.get
  match s.preg_map with
  | none => W.raise (Exn.Fatal "null pointer")
  | some m =>
    W.write [.begin_array]
    W.forEach m (fun i => if !i.2 then W.write [.write_string i.1] else W.ret ())
    W.write [.end_array]
    W.write [.begin_array]
    W.forEach m (fun i =>
      if i.2 then
        match ParamMap.find s.eng.param i.1 with
        | some p => W.write (E.writeJSON_one p)
        | none => W.raise (Exn.Fatal "null pointer")
      else W.ret ())
    W.write [.end_array]

/-- The constant `min_idle` of `save_state`, in seconds: "after this idle time
save changed state". -/
def min_idle : Int := 2

/-- The constant `max_delay` of `save_state`, in seconds: "maximum delay for save
changed state". -/
def max_delay : Int := 15

/-- `MyService::save_state`. -/
def save_state (E : Engine σ) : M σ Unit := fun s =>
  if E.get_opt_auto_save s.eng then (.ok (), [], s)
  else if s.oldest_unsaved = 0 then
    (.ok (), [],
      { s with oldest_unsaved := s.now, last_change := s.now, save_conn := some (1000 * min_idle) })
  else if s.now - s.oldest_unsaved ≥ max_delay ∨ s.now - s.last_change ≥ min_idle then
    (.ok (), [], { s with eng := E.exec .save_to_state s.eng, oldest_unsaved := 0,
                          save_conn := none })
  else
    (.ok (), [],
      { s with last_change := s.now,
               oldest_unsaved := if s.oldest_unsaved = 0 then s.now else s.oldest_unsaved,
               save_conn := some (1000 * min_idle) })

end MyService

/-! ## The cases of `CmdConnection::call`

Each `FUNCTION(n)` case is the definition `FUNCTION_n`. Where the C++ leaves the
order of evaluation of the arguments of one call open, they are evaluated from
left to right. -/

section handlers

variable {σ : Type}

/-- A loop `while (jps.peek() != end_array) { item }` over a sub-parser; the
budget bounds the number of rounds of the embedding. -/
def parse_array_loop {α : Type} (item : JsonParser → Except Exn (α × JsonParser)) :
    Nat → JsonParser → List α → Except Exn (List α × JsonParser)
  | 0, _, _ => .error (Exn.Fatal "loop budget")
  | n + 1, jp, acc =>
    match jp.peek with
    | .error e => .error e
    | .ok token.end_array => .ok (acc, jp)
    | .ok _ =>
      match item jp with
      | .ok (a, jp1) => parse_array_loop item n jp1 (acc ++ [a])
      | .error e => .error e

/-- The block `jps.next(begin_array); while (...) { item } jps.next(end_array)`. -/
def parse_array {α : Type} (item : JsonParser → Except Exn (α × JsonParser))
    (jps : JsonParser) : Except Exn (List α) :=
  match jps.next token.begin_array with
  | .error e => .error e
  | .ok jp1 =>
    match parse_array_loop item (jp1.toks.length + 1) jp1 [] with
    | .error e => .error e
    | .ok (l, jp2) =>
      match jp2.next token.end_array with
      | .error e => .error e
      | .ok _ => .ok l

def plugin_array (l : List Plugin) : JsonWriter :=
  [JsonEvent.begin_array] ++ l.flatMap write_plugin_state ++ [JsonEvent.end_array]

def FUNCTION_get (E : Engine σ) (params : JsonArray) : B σ Unit := do
  W.write [.begin_object]
  W.forEach params (fun i => do
    let attr ← W.ofExcept i.getString
    let s ← W.get
    match ParamMap.find s.param attr with
    | none =>
      W.write [.write_key attr]
      if attr = "sys.active_mono_plugins" then
        W.write (plugin_array (E.ordered_mono_list s))
      else if attr = "sys.active_stereo_plugins" then
        W.write (plugin_array (E.ordered_stereo_list s))
      else if attr = "sys.visible_mono_plugins" then
        W.write (plugin_array (E.ordered_list s false))
      else if attr = "sys.visible_stereo_plugins" then
        W.write (plugin_array (E.ordered_list s true))
      else
        W.write [.write_string "unknown"]
    | some p => W.write (E.Parameter_writeJSON p))
  W.write [.end_object]

def FUNCTION_parameterlist (E : Engine σ) : B σ Unit := do
  let s ← W.get
  W.write (E.ParamMap_writeJSON s)

def FUNCTION_pluginlist (E : Engine σ) : B σ Unit := do
  let s ← W.get
  W.write (E.pluginlist_writeJSON s)

def FUNCTION_plugin_load_ui (E : Engine σ) (params : JsonArray) : B σ Unit := do
  let id ← W.ofExcept (JsonArray.getString params 0)
  let s ← W.get
  let pd ← B.deref (E.lookup_plugin s id)
  match pd.load_ui with
  | none => W.write [.write_null]
  | some ui => W.write ([.begin_array] ++ ui.flatMap UiBuilderVirt ++ [.end_array])

def FUNCTION_get_rack_unit_order (E : Engine σ) (params : JsonArray) : B σ Unit := do
  let stereo ← W.ofExcept (JsonArray.getInt params 0)
  let s ← W.get
  W.write ([.begin_array] ++ (E.get_rack_unit_order s (decide (stereo ≠ 0))).map .write_string ++
    [.end_array])

def FUNCTION_get_parameter (E : Engine σ) (params : JsonArray) : B σ Unit := do
  let s ← W.get
  W.write [.begin_object]
  if params.length = 0 then
    W.forEach s.param (fun p => W.write ([.write_key p.id] ++ write_parameter_state E p))
  else
    W.forEach params (fun i => do
      let attr ← W.ofExcept i.getString
      match ParamMap.find s.param attr with
      | some p => W.write ([.write_key attr] ++ write_parameter_state E p)
      | none => W.ret ())
  W.write [.end_object]

def FUNCTION_get_bank (E : Engine σ) (params : JsonArray) : B σ Unit := do
  let name ← W.ofExcept (JsonArray.getString params 0)
  let s ← W.get
  match E.get_file s name with
  | none => W.raise (Exn.RpcError (-32602) "Invalid params -- unknown bank")
  | some pf => W.write (E.PresetFile_writeJSON_remote s pf)

def FUNCTION_banks (E : Engine σ) : B σ Unit := do
  let s ← W.get
  W.write ([.begin_array] ++ (E.banks s).flatMap (E.PresetFile_writeJSON_remote s) ++ [.end_array])

def FUNCTION_presets (E : Engine σ) (params : JsonArray) : B σ Unit := do
  let name ← W.ofExcept (JsonArray.getString params 0)
  let s ← W.get
  match E.get_file s name with
  | none => W.raise (Exn.RpcError (-32602) "Invalid params -- unknown bank")
  | some pf =>
    W.write ([.begin_array] ++ (E.PresetFile_names s pf).map .write_string ++ [.end_array])

def FUNCTION_bank_insert_content (E : Engine σ) (params : JsonArray) : B σ Unit := do
  let content ← W.ofExcept (JsonArray.getString params 1)
  let uri ← W.ofExcept (JsonArray.getString params 0)
  let f ← B.run (E.bank_insert_content uri content)
  let s ← W.get
  match f with
  | some pf => W.write (E.PresetFile_writeJSON_remote s pf)
  | none => W.ret ()

def FUNCTION_bank_insert_new (E : Engine σ) (params : JsonArray) : B σ Unit := do
  let name ← W.ofExcept (JsonArray.getString params 0)
  let f ← B.run (E.bank_insert_new name)
  let pf ← B.deref f
  let s ← W.get
  W.write (E.PresetFile_writeJSON_remote s pf)

def FUNCTION_rename_bank (E : Engine σ) (params : JsonArray) : B σ Unit := do
  let newname ← W.ofExcept (JsonArray.getString params 1)
  W.write [.begin_array]
  let oldname ← W.ofExcept (JsonArray.getString params 0)
  let r ← B.run (E.rename_bank oldname newname)
  W.write [.write_bool r.1]
  W.write [.write_string r.2]
  W.write [.end_array]

def FUNCTION_rename_preset (E : Engine σ) (params : JsonArray) : B σ Unit := do
  let newname ← W.ofExcept (JsonArray.getString params 2)
  let name ← W.ofExcept (JsonArray.getString params 1)
  let bank ← W.ofExcept (JsonArray.getString params 0)
  let s ← W.get
  let pf ← B.deref (E.get_file s bank)
  let r ← B.run (E.rename_preset pf name newname)
  W.write [.write_bool r]

def FUNCTION_bank_check_reparse (E : Engine σ) : B σ Unit := do
  let r ← B.run E.check_reparse
  W.write [.write_bool r]

def FUNCTION_bank_get_filename (E : Engine σ) (params : JsonArray) : B σ Unit := do
  let bank ← W.ofExcept (JsonArray.getString params 0)
  let s ← W.get
  let pf ← B.deref (E.get_file s bank)
  W.write [.write_string (E.PresetFile_get_filename s pf)]

def FUNCTION_bank_get_contents (E : Engine σ) (params : JsonArray) : B σ Unit := do
  let bank ← W.ofExcept (JsonArray.getString params 0)
  let s ← W.get
  let pf ← B.deref (E.get_file s bank)
  let fname := E.PresetFile_get_filename s pf
  W.write [.begin_array, .write_string fname, .write_string (E.file_contents s fname), .end_array]

def FUNCTION_convert_preset (E : Engine σ) (params : JsonArray) : B σ Unit := do
  let bank ← W.ofExcept (JsonArray.getString params 0)
  let s ← W.get
  let pf ← B.deref (E.get_file s bank)
  let r ← B.run (E.convert_preset pf)
  W.write [.write_bool r]

def FUNCTION_bank_remove (E : Engine σ) (params : JsonArray) : B σ Unit := do
  let bank ← W.ofExcept (JsonArray.getString params 0)
  let r ← B.run (E.remove_bank bank)
  W.write [.write_bool r]

def FUNCTION_get_midi_controller_map (E : Engine σ) : B σ Unit := do
  let s ← W.get
  W.write (E.controller_map_writeJSON s)

def FUNCTION_midi_get_config_mode (E : Engine σ) : B σ Unit := do
  let s ← W.get
  let mode := E.get_config_mode s
  W.write [.begin_array, .write_bool mode,
    .write_int (if mode then E.get_current_control s else -1), .end_array]

def FUNCTION_midi_size (E : Engine σ) : B σ Unit := do
  let s ← W.get
  W.write [.write_int (E.controller_map_size s)]

def FUNCTION_getstate (E : Engine σ) : B σ Unit := do
  let s ← W.get
  W.write (write_engine_state (E.get_state s))

def FUNCTION_getversion (E : Engine σ) : B σ Unit :=
  W.write [.begin_array, .write_int 1, .write_int 0, .write_string E.GX_VERSION, .end_array]

def FUNCTION_get_tuning (E : Engine σ) : B σ Unit := do
  let s ← W.get
  W.write ([.begin_object] ++ JsonWriter.write_kv_float "frequency" (E.get_freq s) ++
    JsonWriter.write_kv_float "note" (E.get_note s) ++ [.end_object])

def FUNCTION_get_max_input_level : B σ Unit :=
  W.write [.write_float (Double.ofInt 0)]

def FUNCTION_get_max_output_level (E : Engine σ) (params : JsonArray) : B σ Unit := do
  let s ← W.get
  let m := E.maxlevel s
  let n ← W.ofExcept (JsonArray.getInt params 0)
  W.write [.begin_array]
  W.write ((List.range (n % 2 ^ 32).toNat).map
    (fun i => JsonEvent.write_float ((m.get? i).getD (Double.ofInt 0))))
  B.exec E .maxlevel_reset
  W.write [.end_array]

def FUNCTION_get_tuner_freq (E : Engine σ) : B σ Unit := do
  let s ← W.get
  W.write [.write_float (E.get_freq s)]

def FUNCTION_get_oscilloscope_info (E : Engine σ) : B σ Unit := do
  let s ← W.get
  W.write [.begin_array, .write_int (E.jcpu_load_round s), .write_uint (E.time_is_scaled s),
    .write_bool (E.is_rt s), .write_uint (E.jack_bs s),
    .write_uint (E.oscilloscope_buffer s).length]
  W.write ([.begin_array] ++ (E.oscilloscope_buffer s).map .write_float ++ [.end_array])
  W.write [.end_array]

def FUNCTION_get_oscilloscope_mul_buffer (E : Engine σ) : B σ Unit := do
  let s ← W.get
  W.write [.write_int (E.get_mul_buffer s)]

def FUNCTION_get_tuner_switcher_active (E : Engine σ) : B σ Unit := do
  let s ← W.get
  W.write [.write_bool (E.tuner_switcher_active s)]

def FUNCTION_jack_cpu_load (E : Engine σ) : B σ Unit := do
  let s ← W.get
  W.write [.write_float (E.jcpu_load s)]

def FUNCTION_get_jack_load_status (E : Engine σ) : B σ Unit := do
  let s ← W.get
  W.write [.write_int (E.jack_load_status s)]

def file_name_arrays (l : List FileName) : JsonWriter :=
  l.flatMap (fun i =>
    [JsonEvent.begin_array, JsonEvent.write_string i.filename,
     JsonEvent.write_string i.displayname, JsonEvent.end_array])

def FUNCTION_load_impresp_dirs (E : Engine σ) : B σ Unit := do
  let s ← W.get
  W.write ([.begin_array] ++ file_name_arrays (E.list_subdirs s) ++ [.end_array])

def FUNCTION_read_audio (E : Engine σ) (params : JsonArray) : B σ Unit := do
  let path ← W.ofExcept (JsonArray.getString params 0)
  let s ← W.get
  match E.read_audio s path with
  | none => W.ret ()
  | some a =>
    W.write [.begin_array, .write_uint a.audio_size, .write_int a.audio_chan,
      .write_int a.audio_type, .write_int a.audio_form, .write_int a.audio_rate]
    W.write ([.begin_array] ++
      (List.range ((a.audio_size * (a.audio_chan % 2 ^ 32).toNat) % 2 ^ 32)).map
        (fun i => JsonEvent.write_float ((a.buffer.get? i).getD (Double.ofInt 0))) ++
      [.end_array])
    W.write [.end_array]

def FUNCTION_load_ladspalist (E : Engine σ) : B σ Unit := do
  let s ← W.get
  let r := E.load_ladspalist s
  W.write ([.begin_array] ++ r.1.map (fun i => JsonEvent.write_uint (i % 2 ^ 32)) ++ [.end_array])
  W.write ([.begin_array] ++ r.2.flatMap id ++ [.end_array])

def FUNCTION_ladspaloader_load (E : Engine σ) : B σ Unit := do
  let p ← B.run E.ladspaloader_load
  W.write ([.begin_array] ++ p.flatMap id ++ [.end_array])

def FUNCTION_ladspaloader_get_plugins (E : Engine σ) : B σ Unit := do
  let s ← W.get
  W.write ([.begin_array] ++ (E.ladspaloader_plugins s).flatMap id ++ [.end_array])

def FUNCTION_plugin_preset_list_load (E : Engine σ) (params : JsonArray) : B σ Unit := do
  let id ← W.ofExcept (JsonArray.getString params 0)
  let s ← W.get
  let pd ← B.deref (E.find_plugin s id)
  W.write ([.begin_array] ++
    (E.plugin_preset_list_load pd s).flatMap (fun i =>
      [JsonEvent.begin_array, JsonEvent.write_string i.1, JsonEvent.write_bool i.2,
       JsonEvent.end_array]) ++
    [.end_array])

def FUNCTION_queryunit (E : Engine σ) (params : JsonArray) : B σ Unit := do
  if params.length ≠ 1 then
    W.raise (Exn.RpcError (-32602) "Invalid params -- 1 parameter expected")
  else
    let id ← W.ofExcept (JsonArray.getString params 0)
    let s ← W.get
    match E.find_plugin s id with
    | none => W.raise (Exn.RpcError (-32602) "Invalid params -- plugin not found")
    | some p =>
      W.write [.begin_object]
      W.forEach s.param (fun i =>
        if unit_match i.id (p.id ++ ".") p.groups then
          W.write ([.write_key i.id] ++ write_parameter_state E i)
        else W.ret ())
      W.write [.end_object]

def FUNCTION_desc (E : Engine σ) (params : JsonArray) : B σ Unit := do
  let s ← W.get
  W.write [.begin_object]
  W.forEach params (fun i => do
    let attr ← W.ofExcept i.getString
    W.write [.write_key attr]
    match ParamMap.find s.param attr with
    | none => W.write [.write_string "unknown"]
    | some p => W.write (write_parameter_state E p))
  W.write [.end_object]

def FUNCTION_list (params : JsonArray) : B σ Unit := do
  let pfx ← W.ofExcept (JsonArray.getString params 0)
  let s ← W.get
  W.write [.begin_array]
  W.forEach s.param (fun i =>
    if List.isPrefixOf pfx.toList i.id.toList then W.write [.write_string i.id] else W.ret ())
  W.write [.end_array]

end handlers

section service_handlers

variable {σ : Type}

namespace CmdConnection

/-- Assignment to members of the session at address `this`. -/
def update (this : Nat) (f : CmdConnection → CmdConnection) : M σ Unit :=
  W.modify (fun s =>
    { s with connection_list :=
        s.connection_list.map (fun p => if p.1 = this then (p.1, f p.2) else p) })

/-- `CmdConnection::listen`. -/
def listen (E : Engine σ) (this : Nat) (tp : String) : M σ Unit := do
  let all := decide (tp = "all")
  W.when (all || tp = "preset") (
      update this (fun c => { c with conn_preset_changed := c.conn_preset_changed.connect }))
  W.when (all || tp = "state") (
      update this (fun c => { c with conn_state_changed := c.conn_state_changed.connect }))
  W.when (all || tp = "freq") (
      update this (fun c => { c with conn_freq_changed := c.conn_freq_changed.connect }))
  W.when (all || tp = "display") (
      update this (fun c => { c with conn_display := c.conn_display.connect,
                                     conn_display_state := c.conn_display_state.connect }))
  W.when (all || tp = "tuner") (
      update this (fun c => { c with conn_selection_done := c.conn_selection_done.connect }))
  W.when (all || tp = "presetlist_changed") (
      update this (fun c => { c with conn_presetlist_changed := c.conn_presetlist_changed.connect }))
  W.when (all || tp = "logger") (do
      update this (fun c => { c with conn_log_message := c.conn_log_message.connect })
      M.eng (B.exec E .logger_unplug_queue))
  W.when (all || tp = "midi") (
      update this (fun c => { c with conn_midi_changed := c.conn_midi_changed.connect,
                                     conn_midi_value_changed := c.conn_midi_value_changed.connect }))
  W.when (all || tp = "oscilloscope") (
      update this (fun c => { c with conn_osc_size_changed := c.conn_osc_size_changed.connect,
                                     conn_osc_activation := c.conn_osc_activation.connect }))
  W.when (all || tp = "param") (
      update this (fun c => { c with parameter_change_notify := true }))

/-- `CmdConnection::unlisten`. -/
def unlisten (this : Nat) (tp : String) : M σ Unit := do
  let all := decide (tp = "all")
  W.when (all || tp = "preset") (
      update this (fun c => { c with conn_preset_changed := c.conn_preset_changed.disconnect }))
  W.when (all || tp = "state") (
      update this (fun c => { c with conn_state_changed := c.conn_state_changed.disconnect }))
  W.when (all || tp = "freq") (
      update this (fun c => { c with conn_freq_changed := c.conn_freq_changed.disconnect }))
  W.when (all || tp = "display") (
      update this (fun c => { c with conn_display := c.conn_display.disconnect,
                                     conn_display_state := c.conn_display_state.disconnect }))
  W.when (all || tp = "tuner") (
      update this (fun c => { c with conn_selection_done := c.conn_selection_done.disconnect }))
  W.when (all || tp = "presetlist_changed") (
      update this (fun c =>
        { c with conn_presetlist_changed := c.conn_presetlist_changed.disconnect }))
  W.when (all || tp = "logger") (
      update this (fun c => { c with conn_log_message := c.conn_log_message.disconnect }))
  W.when (all || tp = "midi") (
      update this (fun c => { c with conn_midi_changed := c.conn_midi_changed.disconnect,
                                     conn_midi_value_changed := c.conn_midi_value_changed.disconnect }))

/-- `CmdConnection::send_rack_changed`. -/
def send_rack_changed (E : Engine σ) (this : Nat) (stereo : Bool) : M σ Unit := do
  let s ← W.get
  if !MyService.broadcast_listeners s.connection_list (some this) then
    W.ret ()
  else
    let jw := JsonWriter.send_notify_begin "rack_units_changed" ++
      [.begin_array, .write_bool stereo] ++
      (E.get_rack_unit_order s.eng stereo).map .write_string ++ [.end_array]
    let jw ← send_notify_end this jw false
    MyService.broadcast (some this) jw

end CmdConnection

/-- The document the two `ladspaloader_update` cases push: `parameters` with
the serialised parameter change. -/
def parameters_push (E : Engine σ) (this : Nat) : M σ Unit := do
  let s ← W.get
  W.when (!MyService.broadcast_listeners s.connection_list (some this)) (do
    let r ← W.capture (MyService.serialize_parameter_change E)
    let jws := JsonWriter.send_notify_begin "parameters" ++ [.begin_array] ++ r.2 ++ [.end_array]
    let jws ← CmdConnection.send_notify_end this jws false
    MyService.broadcast (some this) jws)

def FUNCTION_ladspaloader_update_plugins (E : Engine σ) (this : Nat) (params : JsonArray) :
    M σ Unit := do
  let jps ← W.ofExcept (JsonArray.getSubParser params 0)
  let s ← W.get
  let to_remove ← W.ofExcept (parse_array
    (fun jp =>
      match jp.next token.value_string with
      | .ok jp1 => .ok (E.lookup_plugin s.eng jp1.current_value, jp1)
      | .error e => .error e) jps)
  let jps ← W.ofExcept (JsonArray.getSubParser params 1)
  let ml ← W.ofExcept (parse_array E.plugdesc_readJSON jps)
  W.modify (fun s => { s with preg_map := some [] })
  let r ← M.eng (B.run (E.ladspaloader_update_plugins to_remove ml))
  W.forEach r.1 (fun i => MyService.on_param_insert_remove i.1 i.2)
  W.write [.begin_array]
  MyService.serialize_parameter_change E
  W.write ([.begin_array] ++ r.2.flatMap E.Plugin_writeJSON ++ [.end_array])
  W.write [.end_array]
  parameters_push E this
  W.modify (fun s => { s with preg_map := none })

def FUNCTION_ladspaloader_update_instance (E : Engine σ) (this : Nat) (params : JsonArray) :
    M σ Unit := do
  let jps ← W.ofExcept (JsonArray.getSubParser params 1)
  let pdesc ← W.ofExcept (E.plugdesc_readJSON jps)
  W.modify (fun s => { s with preg_map := some [] })
  let id ← W.ofExcept (JsonArray.getString params 0)
  let s ← W.get
  let pd ← M.eng (B.deref (E.lookup_plugin s.eng id))
  let r ← M.eng (B.run (E.ladspaloader_update_instance pd pdesc.1))
  W.forEach r (fun i => MyService.on_param_insert_remove i.1 i.2)
  W.write [.begin_array]
  MyService.serialize_parameter_change E
  W.write [.end_array]
  parameters_push E this
  W.modify (fun s => { s with preg_map := none })

/-- `CmdConnection::call`: the switch over the method id; an id without a case
fails the `assert`. -/
def CmdConnection.call (E : Engine σ) (this : Nat) (mn : methodnames) (params : JsonArray) :
    M σ Unit :=
  match mn.m_id with
  | .RPCM_get => M.eng (FUNCTION_get E params)
  | .RPCM_parameterlist => M.eng (FUNCTION_parameterlist E)
  | .RPCM_pluginlist => M.eng (FUNCTION_pluginlist E)
  | .RPCM_plugin_load_ui => M.eng (FUNCTION_plugin_load_ui E params)
  | .RPCM_get_rack_unit_order => M.eng (FUNCTION_get_rack_unit_order E params)
  | .RPCM_get_parameter => M.eng (FUNCTION_get_parameter E params)
  | .RPCM_get_bank => M.eng (FUNCTION_get_bank E params)
  | .RPCM_banks => M.eng (FUNCTION_banks E)
  | .RPCM_presets => M.eng (FUNCTION_presets E params)
  | .RPCM_bank_insert_content => M.eng (FUNCTION_bank_insert_content E params)
  | .RPCM_bank_insert_new => M.eng (FUNCTION_bank_insert_new E params)
  | .RPCM_rename_bank => M.eng (FUNCTION_rename_bank E params)
  | .RPCM_rename_preset => M.eng (FUNCTION_rename_preset E params)
  | .RPCM_bank_check_reparse => M.eng (FUNCTION_bank_check_reparse E)
  | .RPCM_bank_get_filename => M.eng (FUNCTION_bank_get_filename E params)
  | .RPCM_bank_get_contents => M.eng (FUNCTION_bank_get_contents E params)
  | .RPCM_convert_preset => M.eng (FUNCTION_convert_preset E params)
  | .RPCM_bank_remove => M.eng (FUNCTION_bank_remove E params)
  | .RPCM_get_midi_controller_map => M.eng (FUNCTION_get_midi_controller_map E)
  | .RPCM_midi_get_config_mode => M.eng (FUNCTION_midi_get_config_mode E)
  | .RPCM_midi_size => M.eng (FUNCTION_midi_size E)
  | .RPCM_getstate => M.eng (FUNCTION_getstate E)
  | .RPCM_getversion => M.eng (FUNCTION_getversion E)
  | .RPCM_get_tuning => M.eng (FUNCTION_get_tuning E)
  | .RPCM_get_max_input_level => M.eng FUNCTION_get_max_input_level
  | .RPCM_get_max_output_level => M.eng (FUNCTION_get_max_output_level E params)
  | .RPCM_get_tuner_freq => M.eng (FUNCTION_get_tuner_freq E)
  | .RPCM_get_oscilloscope_info => M.eng (FUNCTION_get_oscilloscope_info E)
  | .RPCM_get_oscilloscope_mul_buffer => M.eng (FUNCTION_get_oscilloscope_mul_buffer E)
  | .RPCM_get_tuner_switcher_active => M.eng (FUNCTION_get_tuner_switcher_active E)
  | .RPCM_jack_cpu_load => M.eng (FUNCTION_jack_cpu_load E)
  | .RPCM_get_jack_load_status => M.eng (FUNCTION_get_jack_load_status E)
  | .RPCM_load_impresp_dirs => M.eng (FUNCTION_load_impresp_dirs E)
  | .RPCM_read_audio => M.eng (FUNCTION_read_audio E params)
  | .RPCM_load_ladspalist => M.eng (FUNCTION_load_ladspalist E)
  | .RPCM_ladspaloader_load => M.eng (FUNCTION_ladspaloader_load E)
  | .RPCM_ladspaloader_get_plugins => M.eng (FUNCTION_ladspaloader_get_plugins E)
  | .RPCM_ladspaloader_update_plugins => FUNCTION_ladspaloader_update_plugins E this params
  | .RPCM_ladspaloader_update_instance => FUNCTION_ladspaloader_update_instance E this params
  | .RPCM_plugin_preset_list_load => M.eng (FUNCTION_plugin_preset_list_load E params)
  | .RPCM_queryunit => M.eng (FUNCTION_queryunit E params)
  | .RPCM_desc => M.eng (FUNCTION_desc E params)
  | .RPCM_list => M.eng (FUNCTION_list params)
  | _ => W.raise (Exn.Fatal "assert(false)")

end service_handlers

/-! ## The cases of `CmdConnection::notify` -/

section procedures

variable {σ : Type}

def string_args (params : JsonArray) : Except Exn (List String) :=
  params.mapM JsonValue.getString

/-- The bank a handler names and then dereferences without a check. -/
def bank_deref (E : Engine σ) (params : JsonArray) (i : Nat) : B σ PresetFile := do
  let name ← W.ofExcept (JsonArray.getString params i)
  let s ← W.get
  B.deref (E.get_file s name)

/-- The static function `save_preset`. -/
def save_preset (E : Engine σ) (bank preset : String) : B σ Unit := do
  let s ← W.get
  let pf ←
    match E.get_file s bank with
    | some pf => W.ret pf
    | none => do
      let r ← B.run (E.create_bank bank)
      match r with
      | some pf => W.ret pf
      | none => W.raise (Exn.RpcError (-32001) "bank not found")
  let s ← W.get
  if !E.PresetFile_is_mutable s pf then
    W.raise (Exn.RpcError (-32001) "bank is immutable")
  else
    B.exec E (.save pf preset)

def PROCEDURE_insert_rack_unit (E : Engine σ) (this : Nat) (params : JsonArray) : M σ Unit := do
  let stereo ← W.ofExcept (JsonArray.getInt params 2)
  let before ← W.ofExcept (JsonArray.getString params 1)
  let unit ← W.ofExcept (JsonArray.getString params 0)
  M.eng (B.exec E (.insert_rack_unit unit before (decide (stereo ≠ 0))))
  CmdConnection.send_rack_changed E this (decide (stereo ≠ 0))

def PROCEDURE_remove_rack_unit (E : Engine σ) (this : Nat) (params : JsonArray) : M σ Unit := do
  let stereo ← W.ofExcept (JsonArray.getInt params 1)
  let unit ← W.ofExcept (JsonArray.getString params 0)
  M.eng (B.exec E (.remove_rack_unit unit (decide (stereo ≠ 0))))
  CmdConnection.send_rack_changed E this (decide (stereo ≠ 0))

def PROCEDURE_bank_reorder (E : Engine σ) (params : JsonArray) : B σ Unit := do
  let neworder ← W.ofExcept (string_args params)
  B.exec E (.banks_reorder neworder)

/-- With no argument at all the loop starts behind the end of the array. -/
def PROCEDURE_reorder_preset (E : Engine σ) (params : JsonArray) : B σ Unit :=
  match params with
  | [] => W.raise (Exn.Fatal "iterator past the end")
  | _ :: tail => do
    let neworder ← W.ofExcept (string_args tail)
    let pf ← bank_deref E params 0
    B.exec E (.reorder_preset pf neworder)

def PROCEDURE_erase_preset (E : Engine σ) (params : JsonArray) : B σ Unit := do
  let name ← W.ofExcept (JsonArray.getString params 1)
  let pf ← bank_deref E params 0
  B.exec E (.erase_preset pf name)

/-- The bank name is part of the object expression of the call of `set_flag`,
which is evaluated before the arguments. -/
def PROCEDURE_bank_set_flag (E : Engine σ) (params : JsonArray) : B σ Unit := do
  let bank ← W.ofExcept (JsonArray.getString params 0)
  let v ← W.ofExcept (JsonArray.getInt params 2)
  let flag ← W.ofExcept (JsonArray.getInt params 1)
  let s ← W.get
  let pf ← B.deref (E.get_file s bank)
  B.exec E (.set_flag pf flag v)

def PROCEDURE_pf_append (E : Engine σ) (params : JsonArray) : B σ Unit := do
  let name ← W.ofExcept (JsonArray.getString params 3)
  let tgt ← W.ofExcept (JsonArray.getString params 2)
  let src ← W.ofExcept (JsonArray.getString params 1)
  let bank ← W.ofExcept (JsonArray.getString params 0)
  let s ← W.get
  let pf ← B.deref (E.get_file s bank)
  let pftgt ← B.deref (E.get_file s tgt)
  B.exec E (.append pf src pftgt name)

def PROCEDURE_pf_insert_before (E : Engine σ) (params : JsonArray) : B σ Unit := do
  let name ← W.ofExcept (JsonArray.getString params 4)
  let pos ← W.ofExcept (JsonArray.getString params 3)
  let tgt ← W.ofExcept (JsonArray.getString params 2)
  let src ← W.ofExcept (JsonArray.getString params 1)
  let bank ← W.ofExcept (JsonArray.getString params 0)
  let s ← W.get
  let pf ← B.deref (E.get_file s bank)
  let pftgt ← B.deref (E.get_file s tgt)
  B.exec E (.insert_before pf src pftgt pos name)

def PROCEDURE_pf_insert_after (E : Engine σ) (params : JsonArray) : B σ Unit := do
  let name ← W.ofExcept (JsonArray.getString params 4)
  let pos ← W.ofExcept (JsonArray.getString params 3)
  let tgt ← W.ofExcept (JsonArray.getString params 2)
  let src ← W.ofExcept (JsonArray.getString params 1)
  let bank ← W.ofExcept (JsonArray.getString params 0)
  let s ← W.get
  let pf ← B.deref (E.get_file s bank)
  let pftgt ← B.deref (E.get_file s tgt)
  B.exec E (.insert_after pf src pftgt pos name)

def PROCEDURE_pf_save (E : Engine σ) (params : JsonArray) : B σ Unit := do
  let name ← W.ofExcept (JsonArray.getString params 1)
  let pf ← bank_deref E params 0
  B.exec E (.save pf name)

/-- The body of `PROCEDURE(plugin_preset_list_set)` from `send_notify_begin` to
`serv.jwc = 0`: the call of `settings.plugin_preset_list_set`, during which
`on_param_value_changed` runs for the parameters that change, and the writer
`jw` as it is afterwards. -/
def plugin_preset_list_set_changes (E : Engine σ) (params : JsonArray) : M σ JsonWriter := do
  let name ← W.ofExcept (JsonArray.getString params 2)
  let idx ← W.ofExcept (JsonArray.getInt params 1)
  let id ← W.ofExcept (JsonArray.getString params 0)
  let s ← W.get
  let pd ← M.eng (B.deref (E.find_plugin s.eng id))
  let changed ← M.eng (B.run (E.plugin_preset_list_set pd idx name))
  W.forEach changed (fun p => MyService.on_param_value_changed E p)
  let s ← W.get
  let jw := match s.jwc with
    | .live w => w
    | _ => []
  W.modify (fun s => { s with jwc := .null })
  W.ret jw

/-- The body of `PROCEDURE(plugin_preset_list_set)` after `serv.jwc = &jw`. -/
def plugin_preset_list_set_body (E : Engine σ) (this : Nat) (params : JsonArray) :
    M σ Unit := do
  let jw ← plugin_preset_list_set_changes E params
  let jw ← CmdConnection.send_notify_end this jw false
  MyService.broadcast none jw

/-- `PROCEDURE(plugin_preset_list_set)`: the handler's writer is registered in
`serv.jwc`; when the body is left by an exception the writer is gone and the
pointer stays. -/
def PROCEDURE_plugin_preset_list_set (E : Engine σ) (this : Nat) (params : JsonArray) :
    M σ Unit := fun s =>
  match plugin_preset_list_set_body E this params
      { s with jwc := .live (JsonWriter.send_notify_begin "set") } with
  | (.error e, o, s1) => (.error e, o, { s1 with jwc := .dangling })
  | r => r

def PROCEDURE_plugin_preset_list_save (E : Engine σ) (params : JsonArray) : B σ Unit := do
  let name ← W.ofExcept (JsonArray.getString params 1)
  let id ← W.ofExcept (JsonArray.getString params 0)
  let s ← W.get
  let pd ← B.deref (E.find_plugin s id)
  B.exec E (.plugin_preset_list_save pd name)

def PROCEDURE_plugin_preset_list_remove (E : Engine σ) (params : JsonArray) : B σ Unit := do
  let name ← W.ofExcept (JsonArray.getString params 1)
  let id ← W.ofExcept (JsonArray.getString params 0)
  let s ← W.get
  let pd ← B.deref (E.find_plugin s id)
  B.exec E (.plugin_preset_list_remove pd name)

def PROCEDURE_midi_set_config_mode (E : Engine σ) (this : Nat) (params : JsonArray) :
    M σ Unit := do
  let mode ← W.ofExcept (JsonArray.getInt params 0)
  CmdConnection.update this (fun c => { c with midi_config_mode := decide (mode ≠ 0) })
  let ctl ← W.ofExcept (JsonArray.getInt params 1)
  M.eng (B.exec E (.set_config_mode (decide (mode ≠ 0)) ctl))

/-- `serv.settings.get_param()[id]` without a preceding `hasId`. -/
def param_deref (params : JsonArray) (i : Nat) : B σ Parameter := do
  let id ← W.ofExcept (JsonArray.getString params i)
  let s ← W.get
  B.deref (ParamMap.find s.param id)

def PROCEDURE_midi_deleteParameter (E : Engine σ) (params : JsonArray) : B σ Unit := do
  let p ← param_deref params 0
  B.exec E (.deleteParameter p)

def PROCEDURE_midi_set_current_control (E : Engine σ) (params : JsonArray) : B σ Unit := do
  let ctl ← W.ofExcept (JsonArray.getInt params 0)
  B.exec E (.set_current_control ctl)

def PROCEDURE_midi_modifyCurrent (E : Engine σ) (params : JsonArray) : B σ Unit := do
  let toggle ← W.ofExcept (JsonArray.getInt params 3)
  let upper ← W.ofExcept (JsonArray.getFloat params 2)
  let lower ← W.ofExcept (JsonArray.getFloat params 1)
  let p ← param_deref params 0
  B.exec E (.modifyCurrent p lower upper toggle)

/-- The value `PROCEDURE(set)` hands to the setter of parameter `p` for the
argument `v`, by the kind of `p`. -/
def set_arg (E : Engine σ) (p : Parameter) (v : JsonValue) : Except Exn SetArg :=
  match p.value with
  | .Float _ =>
    match v.getFloat with
    | .ok d => .ok (.Float d)
    | .error e => .error e
  | .Int _ =>
    match p.controlType, v with
    | .Enum, .JsonString s => .ok (.Int (E.idx_from_id p s))
    | _, _ =>
      match v.getInt with
      | .ok i => .ok (.Int i)
      | .error e => .error e
  | .Bool _ =>
    match v.getInt with
    | .ok i => .ok (.Bool i)
    | .error e => .error e
  | .File _ =>
    match v.getString with
    | .ok s => .ok (.File s)
    | .error e => .error e
  | .String _ =>
    match v.getString with
    | .ok s => .ok (.String s)
    | .error e => .error e
  | .JConv _ =>
    match v.getSubParser with
    | .ok jps =>
      match E.JConv_readJSON jps with
      | .ok s => .ok (.JConv s)
      | .error e => .error e
    | .error e => .error e
  | .Other => .error (Exn.RpcError (-32602) "Invalid param -- unknown variable")

/-- One round of the first loop of `PROCEDURE(set)`: the pair `attr`, `v`. The
setter of the parameter runs in the engine; when it emits `signal_changed`,
`on_param_value_changed` runs on the parameter as it then is. -/
def set_one (E : Engine σ) (attr : JsonValue) (v : Except Exn JsonValue) : M σ Unit := do
  let attr ← W.ofExcept attr.getString
  let s ← W.get
  match ParamMap.find s.eng.param attr with
  | none => W.ret ()
  | some p =>
    let v ← W.ofExcept v
    let a ← W.ofExcept (set_arg E p v)
    let changed ← M.eng (B.run (E.param_set p a))
    W.when changed (do
      let s ← W.get
      MyService.on_param_value_changed E ((ParamMap.find s.eng.param attr).getD p))

/-- The first loop of `PROCEDURE(set)`: `for (i = 0; i < params.size(); i += 2)`. -/
def set_loop (E : Engine σ) : JsonArray → M σ Unit
  | [] => W.ret ()
  | [attr] => set_one E attr (JsonArray.index [attr] 1)
  | attr :: v :: rest => W.andThen (set_one E attr (.ok v)) (fun _ => set_loop E rest)

/-- What the second loop of `PROCEDURE(set)` writes for one value. -/
def set_push_value (E : Engine σ) (v : JsonValue) : JsonWriter :=
  match v with
  | .JsonFloat d => [.write_float d]
  | .JsonInt i => [.write_int i]
  | .JsonString s => [.write_string s]
  | .JsonObject position => E.copy_object position

/-- The second loop of `PROCEDURE(set)`: the params of the push. -/
def set_push_loop (E : Engine σ) : JsonArray → M σ Unit
  | [] => W.ret ()
  | [attr] => do
    let id ← W.ofExcept attr.getString
    W.write [.write_string id]
    let _ ← W.ofExcept (JsonArray.index [attr] 1)
  | attr :: v :: rest => do
    let id ← W.ofExcept attr.getString
    W.write [.write_string id]
    W.write (set_push_value E v)
    set_push_loop E rest

def PROCEDURE_set (E : Engine σ) (this : Nat) (params : JsonArray) : M σ Unit := do
  if params.length % 2 = 1 then
    W.raise (Exn.RpcError (-32602) "Invalid param -- array length must be even")
  else
    set_loop E params
    let s ← W.get
    W.when (MyService.broadcast_listeners s.connection_list (some this)) (do
      let r ← W.capture (set_push_loop E params)
      let jw ← CmdConnection.send_notify_end this (JsonWriter.send_notify_begin "set" ++ r.2) false
      MyService.broadcast (some this) jw)
    MyService.save_state E

def PROCEDURE_setpreset (E : Engine σ) (params : JsonArray) : M σ Unit := do
  let bank ← W.ofExcept (JsonArray.getString params 0)
  let s ← W.get
  let name ← W.ofExcept (JsonArray.getString params 1)
  M.eng (B.exec E (.load_preset (E.get_file s.eng bank) name))
  MyService.save_state E

def PROCEDURE_setstate (E : Engine σ) (params : JsonArray) : B σ Unit := do
  let name ← W.ofExcept (JsonArray.getString params 0)
  let st ← W.ofExcept (string_to_engine_state name)
  B.exec E (.set_state st)
  B.exec E .check_module_lists

def PROCEDURE_switch_tuner (E : Engine σ) (params : JsonArray) : B σ Unit := do
  let v ← W.ofExcept (JsonArray.getInt params 0)
  B.exec E (.tuner_used_for_livedisplay v)
  B.exec E .check_module_lists

def PROCEDURE_int_op (E : Engine σ) (op : Int → EngineOp) (params : JsonArray) : B σ Unit := do
  let v ← W.ofExcept (JsonArray.getInt params 0)
  B.exec E (op v)

def PROCEDURE_reload_impresp_list (E : Engine σ) (this : Nat) (params : JsonArray) :
    M σ Unit := do
  let path ← W.ofExcept (JsonArray.getString params 0)
  let s ← W.get
  let jw := JsonWriter.send_notify_begin "impresp_list" ++ [.write_string path] ++
    file_name_arrays (E.IRFileListing s.eng path)
  let _ ← CmdConnection.send_notify_end this jw true

def PROCEDURE_ladspaloader_set_plugins (E : Engine σ) (params : JsonArray) : B σ Unit := do
  let jps ← W.ofExcept (JsonArray.getSubParser params 0)
  let new_plugins ← W.ofExcept (parse_array E.plugdesc_readJSON jps)
  B.exec E (.ladspaloader_set_plugins new_plugins)

def PROCEDURE_shutdown (this : Nat) : M σ Unit := do
  CmdConnection.update this (fun c => { c with closed := true })
  W.modify (fun s => { s with quit_mainloop := s.quit_mainloop + 1 })

def PROCEDURE_listen (E : Engine σ) (this : Nat) (params : JsonArray) : M σ Unit :=
  W.forEach params (fun i => do
    let tp ← W.ofExcept i.getString
    CmdConnection.listen E this tp)

def PROCEDURE_unlisten (this : Nat) (params : JsonArray) : M σ Unit :=
  W.forEach params (fun i => do
    let tp ← W.ofExcept i.getString
    CmdConnection.unlisten this tp)

def PROCEDURE_save_current (E : Engine σ) : B σ Unit := do
  let s ← W.get
  if !E.setting_is_preset s then
    W.raise (Exn.RpcError (-32001) "no current preset")
  else
    save_preset E (E.get_current_bank s) (E.get_current_name s)

def PROCEDURE_save_preset (E : Engine σ) (params : JsonArray) : B σ Unit := do
  let preset ← W.ofExcept (JsonArray.getString params 1)
  let bank ← W.ofExcept (JsonArray.getString params 0)
  save_preset E bank preset

def PROCEDURE_set_oscilloscope_mul_buffer (E : Engine σ) (params : JsonArray) : B σ Unit := do
  let n ← W.ofExcept (JsonArray.getInt params 0)
  let s ← W.get
  B.exec E (.set_mul_buffer n (E.jack_bs s))

/-- `CmdConnection::notify`: the switch over the method id; an id without a
case fails the `assert`. The writer passed in is used by no case. -/
def CmdConnection.notify (E : Engine σ) (this : Nat) (mn : methodnames) (params : JsonArray) :
    M σ Unit :=
  match mn.m_id with
  | .RPNM_insert_rack_unit => PROCEDURE_insert_rack_unit E this params
  | .RPNM_remove_rack_unit => PROCEDURE_remove_rack_unit E this params
  | .RPNM_bank_reorder => M.eng (PROCEDURE_bank_reorder E params)
  | .RPNM_reorder_preset => M.eng (PROCEDURE_reorder_preset E params)
  | .RPNM_erase_preset => M.eng (PROCEDURE_erase_preset E params)
  | .RPNM_bank_set_flag => M.eng (PROCEDURE_bank_set_flag E params)
  | .RPNM_pf_append => M.eng (PROCEDURE_pf_append E params)
  | .RPNM_pf_insert_before => M.eng (PROCEDURE_pf_insert_before E params)
  | .RPNM_pf_insert_after => M.eng (PROCEDURE_pf_insert_after E params)
  | .RPNM_bank_save => M.eng (B.exec E .banks_save)
  | .RPNM_pf_save => M.eng (PROCEDURE_pf_save E params)
  | .RPNM_plugin_preset_list_set => PROCEDURE_plugin_preset_list_set E this params
  | .RPNM_plugin_preset_list_save => M.eng (PROCEDURE_plugin_preset_list_save E params)
  | .RPNM_plugin_preset_list_remove => M.eng (PROCEDURE_plugin_preset_list_remove E params)
  | .RPNM_midi_set_config_mode => PROCEDURE_midi_set_config_mode E this params
  | .RPNM_request_midi_value_update => M.eng (B.exec E .request_midi_value_update)
  | .RPNM_midi_deleteParameter => M.eng (PROCEDURE_midi_deleteParameter E params)
  | .RPNM_midi_set_current_control => M.eng (PROCEDURE_midi_set_current_control E params)
  | .RPNM_midi_modifyCurrent => M.eng (PROCEDURE_midi_modifyCurrent E params)
  | .RPNM_set => PROCEDURE_set E this params
  | .RPNM_setpreset => PROCEDURE_setpreset E params
  | .RPNM_setstate => M.eng (PROCEDURE_setstate E params)
  | .RPNM_switch_tuner => M.eng (PROCEDURE_switch_tuner E params)
  | .RPNM_tuner_switcher_activate => M.eng (PROCEDURE_int_op E .tuner_switcher_activate params)
  | .RPNM_tuner_switcher_deactivate => M.eng (B.exec E .tuner_switcher_deactivate)
  | .RPNM_tuner_switcher_toggle => M.eng (PROCEDURE_int_op E .tuner_switcher_toggle params)
  | .RPNM_reload_impresp_list => PROCEDURE_reload_impresp_list E this params
  | .RPNM_ladspaloader_set_plugins => M.eng (PROCEDURE_ladspaloader_set_plugins E params)
  | .RPNM_shutdown => PROCEDURE_shutdown this
  | .RPNM_listen => PROCEDURE_listen E this params
  | .RPNM_unlisten => PROCEDURE_unlisten this params
  | .RPNM_save_current => M.eng (PROCEDURE_save_current E)
  | .RPNM_save_preset => M.eng (PROCEDURE_save_preset E params)
  | .RPNM_tuner_used_for_display => M.eng (PROCEDURE_int_op E .tuner_used_for_display params)
  | .RPNM_tuner_used_for_livedisplay =>
    M.eng (PROCEDURE_int_op E .tuner_used_for_livedisplay params)
  | .RPNM_clear_oscilloscope_buffer => M.eng (B.exec E .clear_oscilloscope_buffer)
  | .RPNM_set_oscilloscope_mul_buffer => M.eng (PROCEDURE_set_oscilloscope_mul_buffer E params)
  | _ => W.raise (Exn.Fatal "assert(false)")

end procedures

/-! ## Requests, batches and the inbound stream -/

section protocol

variable {σ : Type}

/-- The members of a request object read so far. -/
structure RequestFields where
  method : String
  params : JsonArray
  id : String
  deriving DecidableEq, Repr

/-- The loop `while (jp.peek() != end_array) params.append(jp)` of `request`;
the budget bounds the number of rounds of the embedding. -/
def params_loop : Nat → JsonParser → JsonArray → Except Exn (JsonArray × JsonParser)
  | 0, _, _ => .error (Exn.Fatal "loop budget")
  | n + 1, jp, params =>
    match jp.peek with
    | .error e => .error e
    | .ok token.end_array => .ok (params, jp)
    | .ok _ =>
      match JsonArray.append params jp with
      | .ok (params1, jp1) => params_loop n jp1 params1
      | .error e => .error e

/-- The loop `while (jp.peek() != end_object)` of `request` over the members
of the request object. -/
def request_members : Nat → JsonParser → RequestFields → Except Exn (RequestFields × JsonParser)
  | 0, _, _ => .error (Exn.Fatal "loop budget")
  | n + 1, jp, r =>
    match jp.peek with
    | .error e => .error e
    | .ok token.end_object => .ok (r, jp)
    | .ok _ =>
      match jp.next token.value_key with
      | .error e => .error e
      | .ok jp1 =>
        if jp1.current_value = "jsonrpc" then
          match jp1.next token.value_string with
          | .error e => .error e
          | .ok jp2 =>
            if jp2.current_value ≠ "2.0" then .error (Exn.RpcError (-32600) "Invalid Request")
            else request_members n jp2 r
        else if jp1.current_value = "method" then
          match jp1.next token.value_string with
          | .error e => .error e
          | .ok jp2 => request_members n jp2 { r with method := jp2.current_value }
        else if jp1.current_value = "params" then
          match jp1.peek with
          | .error e => .error e
          | .ok token.begin_array =>
            match jp1.next token.begin_array with
            | .error e => .error e
            | .ok jp2 =>
              match params_loop (jp2.toks.length + 1) jp2 r.params with
              | .error e => .error e
              | .ok (params, jp3) =>
                match jp3.next token.end_array with
                | .error e => .error e
                | .ok jp4 => request_members n jp4 { r with params := params }
          | .ok token.begin_object =>
            .error (Exn.RpcError (-32000) "by-name parameters not implemented")
          | .ok _ => .error (Exn.RpcError (-32600) "Invalid Request")
        else if jp1.current_value = "id" then
          match jp1.peek with
          | .error e => .error e
          | .ok k =>
            if k ≠ token.value_string ∧ k ≠ token.value_number then
              .error (Exn.RpcError (-32600) "Invalid Request")
            else
              match jp1.next_any with
              | .error e => .error e
              | .ok jp2 => request_members n jp2 { r with id := jp2.current_value }
        else .error (Exn.RpcError (-32600) "Invalid Request")

/-- The part of `CmdConnection::request` that reads the request object. -/
def request_read (jp : JsonParser) : Except Exn (RequestFields × JsonParser) :=
  match jp.next token.begin_object with
  | .error e => .error e
  | .ok jp1 =>
    match request_members (jp1.toks.length + 1) jp1 { method := "", params := [], id := "" } with
    | .error e => .error e
    | .ok (r, jp2) =>
      match jp2.next token.end_object with
      | .error e => .error e
      | .ok jp3 => .ok (r, jp3)

/-- The part of `CmdConnection::request` behind the request object: the lookup
of the method and the run of its handler. -/
def request_dispatch (E : Engine σ) (this : Nat) (r : RequestFields) (batch_start : Bool) :
    M σ Bool :=
  match in_word_set r.method with
  | none => W.raise (Exn.RpcError (-32601) ("Method not found -- '" ++ r.method ++ "'"))
  | some p =>
    if r.id = "" then do
      W.catchRpc (CmdConnection.notify E this p r.params)
        (fun code message => W.write (error_response code message))
      W.ret false
    else do
      W.when batch_start (W.write [.begin_array])
      W.write [.begin_object]
      W.write (JsonWriter.write_kv_string "jsonrpc" "2.0")
      W.write (JsonWriter.write_kv_string "id" r.id)
      W.write [.write_key "result"]
      CmdConnection.call E this p r.params
      W.write [.end_object]
      W.ret true

/-- `CmdConnection::request(jp, jw, batch_start)`: the result and the parser
behind the request. -/
def CmdConnection.request (E : Engine σ) (this : Nat) (jp : JsonParser) (batch_start : Bool) :
    M σ (Bool × JsonParser) := do
  let r ← W.ofExcept (request_read jp)
  let resp ← request_dispatch E this r.1 batch_start
  W.ret (resp, r.2)

/-- The loop `while (jp.peek() != end_array) resp = request(jp, jw, !resp) || resp`
of `process`. -/
def batch_loop (E : Engine σ) (this : Nat) : Nat → JsonParser → Bool → M σ (Bool × JsonParser)
  | 0, _, _ => W.raise (Exn.Fatal "loop budget")
  | n + 1, jp, resp =>
    match jp.peek with
    | .error e => W.raise e
    | .ok token.end_array => W.ret (resp, jp)
    | .ok _ =>
      W.andThen (CmdConnection.request E this jp (!resp))
        (fun r => batch_loop E this n r.2 (r.1 || resp))

/-- The `try` block of `CmdConnection::process` up to the test of `resp`: the
events are the content of the writer `jw`. -/
def process_try (E : Engine σ) (this : Nat) (jp : JsonParser) : M σ Bool :=
  if jp.first_is_bracket then do
    let jp1 ← W.ofExcept (jp.next token.begin_array)
    let r ← batch_loop E this (jp1.toks.length + 1) jp1 false
    W.when r.1 (W.write [.end_array])
    let _ ← W.ofExcept (r.2.next token.end_array)
    W.ret r.1
  else do
    let r ← CmdConnection.request E this jp false
    W.ret r.1

/-- Modelled from the spec: `gx_system::JsonStringParser` is declared outside
the sources at hand: the text put since the last reset (`get_string()`) and
the parser over its tokens. -/
structure JsonStringParser where
  str : List Char
  jp : JsonParser
  deriving DecidableEq, Repr

namespace JsonStringParser

def reset (E : Engine σ) : JsonStringParser :=
  { str := [], jp := { toks := E.tokenize [], cur := "" } }

def put (E : Engine σ) (p : JsonStringParser) (c : Char) : JsonStringParser :=
  { str := p.str ++ [c], jp := { toks := E.tokenize (p.str ++ [c]), cur := "" } }

end JsonStringParser

/-- `CmdConnection::on_log_message` on the session at address `this`. -/
def CmdConnection.on_log_message (this : Nat) (m : LogMessage) : M σ Unit :=
  let tpname : String :=
    match m.tp with
    | .kInfo => "info"
    | .kWarning => "warning"
    | .kError => "error"
    | _ => "unknown"
  if !m.plugged then
    W.andThen
      (CmdConnection.send_notify_end this
        (JsonWriter.send_notify_begin "message" ++ [.write_string tpname, .write_string m.msg]) true)
      (fun _ => W.ret ())
  else W.ret ()

/-- The logger's `signal_message` for one message: the slot `on_log_message` of
every session, once for each of its connected slots, session by session in the
order of `connection_list`; the order in which the slots were connected is not
recorded. -/
def emit_log_message (m : LogMessage) : List (Nat × CmdConnection) → M σ Unit
  | [] => W.ret ()
  | p :: l =>
    W.andThen
      (W.forEach (List.replicate p.2.conn_log_message.slots ())
        (fun _ => CmdConnection.on_log_message p.1 m))
      (fun _ => emit_log_message m l)

/-- `gx_system::gx_print_error(func, msg)`: the logger takes the text and
emits the messages it has to emit. -/
def gx_print_error (E : Engine σ) (func msg : String) : M σ Unit := do
  let emitted ← M.eng (B.run (E.gx_print_error func msg))
  let s ← W.get
  W.forEach emitted (fun m => emit_log_message m s.connection_list)

/-- `CmdConnection::process`. -/
def CmdConnection.process (E : Engine σ) (this : Nat) (jp : JsonStringParser) : M σ Unit :=
  fun s =>
  match process_try E this jp.jp s with
  | (.ok true, jw, s1) => CmdConnection.send this jw s1
  | (.ok false, _, s1) => (.ok (), [], s1)
  | (.error (Exn.JsonException what), _, s1) =>
    W.andThen
      (gx_print_error E "JSON-RPC"
        ("error: " ++ what ++ ", request: '" ++ String.mk jp.str ++ "'"))
      (fun _ => CmdConnection.send this (error_response (-32700) "Parse Error")) s1
  | (.error (Exn.RpcError code message), _, s1) =>
    CmdConnection.send this (error_response code message) s1
  | (.error (Exn.Fatal what), _, s1) => (.error (Exn.Fatal what), [], s1)

/-- `MyService::remove_connection(p)`: the session is taken from the list and
destroyed; the destructor resets the MIDI configuration mode the session had
switched on. A session that is not in the list fails the `assert`. -/
def MyService.remove_connection (E : Engine σ) (p : Nat) : M σ Unit := fun s =>
  match s.connection_list.find? (fun c => decide (c.1 = p)) with
  | none => (.error (Exn.Fatal "assert(false)"), [], s)
  | some c =>
    (.ok (), [],
      { s with
        connection_list := s.connection_list.eraseP (fun c => decide (c.1 = p)),
        eng := if c.2.midi_config_mode then E.exec (.set_config_mode false (-1)) s.eng
               else s.eng })

/-- The loop `while (n-- > 0)` of `CmdConnection::on_data_in` over the bytes
of one `receive`. -/
def on_data_in_bytes (E : Engine σ) (this : Nat) :
    List Char → JsonStringParser → MyService σ → Except Exn Unit × JsonStringParser × MyService σ
  | [], jp, s => (.ok (), jp, s)
  | c :: rest, jp, s =>
    if c = '\n' then
      match CmdConnection.process E this (jp.put E c) s with
      | (.ok _, _, s1) => on_data_in_bytes E this rest (JsonStringParser.reset E) s1
      | (.error e, _, s1) => (.error e, jp.put E c, s1)
    else on_data_in_bytes E this rest (jp.put E c) s

/-- What one `sock->receive` gives: bytes (`n > 0`), nothing more for now
(`WOULD_BLOCK`), or the end of the connection (another error, or `n <= 0`). -/
inductive Receive where
  | data (buf : List Char)
  | would_block
  | closed
  deriving DecidableEq, Repr

/-- `CmdConnection::on_data_in` against the results of its `receive` calls: the
value returned, the session's parser and the service. Without a further
result the socket has nothing more: `WOULD_BLOCK`. -/
def CmdConnection.on_data_in (E : Engine σ) (this : Nat) :
    List Receive → JsonStringParser → MyService σ →
      Except Exn Bool × JsonStringParser × MyService σ
  | [], jp, s => (.ok true, jp, s)
  | .would_block :: _, jp, s => (.ok true, jp, s)
  | .closed :: _, jp, s =>
    match MyService.remove_connection E this s with
    | (.ok _, _, s1) => (.ok false, jp, s1)
    | (.error e, _, s1) => (.error e, jp, s1)
  | .data buf :: rest, jp, s =>
    match on_data_in_bytes E this buf jp s with
    | (.ok _, jp1, s1) => CmdConnection.on_data_in E this rest jp1 s1
    | (.error e, jp1, s1) => (.error e, jp1, s1)

end protocol

/-! ## The outbound queue

`CmdConnection::send` above records the document that is handed over. Its
bytes reach the socket through `write`: at once, or from the queue `outgoing`
when the socket does not take all of them. -/

/-- What the socket does with one `write`: the call fails (it returns -1, as
when it would block), or the socket takes at most `room` of the bytes offered. -/
inductive WriteRoom where
  | fails
  | takes (room : Nat)
  deriving DecidableEq, Repr

/-- The system call `write(fd, buf, len)` on the socket: the value returned and
the bytes the socket took. -/
def write (r : WriteRoom) (buf : List Char) : Int × List Char :=
  match r with
  | .fails => (-1, [])
  | .takes room => (((min room buf.length : Nat) : Int), buf.take room)

/-- Conversion to `unsigned int`: the value modulo `2^32`. -/
def to_unsigned (v : Int) : Nat := (v % 2 ^ 32).toNat

/-- The output side of a session: the queue `outgoing`, `current_offset`, the
number of `on_data_out` handlers connected to the main loop, and the bytes the
socket has taken so far, in order. -/
structure Outbound where
  outgoing : List (List Char)
  current_offset : Nat
  io_out : Nat
  socket : List Char
  deriving DecidableEq, Repr

/-- The static function `sendbytes(fd, s, off)` against the result of its
`write`: the value returned, `*off` afterwards, and the bytes the socket took. -/
def sendbytes (r : WriteRoom) (s : List Char) (off : Nat) : Bool × Nat × List Char :=
  let len : Nat := to_unsigned ((s.length : Int) - (off : Int))
  let w := write r ((s.drop off).take len)
  let n : Int := long_to_int w.1
  if n ≤ 0 then (false, off, w.2)
  else
    let len1 : Nat := to_unsigned ((len : Int) - n)
    if len1 > 0 then (true, to_unsigned ((off : Int) + n), w.2)
    else (true, 0, w.2)

namespace Outbound

/-- `CmdConnection::on_data_out` against the results of its `write` calls, in
order; without a further result the socket would block. The value returned,
the results not used, and the state. -/
def on_data_out : List WriteRoom → Outbound → Bool × List WriteRoom × Outbound
  | [], st => (!st.outgoing.isEmpty, [], st)
  | r :: rs, st =>
    match st.outgoing with
    | [] => (false, r :: rs, st)
    | d :: q =>
      if (sendbytes r d st.current_offset).1 = false then
        (true, rs,
          { st with current_offset := (sendbytes r d st.current_offset).2.1,
                    socket := st.socket ++ (sendbytes r d st.current_offset).2.2 })
      else if (sendbytes r d st.current_offset).2.1 = 0 then
        on_data_out rs
          { st with outgoing := q, current_offset := 0,
                    socket := st.socket ++ (sendbytes r d st.current_offset).2.2 }
      else
        on_data_out rs
          { st with current_offset := (sendbytes r d st.current_offset).2.1,
                    socket := st.socket ++ (sendbytes r d st.current_offset).2.2 }

/-- The part of `CmdConnection::send` behind `jw.get_string()`, for the text
`s`, against the result of its `write`: the results not used and the state. -/
def send (s : List Char) (rs : List WriteRoom) (st : Outbound) :
    Except Exn (List WriteRoom × Outbound) :=
  if st.outgoing.length = 0 then
    if st.current_offset ≠ 0 then .error (Exn.Fatal "assert(current_offset == 0)")
    else if (write (rs.head?.getD .fails) s).1 = (s.length : Int) then
      .ok (rs.tail, { st with socket := st.socket ++ (write (rs.head?.getD .fails) s).2 })
    else
      .ok (rs.tail,
        { outgoing := st.outgoing ++ [s],
          current_offset := to_unsigned (max 0 (write (rs.head?.getD .fails) s).1),
          io_out := st.io_out + 1,
          socket := st.socket ++ (write (rs.head?.getD .fails) s).2 })
  else
    .ok (rs, { st with outgoing := st.outgoing ++ [s], io_out := st.io_out + 1 })

end Outbound

/-- What happens on the output side of a session: a document is sent, or the
main loop finds the socket writable. -/
inductive OutEvent where
  | send (s : List Char)
  | writable
  deriving DecidableEq, Repr

/-- The output side of a session over a sequence of events. When the socket is
writable the main loop calls `on_data_out` if a handler is connected, and
disconnects the handler when the call returns `false`. -/
def Outbound.run : List OutEvent → List WriteRoom → Outbound →
    Except Exn (List WriteRoom × Outbound)
  | [], rs, st => .ok (rs, st)
  | .send s :: es, rs, st =>
    match Outbound.send s rs st with
    | .ok x => Outbound.run es x.1 x.2
    | .error e => .error e
  | .writable :: es, rs, st =>
    if st.io_out = 0 then Outbound.run es rs st
    else if (Outbound.on_data_out rs st).1 = true then
      Outbound.run es (Outbound.on_data_out rs st).2.1 (Outbound.on_data_out rs st).2.2
    else
      Outbound.run es (Outbound.on_data_out rs st).2.1
        { (Outbound.on_data_out rs st).2.2 with
          io_out := (Outbound.on_data_out rs st).2.2.io_out - 1 }

/-! ## Properties of runs -/

section frames

variable {σ : Type}

/-- The documents sent on the session at address `p`, in order. -/
def sent_on (p : Nat) (s : MyService σ) : List JsonWriter :=
  (s.wire.filter (fun e => decide (e.1 = p))).map Prod.snd

/-- The addresses of the live sessions. -/
def sessions (s : MyService σ) : List Nat := s.connection_list.map Prod.fst

/-- From `s` to `t` no session was added or removed, and the documents sent in
between went to sessions with the property `P` only. -/
def Stays (P : Nat → Prop) (s t : MyService σ) : Prop :=
  sessions t = sessions s ∧ ∃ extra, t.wire = s.wire ++ extra ∧ ∀ e ∈ extra, P e.1

/-- Every run of `x` relates the state before to the state after. -/
def Keeps {S α : Type} (R : S → S → Prop) (x : W S α) : Prop := ∀ s, R s (x s).2.2

end frames

/-! ## Requests as token sequences -/

def Tok.opens (t : Tok) : Prop := t.kind = token.begin_object ∨ t.kind = token.begin_array

def Tok.closes (t : Tok) : Prop := t.kind = token.end_object ∨ t.kind = token.end_array

def Tok.plain (t : Tok) : Prop :=
  t.kind = token.value_string ∨ t.kind = token.value_number ∨ t.kind = token.value_key

/-- The token sequences that can stand inside an object or an array: keys,
strings and numbers, and objects and arrays that are closed again. -/
inductive Nesting : List Tok → Prop where
  | nil : Nesting []
  | plain (t : Tok) (l : List Tok) : t.plain → Nesting l → Nesting (t :: l)
  | nest (o c : Tok) (inner l : List Tok) :
      o.opens → c.closes → Nesting inner → Nesting l → Nesting (o :: inner ++ c :: l)

/-- One element of a params array as it stands in the request: a string, a
number, or an embedded object or array given by its tokens. -/
inductive ArgSrc where
  | string (s : String)
  | number (s : String)
  | nested (o : Tok) (inner : List Tok) (c : Tok)
  deriving DecidableEq, Repr

namespace ArgSrc

def toks : ArgSrc → List Tok
  | string s => [{ kind := token.value_string, value := s }]
  | number s => [{ kind := token.value_number, value := s }]
  | nested o inner c => o :: inner ++ [c]

/-- The argument value the element stands for. -/
def value : ArgSrc → JsonValue
  | string s => JsonValue.JsonString s
  | number s => JsonArray.number_value s
  | nested o inner c => JsonValue.JsonObject (o :: inner ++ [c])

/-- An embedded value opens, holds a balanced sequence, and closes. -/
def wf : ArgSrc → Prop
  | nested o inner c => o.opens ∧ c.closes ∧ Nesting inner
  | _ => True

end ArgSrc

/-- One member of a request object: the protocol version, the method name, a
positional params array (with the texts of its two bracket tokens), or an id
given as a string or as a number. -/
inductive Member where
  | jsonrpc (version : String)
  | method (name : String)
  | params (lb : String) (args : List ArgSrc) (rb : String)
  | id_string (id : String)
  | id_number (id : String)
  deriving DecidableEq, Repr

namespace Member

def toks : Member → List Tok
  | jsonrpc v => [{ kind := token.value_key, value := "jsonrpc" },
                  { kind := token.value_string, value := v }]
  | method n => [{ kind := token.value_key, value := "method" },
                 { kind := token.value_string, value := n }]
  | params lb args rb =>
    [{ kind := token.value_key, value := "params" }, { kind := token.begin_array, value := lb }] ++
      args.flatMap ArgSrc.toks ++ [{ kind := token.end_array, value := rb }]
  | id_string i => [{ kind := token.value_key, value := "id" },
                    { kind := token.value_string, value := i }]
  | id_number i => [{ kind := token.value_key, value := "id" },
                    { kind := token.value_number, value := i }]

/-- The version is "2.0" and the embedded values are well formed. -/
def wf : Member → Prop
  | jsonrpc v => v = "2.0"
  | params _ args _ => ∀ a ∈ args, a.wf
  | _ => True

/-- What the member contributes to the fields of the request. -/
def read (r : RequestFields) : Member → RequestFields
  | jsonrpc _ => r
  | method n => { r with method := n }
  | params _ args _ => { r with params := r.params ++ args.map ArgSrc.value }
  | id_string i => { r with id := i }
  | id_number i => { r with id := i }

end Member

/-- A request object: its members in the order they are written, between the
two brace tokens with their texts. -/
structure RequestObject where
  lbrace : String
  members : List Member
  rbrace : String
  deriving DecidableEq, Repr

namespace RequestObject

def toks (q : RequestObject) : List Tok :=
  { kind := token.begin_object, value := q.lbrace } :: q.members.flatMap Member.toks ++
    [{ kind := token.end_object, value := q.rbrace }]

def wf (q : RequestObject) : Prop := ∀ m ∈ q.members, m.wf

/-- The method, the arguments and the id the request carries. -/
def fields (q : RequestObject) : RequestFields :=
  q.members.foldl Member.read { method := "", params := [], id := "" }

end RequestObject

/-! ## Auxiliary notions for the statements -/

section statements

variable {σ : Type}

/-- A run of `x` makes no call on the writer it was given. -/
def Silent {S α : Type} (x : W S α) : Prop := ∀ s, (x s).2.1 = []

/-- The response object of a call: the protocol version, the id as `request`
writes it, and the result the handler wrote. -/
def call_response (id : String) (result : JsonWriter) : JsonWriter :=
  [JsonEvent.begin_object, JsonEvent.write_key "jsonrpc", JsonEvent.write_string "2.0",
   JsonEvent.write_key "id", JsonEvent.write_string id, JsonEvent.write_key "result"] ++
  result ++ [JsonEvent.end_object]

/-- The ids of the calls among the entries of a batch, in the order of the
entries. -/
def call_ids (rs : List RequestFields) : List String :=
  (rs.filter (fun r => decide (r.id ≠ ""))).map RequestFields.id

/-- The handlers of the entries of a batch run one after the other, each on the
state the one before it left: the results the call handlers wrote, in order,
and the state at the end; `none` as soon as a method is unknown or a handler
does not return normally. -/
def handle_all (E : Engine σ) (this : Nat) :
    List RequestFields → MyService σ → Option (List JsonWriter × MyService σ)
  | [], s => some ([], s)
  | r :: rs, s =>
    match in_word_set r.method with
    | none => none
    | some p =>
      if r.id = "" then
        match CmdConnection.notify E this p r.params s with
        | (.ok _, _, s1) => handle_all E this rs s1
        | (.error _, _, _) => none
      else
        match CmdConnection.call E this p r.params s with
        | (.ok _, o, s1) =>
          match handle_all E this rs s1 with
          | some x => some (o :: x.1, x.2)
          | none => none
        | (.error _, _, _) => none

/-- The tokens of a batch: the request objects between two bracket tokens. -/
def batch_toks (lb : String) (qs : List RequestObject) (rb : String) : List Tok :=
  { kind := token.begin_array, value := lb } :: qs.flatMap RequestObject.toks ++
    [{ kind := token.end_array, value := rb }]

/-- The session's parser after the characters `cs` have been put. -/
def JsonStringParser.feed (E : Engine σ) (p : JsonStringParser) (cs : List Char) :
    JsonStringParser :=
  cs.foldl (JsonStringParser.put E) p

/-- Following the spec ("a notification with method "set" whose params are all
the request's id/value pairs"): a value as a push carries it, a number or a
string as it is, an embedded object or array as the copy of its tokens. -/
def value_events (E : Engine σ) : JsonValue → JsonWriter
  | .JsonFloat d => [JsonEvent.write_float d]
  | .JsonInt i => [JsonEvent.write_int i]
  | .JsonString s => [JsonEvent.write_string s]
  | .JsonObject position => E.copy_object position

/-- Following the spec: the push document for the id/value pairs of a `set`
request, `{"jsonrpc":"2.0","method":"set","params":[id, value, ...]}` with the
pairs in the order of the request. -/
def set_push (E : Engine σ) (pairs : List (String × JsonValue)) : JsonWriter :=
  [JsonEvent.begin_object, JsonEvent.write_key "jsonrpc", JsonEvent.write_string "2.0",
   JsonEvent.write_key "method", JsonEvent.write_string "set", JsonEvent.write_key "params",
   JsonEvent.begin_array] ++
    pairs.flatMap (fun pr => JsonEvent.write_string pr.1 :: value_events E pr.2) ++
    [JsonEvent.end_array, JsonEvent.end_object]

/-- The params array that holds the pairs. -/
def pair_params (pairs : List (String × JsonValue)) : JsonArray :=
  pairs.flatMap (fun pr => [JsonValue.JsonString pr.1, pr.2])

/-- The sessions `MyService::broadcast(sender, ·)` sends to: those in
`connection_list` other than the sender with the parameter-change flag set. -/
def listeners (sender : Option Nat) (l : List (Nat × CmdConnection)) : List Nat :=
  (l.filter (fun p => decide (some p.1 ≠ sender ∧ p.2.parameter_change_notify = true))).map Prod.fst

/-- From `s` to `t` neither the sessions (with their flags) nor the log of sent
documents changed. -/
def Quiet (s t : MyService σ) : Prop :=
  t.connection_list = s.connection_list ∧ t.wire = s.wire

/-- The state `save_state` leaves when it is called while the clock reads `t`. -/
def save_state_at (E : Engine σ) (t : Int) (s : MyService σ) : MyService σ :=
  (MyService.save_state E { s with now := t }).2.2

/-- A stream of edits: `save_state` is called at each of the times, in order. -/
def edits (E : Engine σ) : List Int → MyService σ → MyService σ
  | [], s => s
  | t :: ts, s => edits E ts (save_state_at E t s)

/-- An id as a JSON value: a string token stands for a string, a number token
for a number. -/
def id_is_same_value (id : Tok) (written : JsonEvent) : Prop :=
  match id.kind with
  | token.value_string => written = JsonEvent.write_string id.value
  | token.value_number =>
    (∃ n, written = JsonEvent.write_int n) ∨ (∃ n, written = JsonEvent.write_uint n) ∨
      (∃ d, written = JsonEvent.write_float d)
  | _ => False

end statements

/-- The response objects of the calls of a batch, in order. -/
def responses (ids : List String) (outs : List JsonWriter) : JsonWriter :=
  (List.zipWith call_response ids outs).flatten

/-- What the loop of `process` has written after a batch whose entries were
all handled: the opening bracket in front of the first response unless a
response was written before (`resp`), and the responses. -/
def batch_events (resp : Bool) (ids : List String) (outs : List JsonWriter) : JsonWriter :=
  (if resp = true ∨ ids = [] then [] else [JsonEvent.begin_array]) ++ responses ids outs

/-- The document holds the members "id" (with this id) and "result" of a call
response, one after the other. -/
def answers_call (id : String) (doc : JsonWriter) : Bool :=
  doc.tails.any (fun t =>
    List.isPrefixOf
      [JsonEvent.write_key "id", JsonEvent.write_string id, JsonEvent.write_key "result"] t)

/-- The bytes of the queue that the socket has not taken yet: the first
document from `current_offset` on, and the documents behind it. -/
def Outbound.pending (st : Outbound) : List Char :=
  match st.outgoing with
  | [] => []
  | d :: q => d.drop st.current_offset ++ q.flatten

/-- The documents sent in a sequence of events, in order. -/
def OutEvent.docs : List OutEvent → List (List Char)
  | [] => []
  | .send s :: es => s :: OutEvent.docs es
  | .writable :: es => OutEvent.docs es

/-- The output side of a new session. -/
def Outbound.init : Outbound := { outgoing := [], current_offset := 0, io_out := 0, socket := [] }

/-- The queue is in order: every queued document is shorter than `2^31` bytes,
`current_offset` is zero or a place inside the first document (zero when the
queue is empty), and a handler is connected while the queue holds a document. -/
def Outbound.Sound (st : Outbound) : Prop :=
  (∀ d ∈ st.outgoing, d.length < 2 ^ 31) ∧
  match st.outgoing with
  | [] => st.current_offset = 0
  | d :: _ => (st.current_offset = 0 ∨ st.current_offset < d.length) ∧ 0 < st.io_out

/-! ## Further notions for the statements -/

section more_statements

variable {σ : Type}

/-- Following the spec ("whenever a newline is seen, the buffer up to that point
is a complete message"): the complete messages of the bytes `bs` received while
`buffer` is what has been buffered, each with its newline, and the bytes left
in the buffer behind the last newline. -/
def messages_of (buffer : List Char) : List Char → List (List Char) × List Char
  | [] => ([], buffer)
  | c :: cs =>
    if c = '\n' then ((buffer ++ [c]) :: (messages_of [] cs).1, (messages_of [] cs).2)
    else messages_of (buffer ++ [c]) cs

/-- Following the spec ("parse and dispatch it, then reset the buffer"): the
complete messages are dispatched in order, each parsed from an empty buffer;
the bytes `left` stay in the buffer. A message that `process` does not return
from stays in the parser. -/
def dispatch_messages (E : Engine σ) (this : Nat) :
    List (List Char) → List Char → MyService σ →
      Except Exn Unit × JsonStringParser × MyService σ
  | [], left, s => (.ok (), JsonStringParser.feed E (JsonStringParser.reset E) left, s)
  | m :: ms, left, s =>
    match CmdConnection.process E this (JsonStringParser.feed E (JsonStringParser.reset E) m) s with
    | (.ok _, _, s1) => dispatch_messages E this ms left s1
    | (.error e, _, s1) => (.error e, JsonStringParser.feed E (JsonStringParser.reset E) m, s1)

end more_statements

/-! ## A sample collaborator

An engine over a state without content, used to run the definitions on
concrete requests: parameters store what their setter is given, there are no
banks and no plugins, and the tokenizer reads nothing. -/

def sample_store (p : Parameter) (a : SetArg) : Parameter :=
  match a with
  | .Float v => { p with value := .Float v }
  | .Int v => { p with value := .Int v }
  | .Bool v => { p with value := .Bool (decide (v ≠ 0)) }
  | .File v => { p with value := .File v }
  | .String v => { p with value := .String v }
  | .JConv v => { p with value := .JConv v }

def sample_engine : Engine Unit where
  exec := fun _ s => s
  GX_VERSION := "0.28.3"
  Parameter_writeJSON := fun p => [JsonEvent.write_key p.id, JsonEvent.write_null]
  ParamMap_writeJSON := fun _ => [JsonEvent.begin_array, JsonEvent.end_array]
  pluginlist_writeJSON := fun _ => [JsonEvent.begin_array, JsonEvent.end_array]
  Plugin_writeJSON := fun _ => [JsonEvent.begin_object, JsonEvent.end_object]
  writeJSON_one := fun p => [JsonEvent.write_string p.id]
  JConv_writeJSON := fun _ => [JsonEvent.begin_object, JsonEvent.end_object]
  controller_map_writeJSON := fun _ => [JsonEvent.begin_array, JsonEvent.end_array]
  copy_object := fun _ => [JsonEvent.begin_object, JsonEvent.end_object]
  value_label := fun _ pr => pr.2
  idx_from_id := fun _ _ => 0
  param_set := fun p a s => (true, { s with param := ParamMap.replace s.param (sample_store p a) })
  JConv_readJSON := fun jp => .ok jp.toks
  plugdesc_readJSON := fun jp =>
    match jp.skip_object with
    | .ok (blob, jp1) => .ok ({ json := blob }, jp1)
    | .error e => .error e
  ordered_mono_list := fun _ => []
  ordered_stereo_list := fun _ => []
  ordered_list := fun _ _ => []
  lookup_plugin := fun _ _ => none
  find_plugin := fun _ _ => none
  get_rack_unit_order := fun _ _ => []
  get_file := fun _ _ => none
  banks := fun _ => []
  PresetFile_writeJSON_remote := fun _ _ => [JsonEvent.begin_array, JsonEvent.end_array]
  PresetFile_names := fun _ _ => []
  PresetFile_get_filename := fun _ _ => ""
  PresetFile_is_mutable := fun _ _ => true
  file_contents := fun _ _ => ""
  bank_insert_content := fun _ _ s => (none, s)
  bank_insert_new := fun _ s => (none, s)
  rename_bank := fun _ n s => ((false, n), s)
  rename_preset := fun _ _ _ s => (false, s)
  check_reparse := fun s => (false, s)
  convert_preset := fun _ s => (false, s)
  remove_bank := fun _ s => (false, s)
  create_bank := fun _ s => (none, s)
  get_config_mode := fun _ => false
  get_current_control := fun _ => 0
  controller_map_size := fun _ => 0
  get_state := fun _ => GxEngineState.kEngineOn
  get_freq := fun _ => Double.ofInt 0
  get_note := fun _ => Double.ofInt 0
  maxlevel := fun _ => []
  jcpu_load := fun _ => Double.ofInt 0
  jcpu_load_round := fun _ => 0
  time_is_scaled := fun _ => 0
  is_rt := fun _ => false
  jack_bs := fun _ => 0
  oscilloscope_buffer := fun _ => []
  get_mul_buffer := fun _ => 0
  tuner_switcher_active := fun _ => false
  jack_load_status := fun _ => 0
  list_subdirs := fun _ => []
  IRFileListing := fun _ _ => []
  read_audio := fun _ _ => none
  load_ladspalist := fun _ => ([], [])
  ladspaloader_load := fun s => ([], s)
  ladspaloader_plugins := fun _ => []
  ladspaloader_update_plugins := fun _ _ s => (([], []), s)
  ladspaloader_update_instance := fun _ _ s => ([], s)
  plugin_preset_list_load := fun _ _ => []
  plugin_preset_list_set := fun _ _ _ s => ([], s)
  setting_is_preset := fun _ => false
  get_current_bank := fun _ => ""
  get_current_name := fun _ => ""
  get_opt_auto_save := fun _ => false
  gx_print_error := fun _ _ s => ([], s)
  tokenize := fun _ => []

/-- The sample engine over a counter: `save_to_state` counts the durable saves. -/
def saving_engine : Engine Nat where
  exec := fun op s =>
    match op with
    | EngineOp.save_to_state => { s with ext := s.ext + 1 }
    | _ => s
  GX_VERSION := "0.28.3"
  Parameter_writeJSON := fun p => [JsonEvent.write_key p.id, JsonEvent.write_null]
  ParamMap_writeJSON := fun _ => [JsonEvent.begin_array, JsonEvent.end_array]
  pluginlist_writeJSON := fun _ => [JsonEvent.begin_array, JsonEvent.end_array]
  Plugin_writeJSON := fun _ => [JsonEvent.begin_object, JsonEvent.end_object]
  writeJSON_one := fun p => [JsonEvent.write_string p.id]
  JConv_writeJSON := fun _ => [JsonEvent.begin_object, JsonEvent.end_object]
  controller_map_writeJSON := fun _ => [JsonEvent.begin_array, JsonEvent.end_array]
  copy_object := fun _ => [JsonEvent.begin_object, JsonEvent.end_object]
  value_label := fun _ pr => pr.2
  idx_from_id := fun _ _ => 0
  param_set := fun p a s => (true, { s with param := ParamMap.replace s.param (sample_store p a) })
  JConv_readJSON := fun jp => .ok jp.toks
  plugdesc_readJSON := fun jp =>
    match jp.skip_object with
    | .ok (blob, jp1) => .ok ({ json := blob }, jp1)
    | .error e => .error e
  ordered_mono_list := fun _ => []
  ordered_stereo_list := fun _ => []
  ordered_list := fun _ _ => []
  lookup_plugin := fun _ _ => none
  find_plugin := fun _ _ => none
  get_rack_unit_order := fun _ _ => []
  get_file := fun _ _ => none
  banks := fun _ => []
  PresetFile_writeJSON_remote := fun _ _ => [JsonEvent.begin_array, JsonEvent.end_array]
  PresetFile_names := fun _ _ => []
  PresetFile_get_filename := fun _ _ => ""
  PresetFile_is_mutable := fun _ _ => true
  file_contents := fun _ _ => ""
  bank_insert_content := fun _ _ s => (none, s)
  bank_insert_new := fun _ s => (none, s)
  rename_bank := fun _ n s => ((false, n), s)
  rename_preset := fun _ _ _ s => (false, s)
  check_reparse := fun s => (false, s)
  convert_preset := fun _ s => (false, s)
  remove_bank := fun _ s => (false, s)
  create_bank := fun _ s => (none, s)
  get_config_mode := fun _ => false
  get_current_control := fun _ => 0
  controller_map_size := fun _ => 0
  get_state := fun _ => GxEngineState.kEngineOn
  get_freq := fun _ => Double.ofInt 0
  get_note := fun _ => Double.ofInt 0
  maxlevel := fun _ => []
  jcpu_load := fun _ => Double.ofInt 0
  jcpu_load_round := fun _ => 0
  time_is_scaled := fun _ => 0
  is_rt := fun _ => false
  jack_bs := fun _ => 0
  oscilloscope_buffer := fun _ => []
  get_mul_buffer := fun _ => 0
  tuner_switcher_active := fun _ => false
  jack_load_status := fun _ => 0
  list_subdirs := fun _ => []
  IRFileListing := fun _ _ => []
  read_audio := fun _ _ => none
  load_ladspalist := fun _ => ([], [])
  ladspaloader_load := fun s => ([], s)
  ladspaloader_plugins := fun _ => []
  ladspaloader_update_plugins := fun _ _ s => (([], []), s)
  ladspaloader_update_instance := fun _ _ s => ([], s)
  plugin_preset_list_load := fun _ _ => []
  plugin_preset_list_set := fun _ _ _ s => ([], s)
  setting_is_preset := fun _ => false
  get_current_bank := fun _ => ""
  get_current_name := fun _ => ""
  get_opt_auto_save := fun _ => false
  gx_print_error := fun _ _ s => ([], s)
  tokenize := fun _ => []

def sample_connection : CmdConnection where
  parameter_change_notify := false
  midi_config_mode := false
  conn_preset_changed := ⟨0, false⟩
  conn_state_changed := ⟨0, false⟩
  conn_freq_changed := ⟨0, false⟩
  conn_display := ⟨0, false⟩
  conn_display_state := ⟨0, false⟩
  conn_selection_done := ⟨0, false⟩
  conn_presetlist_changed := ⟨0, false⟩
  conn_log_message := ⟨0, false⟩
  conn_midi_changed := ⟨0, false⟩
  conn_midi_value_changed := ⟨0, false⟩
  conn_osc_activation := ⟨0, false⟩
  conn_osc_size_changed := ⟨0, false⟩
  closed := false

def sample_parameter (id : String) : Parameter where
  id := id
  value := .Float (Double.ofInt 0)
  controlType := .Continuous
  range := none
  value_names := none
  l_name := id
  l_group := ""
  typename := "float"

/-- A service with three sessions, at addresses 1, 2 and 3; the sessions 2 and
3 have asked for parameter changes. -/
def sample_service : MyService Unit where
  eng := { param := [sample_parameter "amp.tonestack.Bass", sample_parameter "amp.tonestack.Treble"],
           ext := () }
  oldest_unsaved := 0
  last_change := 0
  save_conn := none
  connection_list :=
    [(1, sample_connection), (2, { sample_connection with parameter_change_notify := true }),
     (3, { sample_connection with parameter_change_notify := true })]
  jwc := .null
  preg_map := none
  wire := []
  now := 100
  quit_mainloop := 0

/-- A message of the session's parser, given by its tokens. -/
def message (toks : List Tok) : JsonStringParser := { str := [], jp := { toks := toks, cur := "" } }

/-- The request `{"jsonrpc":"2.0","method":"getversion","id":<id>}`. -/
def sample_call (id : Member) : RequestObject :=
  { lbrace := "", members := [Member.jsonrpc "2.0", Member.method "getversion", id], rbrace := "" }

/-- The request `{"jsonrpc":"2.0","method":"get_rack_unit_order","params":[],"id":"2"}`: a
call without the argument its handler asks for. -/
def sample_failing_call : RequestObject :=
  { lbrace := "",
    members := [Member.jsonrpc "2.0", Member.method "get_rack_unit_order", Member.params "" [] "",
                Member.id_string "2"],
    rbrace := "" }

/-- The request `{"jsonrpc":"2.0","method":"frobnicate","id":"1"}`: its method is
not in the method table. -/
def sample_unknown : RequestObject :=
  { lbrace := "", members := [Member.jsonrpc "2.0", Member.method "frobnicate", Member.id_string "1"],
    rbrace := "" }

/-- The notification `{"jsonrpc":"2.0","method":"set","params":[...]}`. -/
def sample_set (args : List ArgSrc) : RequestObject :=
  { lbrace := "", members := [Member.jsonrpc "2.0", Member.method "set", Member.params "" args ""],
    rbrace := "" }

def sample_pair_args : List ArgSrc :=
  [ArgSrc.string "amp.tonestack.Bass", ArgSrc.number "0.7",
   ArgSrc.string "amp.tonestack.Treble", ArgSrc.number "3"]

/-- An odd number of arguments: the handler of `set` throws. -/
def sample_odd_args : List ArgSrc := [ArgSrc.string "amp.tonestack.Bass"]

/-- The result `getversion` writes with the sample engine. -/
def sample_version : JsonWriter :=
  [JsonEvent.begin_array, JsonEvent.write_int 1, JsonEvent.write_int 0,
   JsonEvent.write_string "0.28.3", JsonEvent.end_array]

/-- A batch of a notification and two calls. -/
def sample_batch : List RequestObject :=
  [sample_call (Member.id_string "1"), sample_set sample_pair_args,
   sample_call (Member.id_number "7")]

def sample_batch_run : List JsonWriter × MyService Unit :=
  (handle_all sample_engine 1 (sample_batch.map RequestObject.fields) sample_service).getD
    ([], sample_service)

/-- A batch of three calls, the second of which throws an `RpcError`. -/
def sample_failing_batch : List Tok :=
  batch_toks ""
    [sample_call (Member.id_string "1"), sample_failing_call, sample_call (Member.id_string "3")] ""

/-- A batch of a `set` notification that throws an `RpcError` and a call. -/
def sample_notification_batch : List Tok :=
  batch_toks "" [sample_set sample_odd_args, sample_call (Member.id_string "1")] ""

/-- A service without sessions over the counting engine, no save done, no
unsaved change, at the time 100. -/
def saving_service : MyService Nat where
  eng := { param := [], ext := 0 }
  oldest_unsaved := 0
  last_change := 0
  save_conn := none
  connection_list := []
  jwc := .null
  preg_map := none
  wire := []
  now := 100
  quit_mainloop := 0

/-- The call `{"jsonrpc":"2.0","method":"ladspaloader_update_plugins","params":[[],[]],"id":"1"}`. -/
def sample_update_plugins : RequestObject :=
  { lbrace := "",
    members := [Member.jsonrpc "2.0", Member.method "ladspaloader_update_plugins",
                Member.params ""
                  [ArgSrc.nested { kind := token.begin_array, value := "" } []
                     { kind := token.end_array, value := "" },
                   ArgSrc.nested { kind := token.begin_array, value := "" } []
                     { kind := token.end_array, value := "" }] "",
                Member.id_string "1"],
    rbrace := "" }

/-- The call `{"jsonrpc":"2.0","method":"get_bank","params":["NoSuchBank"],"id":"2"}`. -/
def sample_get_bank : RequestObject :=
  { lbrace := "",
    members := [Member.jsonrpc "2.0", Member.method "get_bank",
                Member.params "" [ArgSrc.string "NoSuchBank"] "", Member.id_string "2"],
    rbrace := "" }

/-- The request `{"jsonrpc":"2.0","method":"getversion","id":""}`. -/
def sample_empty_id : RequestObject :=
  { lbrace := "", members := [Member.jsonrpc "2.0", Member.method "getversion", Member.id_string ""],
    rbrace := "" }

/-- The tokens of `{"jsonrpc":"2.0","method":"getversion","params":{},"id":"1"}`. -/
def sample_named_params : List Tok :=
  [{ kind := token.begin_object, value := "" },
   { kind := token.value_key, value := "jsonrpc" }, { kind := token.value_string, value := "2.0" },
   { kind := token.value_key, value := "method" }, { kind := token.value_string, value := "getversion" },
   { kind := token.value_key, value := "params" }, { kind := token.begin_object, value := "" },
   { kind := token.end_object, value := "" },
   { kind := token.value_key, value := "id" }, { kind := token.value_string, value := "1" },
   { kind := token.end_object, value := "" }]

/-- The arguments `["no.such.param", 1]`: an id that is not in the parameter
directory of the sample service. -/
def sample_unknown_args : List ArgSrc := [ArgSrc.string "no.such.param", ArgSrc.number "1"]

def sample_unknown_pairs : List (String × JsonValue) := [("no.such.param", JsonValue.JsonInt 1)]

/-- Three documents and what the socket does with the writes that follow. -/
def sample_out_events : List OutEvent :=
  [OutEvent.send ['a', 'b', 'c', '\n'], OutEvent.send ['d', 'e', '\n'], OutEvent.writable,
   OutEvent.send ['f', '\n'], OutEvent.writable, OutEvent.writable]

def sample_rooms : List WriteRoom :=
  [WriteRoom.takes 1, WriteRoom.takes 2, WriteRoom.fails, WriteRoom.takes 0, WriteRoom.takes 3,
   WriteRoom.takes 100]

/-- A request with a method and string arguments, and with the id `id` when it
is not empty. -/
def sample_request (method : String) (args : List ArgSrc) (id : String) : RequestObject :=
  { lbrace := "",
    members := [Member.jsonrpc "2.0", Member.method method, Member.params "" args ""] ++
      (if id = "" then [] else [Member.id_string id]),
    rbrace := "" }

/-- A value of the wrong kind for the second parameter of the sample service. -/
def sample_bad_second_args : List ArgSrc :=
  [ArgSrc.string "amp.tonestack.Bass", ArgSrc.number "0.7",
   ArgSrc.string "amp.tonestack.Treble", ArgSrc.string "x"]

/-- The sample service after session 1 has switched on the MIDI configuration
mode. -/
def sample_midi_service : MyService Unit :=
  { sample_service with
    connection_list :=
      [(1, { sample_connection with midi_config_mode := true }),
       (2, { sample_connection with parameter_change_notify := true }),
       (3, { sample_connection with parameter_change_notify := true })] }

/-- Documents of one and two bytes, a writable socket in between. -/
def sample_queue_events : List OutEvent :=
  [OutEvent.send ['a', '\n'], OutEvent.send ['\n'], OutEvent.writable, OutEvent.writable]

/-- The sample service after session 1 has sent `listen` and then `unlisten`
for the topic. -/
def sample_listen_unlisten (topic : String) : MyService Unit :=
  (CmdConnection.process sample_engine 1
    (message (sample_request "unlisten" [ArgSrc.string topic] "").toks)
    (CmdConnection.process sample_engine 1
      (message (sample_request "listen" [ArgSrc.string topic] "").toks) sample_service).2.2).2.2

/-- The tokens of `{"jsonrpc":"2.0","method":"frobnicate","params":{},"id":"1"}`:
a method that is not in the method table, with by-name params. -/
def sample_unknown_named : List Tok :=
  [{ kind := token.begin_object, value := "" },
   { kind := token.value_key, value := "jsonrpc" }, { kind := token.value_string, value := "2.0" },
   { kind := token.value_key, value := "method" }, { kind := token.value_string, value := "frobnicate" },
   { kind := token.value_key, value := "params" }, { kind := token.begin_object, value := "" },
   { kind := token.end_object, value := "" },
   { kind := token.value_key, value := "id" }, { kind := token.value_string, value := "1" },
   { kind := token.end_object, value := "" }]

/-- The request `{"id":7,"jsonrpc":"2.0","method":"getversion"}`: the id comes
first. -/
def sample_id_first : RequestObject :=
  { lbrace := "", members := [Member.id_number "7", Member.jsonrpc "2.0", Member.method "getversion"],
    rbrace := "" }

namespace W

variable {S T : Type} {α β : Type}

@[simp] theorem pure_run (a : α) (s : S) : (pure a : W S α) s = (.ok a, [], s) := rfl

@[simp] theorem ret_run (a : α) (s : S) : (W.ret a : W S α) s = (.ok a, [], s) := rfl

@[simp] theorem raise_run (e : Exn) (s : S) : (W.raise e : W S α) s = (.error e, [], s) := rfl

@[simp] theorem write_run (evs : JsonWriter) (s : S) : (W.write evs : W S Unit) s = (.ok (), evs, s) :=
  rfl

@[simp] theorem get_run (s : S) : (W.get : W S S) s = (.ok s, [], s) := rfl

@[simp] theorem modify_run (f : S → S) (s : S) : (W.modify f : W S Unit) s = (.ok (), [], f s) := rfl

@[simp] theorem ofExcept_run (r : Except Exn α) (s : S) : (W.ofExcept r : W S α) s = (r, [], s) := rfl

theorem bind_def (x : W S α) (f : α → W S β) : (x >>= f) = W.andThen x f := rfl

theorem andThen_ok {x : W S α} {f : α → W S β} {s s1 : S} {a : α} {o : JsonWriter}
    (h : x s = (.ok a, o, s1)) :
    W.andThen x f s = ((f a s1).1, o ++ (f a s1).2.1, (f a s1).2.2) := by
  simp [W.andThen, h]

theorem andThen_error {x : W S α} {f : α → W S β} {s s1 : S} {e : Exn} {o : JsonWriter}
    (h : x s = (.error e, o, s1)) :
    W.andThen x f s = (.error e, o, s1) := by
  simp [W.andThen, h]

@[simp] theorem bind_run_ok {x : W S α} {f : α → W S β} {s s1 : S} {a : α} {o : JsonWriter}
    (h : x s = (.ok a, o, s1)) :
    (x >>= f) s = ((f a s1).1, o ++ (f a s1).2.1, (f a s1).2.2) := andThen_ok h

end W

/-! ## Frames -/

section frame_lemmas

variable {S T : Type} {α β : Type} {R : S → S → Prop}

theorem keeps_andThen (ht : ∀ a b c, R a b → R b c → R a c) {x : W S α} {f : α → W S β}
    (hx : Keeps R x) (hf : ∀ a, Keeps R (f a)) : Keeps R (W.andThen x f) := by
  intro s
  unfold W.andThen
  have h1 := hx s
  rcases hxs : x s with ⟨r, o, s1⟩
  rw [hxs] at h1
  cases r with
  | error e => exact h1
  | ok a => exact ht _ _ _ h1 (hf a s1)

theorem keeps_bind (ht : ∀ a b c, R a b → R b c → R a c) {x : W S α} {f : α → W S β}
    (hx : Keeps R x) (hf : ∀ a, Keeps R (f a)) : Keeps R (x >>= f) :=
  keeps_andThen ht hx hf

theorem keeps_pure (hr : ∀ a, R a a) (a : α) : Keeps R (pure a : W S α) := fun s => hr s

theorem keeps_ret (hr : ∀ a, R a a) (a : α) : Keeps R (W.ret a : W S α) := fun s => hr s

theorem keeps_raise (hr : ∀ a, R a a) (e : Exn) : Keeps R (W.raise e : W S α) := fun s => hr s

theorem keeps_write (hr : ∀ a, R a a) (evs : JsonWriter) : Keeps R (W.write evs : W S Unit) :=
  fun s => hr s

theorem keeps_get (hr : ∀ a, R a a) : Keeps R (W.get : W S S) := fun s => hr s

theorem keeps_ofExcept (hr : ∀ a, R a a) (r : Except Exn α) : Keeps R (W.ofExcept r : W S α) :=
  fun s => hr s

theorem keeps_capture {x : W S α} (hx : Keeps R x) : Keeps R (W.capture x) := by
  intro s
  unfold W.capture
  have h1 := hx s
  rcases hxs : x s with ⟨r, o, s1⟩
  rw [hxs] at h1
  cases r <;> exact h1

theorem keeps_when (hr : ∀ a, R a a) (c : Bool) {x : W S Unit} (hx : Keeps R x) :
    Keeps R (W.when c x) := by
  unfold W.when
  split
  · exact hx
  · exact keeps_ret hr ()

theorem keeps_forEach (hr : ∀ a, R a a) (ht : ∀ a b c, R a b → R b c → R a c)
    (l : List α) {f : α → W S Unit} (hf : ∀ a, Keeps R (f a)) : Keeps R (W.forEach l f) := by
  induction l with
  | nil => exact keeps_ret hr ()
  | cons a l ih => exact keeps_andThen ht (hf a) (fun _ => ih)

end frame_lemmas

section rel_lemmas

variable {σ : Type} {P : Nat → Prop}

theorem stays_mono {Q : Nat → Prop} (hpq : ∀ p, P p → Q p) {s t : MyService σ} (h : Stays P s t) :
    Stays Q s t := by
  obtain ⟨ha, e1, hw1, hp1⟩ := h
  exact ⟨ha, e1, hw1, fun e he => hpq _ (hp1 e he)⟩

end rel_lemmas

section handler_frames

variable {σ : Type} {P : Nat → Prop}

end handler_frames

section procedure_frames

variable {σ : Type} {P : Nat → Prop}

end procedure_frames

/-! ## Reading a request object -/

section parsing

theorem skip_depth_balanced {inner : List Tok} (h : Nesting inner) :
    ∀ (d : Nat) (acc rest : List Tok),
      JsonParser.skip_depth (d + 1) acc (inner ++ rest) =
        JsonParser.skip_depth (d + 1) (acc ++ inner) rest := by
  induction h with
  | nil => intro d acc rest; simp
  | plain t l ht _ ih =>
    intro d acc rest
    have := ih d (acc ++ [t]) rest
    rcases ht with h | h | h <;> simp [JsonParser.skip_depth, h, this]
  | nest o c inner l ho hc _ _ ih1 ih2 =>
    intro d acc rest
    have h1 := ih1 (d + 1) (acc ++ [o]) (c :: (l ++ rest))
    have h2 := ih2 d (acc ++ [o] ++ inner ++ [c]) rest
    have e : (o :: inner ++ c :: l) ++ rest = o :: (inner ++ c :: (l ++ rest)) := by simp
    rw [e]
    rcases ho with h | h <;> rcases hc with h' | h' <;>
      (simp [JsonParser.skip_depth, h, h', h1]; simpa using h2)

theorem skip_object_nested {o c : Tok} {inner : List Tok} (ho : o.opens) (hc : c.closes)
    (hb : Nesting inner) (rest : List Tok) (cur : String) :
    JsonParser.skip_object { toks := o :: (inner ++ c :: rest), cur := cur } =
      .ok (o :: (inner ++ [c]), { toks := rest, cur := c.value }) := by
  have h1 := skip_depth_balanced hb 0 [o] (c :: rest)
  have hl : (o :: (inner ++ [c])).getLast? = some c := by
    rw [← List.cons_append, List.getLast?_append]
    simp
  unfold JsonParser.skip_object
  simp only []
  rw [if_pos (by exact ho), h1]
  rcases hc with h | h <;> simp [JsonParser.skip_depth, h, hl]

theorem append_arg {a : ArgSrc} (ha : a.wf) (params : JsonArray) (rest : List Tok)
    (cur : String) :
    ∃ cur1, JsonArray.append params { toks := a.toks ++ rest, cur := cur } =
      .ok (params ++ [a.value], { toks := rest, cur := cur1 }) := by
  cases a with
  | string s => exact ⟨s, by simp [ArgSrc.toks, ArgSrc.value, JsonArray.append, JsonParser.peek,
      JsonParser.next_any, JsonParser.current_value]⟩
  | number s => exact ⟨s, by simp [ArgSrc.toks, ArgSrc.value, JsonArray.append, JsonParser.peek,
      JsonParser.next_any, JsonParser.current_value]⟩
  | nested o inner c =>
    obtain ⟨ho, hc, hb⟩ := ha
    refine ⟨c.value, ?_⟩
    have hs := skip_object_nested ho hc hb rest cur
    simp only [ArgSrc.toks, ArgSrc.value]
    unfold JsonArray.append
    rcases ho with h | h <;>
      simp [JsonParser.peek, h, hs]

/-- The loop over the params array reads the elements as they stand and stops
in front of the closing bracket. -/
theorem params_loop_args (rb : String) (rest : List Tok) :
    ∀ (args : List ArgSrc) (params : JsonArray) (cur : String),
      (∀ a ∈ args, a.wf) →
      ∃ cur1, ∀ fuel, args.length < fuel → params_loop fuel
          { toks := args.flatMap ArgSrc.toks ++ { kind := token.end_array, value := rb } :: rest,
            cur := cur } params =
        .ok (params ++ args.map ArgSrc.value,
          { toks := { kind := token.end_array, value := rb } :: rest, cur := cur1 })
  | [], params, cur, _ => by
    refine ⟨cur, fun fuel hf => ?_⟩
    obtain ⟨n, rfl⟩ : ∃ n, fuel = n + 1 := ⟨fuel - 1, by simp at hf; omega⟩
    simp [params_loop, JsonParser.peek]
  | a :: args, params, cur, hw => by
    have ha : a.wf := hw a (by simp)
    obtain ⟨cur1, h1⟩ := append_arg ha params
      (args.flatMap ArgSrc.toks ++ { kind := token.end_array, value := rb } :: rest) cur
    obtain ⟨cur2, h2⟩ := params_loop_args rb rest args (params ++ [a.value]) cur1
      (fun b hb => hw b (by simp [hb]))
    refine ⟨cur2, fun fuel hf => ?_⟩
    obtain ⟨n, rfl⟩ : ∃ n, fuel = n + 1 := ⟨fuel - 1, by simp at hf; omega⟩
    have h2 := h2 n (by simp at hf; omega)
    have hk : ∃ k, ({ toks := a.toks ++ (args.flatMap ArgSrc.toks ++
        { kind := token.end_array, value := rb } :: rest), cur := cur } : JsonParser).peek = .ok k ∧
        k ≠ token.end_array := by
      cases a with
      | string s => exact ⟨token.value_string, by simp [ArgSrc.toks, JsonParser.peek], by simp⟩
      | number s => exact ⟨token.value_number, by simp [ArgSrc.toks, JsonParser.peek], by simp⟩
      | nested o inner c =>
        rcases ha.1 with h | h
        · exact ⟨token.begin_object, by simp [ArgSrc.toks, JsonParser.peek, h], by simp⟩
        · exact ⟨token.begin_array, by simp [ArgSrc.toks, JsonParser.peek, h], by simp⟩
    obtain ⟨k, hk1, hk2⟩ := hk
    simp only [List.flatMap_cons, List.append_assoc, List.map_cons]
    unfold params_loop
    rw [hk1]
    simp only [h1]
    cases k <;> first | exact absurd rfl hk2 | simpa using h2

end parsing

section reading

theorem args_length_le (args : List ArgSrc) : args.length ≤ (args.flatMap ArgSrc.toks).length := by
  induction args with
  | nil => simp
  | cons a args ih =>
    have : 1 ≤ a.toks.length := by cases a <;> simp [ArgSrc.toks]
    simp only [List.flatMap_cons, List.length_append, List.length_cons]
    omega

/-- The loop over the members reads them as they stand and stops in front of
the closing brace. -/
theorem request_members_read (rb : String) (rest : List Tok) :
    ∀ (ms : List Member) (r : RequestFields) (cur : String),
      (∀ m ∈ ms, m.wf) →
      ∃ cur1, ∀ fuel, ms.length < fuel → request_members fuel
          { toks := ms.flatMap Member.toks ++ { kind := token.end_object, value := rb } :: rest,
            cur := cur } r =
        .ok (ms.foldl Member.read r,
          { toks := { kind := token.end_object, value := rb } :: rest, cur := cur1 })
  | [], r, cur, _ => by
    refine ⟨cur, fun fuel hf => ?_⟩
    obtain ⟨n, rfl⟩ : ∃ n, fuel = n + 1 := ⟨fuel - 1, by simp at hf; omega⟩
    simp [request_members, JsonParser.peek]
  | m :: ms, r, cur, hw => by
    have hm : m.wf := hw m (by simp)
    have hrec := fun r1 cur1 => request_members_read rb rest ms r1 cur1
      (fun b hb => hw b (by simp [hb]))
    cases m with
    | jsonrpc v =>
      obtain ⟨cur2, h2⟩ := hrec r v
      refine ⟨cur2, fun fuel hf => ?_⟩
      obtain ⟨n, rfl⟩ : ∃ n, fuel = n + 1 := ⟨fuel - 1, by simp at hf; omega⟩
      have h2 := h2 n (by simp at hf; omega)
      have hv : v = "2.0" := hm
      subst hv
      simp only [List.flatMap_cons, List.foldl_cons, Member.toks, Member.read]
      unfold request_members
      simpa [JsonParser.peek, JsonParser.next, JsonParser.current_value] using h2
    | method name =>
      obtain ⟨cur2, h2⟩ := hrec { r with method := name } name
      refine ⟨cur2, fun fuel hf => ?_⟩
      obtain ⟨n, rfl⟩ : ∃ n, fuel = n + 1 := ⟨fuel - 1, by simp at hf; omega⟩
      have h2 := h2 n (by simp at hf; omega)
      simp only [List.flatMap_cons, List.foldl_cons, Member.toks, Member.read]
      unfold request_members
      simpa [JsonParser.peek, JsonParser.next, JsonParser.current_value] using h2
    | id_string i =>
      obtain ⟨cur2, h2⟩ := hrec { r with id := i } i
      refine ⟨cur2, fun fuel hf => ?_⟩
      obtain ⟨n, rfl⟩ : ∃ n, fuel = n + 1 := ⟨fuel - 1, by simp at hf; omega⟩
      have h2 := h2 n (by simp at hf; omega)
      simp only [List.flatMap_cons, List.foldl_cons, Member.toks, Member.read]
      unfold request_members
      simpa [JsonParser.peek, JsonParser.next, JsonParser.next_any, JsonParser.current_value]
        using h2
    | id_number i =>
      obtain ⟨cur2, h2⟩ := hrec { r with id := i } i
      refine ⟨cur2, fun fuel hf => ?_⟩
      obtain ⟨n, rfl⟩ : ∃ n, fuel = n + 1 := ⟨fuel - 1, by simp at hf; omega⟩
      have h2 := h2 n (by simp at hf; omega)
      simp only [List.flatMap_cons, List.foldl_cons, Member.toks, Member.read]
      unfold request_members
      simpa [JsonParser.peek, JsonParser.next, JsonParser.next_any, JsonParser.current_value]
        using h2
    | params lb args rb1 =>
      have hargs : ∀ a ∈ args, a.wf := hm
      obtain ⟨cur1, h1⟩ := params_loop_args rb1
        (ms.flatMap Member.toks ++ { kind := token.end_object, value := rb } :: rest) args
        r.params lb hargs
      obtain ⟨cur2, h2⟩ := hrec { r with params := r.params ++ args.map ArgSrc.value } rb1
      refine ⟨cur2, fun fuel hf => ?_⟩
      obtain ⟨n, rfl⟩ : ∃ n, fuel = n + 1 := ⟨fuel - 1, by simp at hf; omega⟩
      have h2 := h2 n (by simp at hf; omega)
      simp only [List.flatMap_cons, List.foldl_cons, Member.toks, Member.read]
      unfold request_members
      simp [JsonParser.peek, JsonParser.next, JsonParser.current_value]
      rw [h1 _ (by
        have := args_length_le args
        simp only [List.length_flatMap] at this
        omega)]
      simp [JsonParser.next, h2]

theorem members_length_le (ms : List Member) : ms.length ≤ (ms.flatMap Member.toks).length := by
  induction ms with
  | nil => simp
  | cons m ms ih =>
    have : 1 ≤ m.toks.length := by cases m <;> simp [Member.toks]
    simp only [List.flatMap_cons, List.length_append, List.length_cons]
    omega

/-- `request_read` on the tokens of a well-formed request object, whatever
follows them: the fields of the request, and the parser behind the object. -/
theorem request_read_object (q : RequestObject) (hq : q.wf) (rest : List Tok) (cur : String) :
    request_read { toks := q.toks ++ rest, cur := cur } =
      .ok (q.fields, { toks := rest, cur := q.rbrace }) := by
  obtain ⟨cur1, h1⟩ := request_members_read q.rbrace rest q.members
    { method := "", params := [], id := "" } q.lbrace hq
  unfold request_read
  simp [RequestObject.toks, JsonParser.next]
  rw [h1 _ (by
    have := members_length_le q.members
    simp only [List.length_flatMap] at this
    omega)]
  simp [JsonParser.next, RequestObject.fields]

end reading

/-! ## Handlers that leave the response writer alone -/

section silent_lemmas

variable {S T : Type} {α β : Type}

theorem silent_andThen {x : W S α} {f : α → W S β} (hx : Silent x) (hf : ∀ a, Silent (f a)) :
    Silent (W.andThen x f) := by
  intro s
  unfold W.andThen
  have h1 := hx s
  rcases hxs : x s with ⟨r, o, s1⟩
  rw [hxs] at h1
  cases r with
  | error e => exact h1
  | ok a =>
    have h2 := hf a s1
    simp only [] at h1
    simp [h1, h2]

theorem silent_bind {x : W S α} {f : α → W S β} (hx : Silent x) (hf : ∀ a, Silent (f a)) :
    Silent (x >>= f) := silent_andThen hx hf

theorem silent_pure (a : α) : Silent (pure a : W S α) := fun _ => rfl

theorem silent_ret (a : α) : Silent (W.ret a : W S α) := fun _ => rfl

theorem silent_raise (e : Exn) : Silent (W.raise e : W S α) := fun _ => rfl

theorem silent_get : Silent (W.get : W S S) := fun _ => rfl

theorem silent_ofExcept (r : Except Exn α) : Silent (W.ofExcept r : W S α) := fun _ => rfl

theorem silent_modify (f : S → S) : Silent (W.modify f) := fun _ => rfl

theorem silent_capture (x : W S α) : Silent (W.capture x) := by
  intro s
  unfold W.capture
  rcases x s with ⟨r, o, s1⟩
  cases r <;> rfl

theorem silent_when (c : Bool) {x : W S Unit} (hx : Silent x) : Silent (W.when c x) := by
  unfold W.when
  split
  · exact hx
  · exact silent_ret ()

theorem silent_forEach (l : List α) {f : α → W S Unit} (hf : ∀ a, Silent (f a)) :
    Silent (W.forEach l f) := by
  induction l with
  | nil => exact silent_ret ()
  | cons a l ih => exact silent_andThen (hf a) (fun _ => ih)

end silent_lemmas

section silent_handlers

variable {σ : Type} {α : Type}

theorem silent_eng {x : B σ α} (hx : Silent x) : Silent (M.eng x) := fun s => hx s.eng

theorem silent_exec (E : Engine σ) (op : EngineOp) : Silent (B.exec E op) := fun _ => rfl

theorem silent_read (f : Eng σ → α) : Silent (B.read f) := fun _ => rfl

theorem silent_run (f : Eng σ → α × Eng σ) : Silent (B.run f) := fun _ => rfl

theorem silent_deref (p : Option α) : Silent (B.deref p : B σ α) := by
  cases p <;> intro s <;> rfl

theorem silent_send (p : Nat) (jw : JsonWriter) : Silent (CmdConnection.send p jw : M σ Unit) :=
  fun _ => rfl

theorem silent_send_notify_end (this : Nat) (jw : JsonWriter) (send_out : Bool) :
    Silent (CmdConnection.send_notify_end this jw send_out : M σ JsonWriter) := by
  unfold CmdConnection.send_notify_end
  split
  · exact silent_andThen (silent_send _ _) (fun _ => silent_ret _)
  · exact silent_ret _

theorem silent_broadcast_loop (sender : Option Nat) (jw : JsonWriter)
    (l : List (Nat × CmdConnection)) :
    Silent (MyService.broadcast_loop sender jw l : M σ Unit) := by
  induction l with
  | nil => exact silent_ret ()
  | cons p l ih =>
    unfold MyService.broadcast_loop
    refine silent_andThen ?_ (fun _ => ih)
    split
    · exact silent_send _ _
    · exact silent_ret ()

theorem silent_broadcast (sender : Option Nat) (jw : JsonWriter) :
    Silent (MyService.broadcast sender jw : M σ Unit) := by
  intro s
  exact silent_broadcast_loop sender jw s.connection_list s

theorem silent_update (this : Nat) (f : CmdConnection → CmdConnection) :
    Silent (CmdConnection.update this f : M σ Unit) := fun _ => rfl

theorem silent_save_state (E : Engine σ) : Silent (MyService.save_state E) := by
  intro s
  unfold MyService.save_state
  repeat' split
  all_goals rfl

theorem silent_on_param_value_changed (E : Engine σ) (p : Parameter) :
    Silent (MyService.on_param_value_changed E p) := by
  intro s
  unfold MyService.on_param_value_changed
  repeat' split
  all_goals rfl

theorem silent_bank_deref (E : Engine σ) (params : JsonArray) (i : Nat):
    Silent (bank_deref E params i) := by
  unfold bank_deref
  repeat' (first
    | with_reducible (first
        | apply silent_get
        | apply silent_raise
        | apply silent_ret
        | apply silent_pure
        | apply silent_ofExcept
        | apply silent_modify
        | apply silent_capture
        | apply silent_eng
        | apply silent_exec
        | apply silent_read
        | apply silent_run
        | apply silent_deref
        | apply silent_when
        | apply silent_forEach
        | apply silent_bind
        | apply silent_andThen)
    | split
    | with_reducible intro _)

theorem silent_param_deref (params : JsonArray) (i : Nat):
    Silent (param_deref params i : B σ Parameter) := by
  unfold param_deref
  repeat' (first
    | with_reducible (first
        | apply silent_get
        | apply silent_raise
        | apply silent_ret
        | apply silent_pure
        | apply silent_ofExcept
        | apply silent_modify
        | apply silent_capture
        | apply silent_eng
        | apply silent_exec
        | apply silent_read
        | apply silent_run
        | apply silent_deref
        | apply silent_when
        | apply silent_forEach
        | apply silent_bind
        | apply silent_andThen)
    | split
    | with_reducible intro _)

theorem silent_save_preset (E : Engine σ) (bank preset : String):
    Silent (save_preset E bank preset) := by
  unfold save_preset
  repeat' (first
    | with_reducible (first
        | apply silent_get
        | apply silent_raise
        | apply silent_ret
        | apply silent_pure
        | apply silent_ofExcept
        | apply silent_modify
        | apply silent_capture
        | apply silent_eng
        | apply silent_exec
        | apply silent_read
        | apply silent_run
        | apply silent_deref
        | apply silent_when
        | apply silent_forEach
        | apply silent_bind
        | apply silent_andThen)
    | split
    | with_reducible intro _)

theorem silent_PROCEDURE_bank_reorder (E : Engine σ) (params : JsonArray):
    Silent (PROCEDURE_bank_reorder E params) := by
  unfold PROCEDURE_bank_reorder
  repeat' (first
    | with_reducible (first
        | apply silent_get
        | apply silent_raise
        | apply silent_ret
        | apply silent_pure
        | apply silent_ofExcept
        | apply silent_modify
        | apply silent_capture
        | apply silent_eng
        | apply silent_exec
        | apply silent_read
        | apply silent_run
        | apply silent_deref
        | apply silent_bank_deref
        | apply silent_param_deref
        | apply silent_save_preset
        | apply silent_when
        | apply silent_forEach
        | apply silent_bind
        | apply silent_andThen)
    | split
    | with_reducible intro _)

theorem silent_PROCEDURE_reorder_preset (E : Engine σ) (params : JsonArray):
    Silent (PROCEDURE_reorder_preset E params) := by
  unfold PROCEDURE_reorder_preset
  repeat' (first
    | with_reducible (first
        | apply silent_get
        | apply silent_raise
        | apply silent_ret
        | apply silent_pure
        | apply silent_ofExcept
        | apply silent_modify
        | apply silent_capture
        | apply silent_eng
        | apply silent_exec
        | apply silent_read
        | apply silent_run
        | apply silent_deref
        | apply silent_bank_deref
        | apply silent_param_deref
        | apply silent_save_preset
        | apply silent_when
        | apply silent_forEach
        | apply silent_bind
        | apply silent_andThen)
    | split
    | with_reducible intro _)

theorem silent_PROCEDURE_erase_preset (E : Engine σ) (params : JsonArray):
    Silent (PROCEDURE_erase_preset E params) := by
  unfold PROCEDURE_erase_preset
  repeat' (first
    | with_reducible (first
        | apply silent_get
        | apply silent_raise
        | apply silent_ret
        | apply silent_pure
        | apply silent_ofExcept
        | apply silent_modify
        | apply silent_capture
        | apply silent_eng
        | apply silent_exec
        | apply silent_read
        | apply silent_run
        | apply silent_deref
        | apply silent_bank_deref
        | apply silent_param_deref
        | apply silent_save_preset
        | apply silent_when
        | apply silent_forEach
        | apply silent_bind
        | apply silent_andThen)
    | split
    | with_reducible intro _)

theorem silent_PROCEDURE_bank_set_flag (E : Engine σ) (params : JsonArray):
    Silent (PROCEDURE_bank_set_flag E params) := by
  unfold PROCEDURE_bank_set_flag
  repeat' (first
    | with_reducible (first
        | apply silent_get
        | apply silent_raise
        | apply silent_ret
        | apply silent_pure
        | apply silent_ofExcept
        | apply silent_modify
        | apply silent_capture
        | apply silent_eng
        | apply silent_exec
        | apply silent_read
        | apply silent_run
        | apply silent_deref
        | apply silent_bank_deref
        | apply silent_param_deref
        | apply silent_save_preset
        | apply silent_when
        | apply silent_forEach
        | apply silent_bind
        | apply silent_andThen)
    | split
    | with_reducible intro _)

theorem silent_PROCEDURE_pf_append (E : Engine σ) (params : JsonArray):
    Silent (PROCEDURE_pf_append E params) := by
  unfold PROCEDURE_pf_append
  repeat' (first
    | with_reducible (first
        | apply silent_get
        | apply silent_raise
        | apply silent_ret
        | apply silent_pure
        | apply silent_ofExcept
        | apply silent_modify
        | apply silent_capture
        | apply silent_eng
        | apply silent_exec
        | apply silent_read
        | apply silent_run
        | apply silent_deref
        | apply silent_bank_deref
        | apply silent_param_deref
        | apply silent_save_preset
        | apply silent_when
        | apply silent_forEach
        | apply silent_bind
        | apply silent_andThen)
    | split
    | with_reducible intro _)

theorem silent_PROCEDURE_pf_insert_before (E : Engine σ) (params : JsonArray):
    Silent (PROCEDURE_pf_insert_before E params) := by
  unfold PROCEDURE_pf_insert_before
  repeat' (first
    | with_reducible (first
        | apply silent_get
        | apply silent_raise
        | apply silent_ret
        | apply silent_pure
        | apply silent_ofExcept
        | apply silent_modify
        | apply silent_capture
        | apply silent_eng
        | apply silent_exec
        | apply silent_read
        | apply silent_run
        | apply silent_deref
        | apply silent_bank_deref
        | apply silent_param_deref
        | apply silent_save_preset
        | apply silent_when
        | apply silent_forEach
        | apply silent_bind
        | apply silent_andThen)
    | split
    | with_reducible intro _)

theorem silent_PROCEDURE_pf_insert_after (E : Engine σ) (params : JsonArray):
    Silent (PROCEDURE_pf_insert_after E params) := by
  unfold PROCEDURE_pf_insert_after
  repeat' (first
    | with_reducible (first
        | apply silent_get
        | apply silent_raise
        | apply silent_ret
        | apply silent_pure
        | apply silent_ofExcept
        | apply silent_modify
        | apply silent_capture
        | apply silent_eng
        | apply silent_exec
        | apply silent_read
        | apply silent_run
        | apply silent_deref
        | apply silent_bank_deref
        | apply silent_param_deref
        | apply silent_save_preset
        | apply silent_when
        | apply silent_forEach
        | apply silent_bind
        | apply silent_andThen)
    | split
    | with_reducible intro _)

theorem silent_PROCEDURE_pf_save (E : Engine σ) (params : JsonArray):
    Silent (PROCEDURE_pf_save E params) := by
  unfold PROCEDURE_pf_save
  repeat' (first
    | with_reducible (first
        | apply silent_get
        | apply silent_raise
        | apply silent_ret
        | apply silent_pure
        | apply silent_ofExcept
        | apply silent_modify
        | apply silent_capture
        | apply silent_eng
        | apply silent_exec
        | apply silent_read
        | apply silent_run
        | apply silent_deref
        | apply silent_bank_deref
        | apply silent_param_deref
        | apply silent_save_preset
        | apply silent_when
        | apply silent_forEach
        | apply silent_bind
        | apply silent_andThen)
    | split
    | with_reducible intro _)

theorem silent_PROCEDURE_plugin_preset_list_save (E : Engine σ) (params : JsonArray):
    Silent (PROCEDURE_plugin_preset_list_save E params) := by
  unfold PROCEDURE_plugin_preset_list_save
  repeat' (first
    | with_reducible (first
        | apply silent_get
        | apply silent_raise
        | apply silent_ret
        | apply silent_pure
        | apply silent_ofExcept
        | apply silent_modify
        | apply silent_capture
        | apply silent_eng
        | apply silent_exec
        | apply silent_read
        | apply silent_run
        | apply silent_deref
        | apply silent_bank_deref
        | apply silent_param_deref
        | apply silent_save_preset
        | apply silent_when
        | apply silent_forEach
        | apply silent_bind
        | apply silent_andThen)
    | split
    | with_reducible intro _)

theorem silent_PROCEDURE_plugin_preset_list_remove (E : Engine σ) (params : JsonArray):
    Silent (PROCEDURE_plugin_preset_list_remove E params) := by
  unfold PROCEDURE_plugin_preset_list_remove
  repeat' (first
    | with_reducible (first
        | apply silent_get
        | apply silent_raise
        | apply silent_ret
        | apply silent_pure
        | apply silent_ofExcept
        | apply silent_modify
        | apply silent_capture
        | apply silent_eng
        | apply silent_exec
        | apply silent_read
        | apply silent_run
        | apply silent_deref
        | apply silent_bank_deref
        | apply silent_param_deref
        | apply silent_save_preset
        | apply silent_when
        | apply silent_forEach
        | apply silent_bind
        | apply silent_andThen)
    | split
    | with_reducible intro _)

theorem silent_PROCEDURE_midi_deleteParameter (E : Engine σ) (params : JsonArray):
    Silent (PROCEDURE_midi_deleteParameter E params) := by
  unfold PROCEDURE_midi_deleteParameter
  repeat' (first
    | with_reducible (first
        | apply silent_get
        | apply silent_raise
        | apply silent_ret
        | apply silent_pure
        | apply silent_ofExcept
        | apply silent_modify
        | apply silent_capture
        | apply silent_eng
        | apply silent_exec
        | apply silent_read
        | apply silent_run
        | apply silent_deref
        | apply silent_bank_deref
        | apply silent_param_deref
        | apply silent_save_preset
        | apply silent_when
        | apply silent_forEach
        | apply silent_bind
        | apply silent_andThen)
    | split
    | with_reducible intro _)

theorem silent_PROCEDURE_midi_set_current_control (E : Engine σ) (params : JsonArray):
    Silent (PROCEDURE_midi_set_current_control E params) := by
  unfold PROCEDURE_midi_set_current_control
  repeat' (first
    | with_reducible (first
        | apply silent_get
        | apply silent_raise
        | apply silent_ret
        | apply silent_pure
        | apply silent_ofExcept
        | apply silent_modify
        | apply silent_capture
        | apply silent_eng
        | apply silent_exec
        | apply silent_read
        | apply silent_run
        | apply silent_deref
        | apply silent_bank_deref
        | apply silent_param_deref
        | apply silent_save_preset
        | apply silent_when
        | apply silent_forEach
        | apply silent_bind
        | apply silent_andThen)
    | split
    | with_reducible intro _)

theorem silent_PROCEDURE_midi_modifyCurrent (E : Engine σ) (params : JsonArray):
    Silent (PROCEDURE_midi_modifyCurrent E params) := by
  unfold PROCEDURE_midi_modifyCurrent
  repeat' (first
    | with_reducible (first
        | apply silent_get
        | apply silent_raise
        | apply silent_ret
        | apply silent_pure
        | apply silent_ofExcept
        | apply silent_modify
        | apply silent_capture
        | apply silent_eng
        | apply silent_exec
        | apply silent_read
        | apply silent_run
        | apply silent_deref
        | apply silent_bank_deref
        | apply silent_param_deref
        | apply silent_save_preset
        | apply silent_when
        | apply silent_forEach
        | apply silent_bind
        | apply silent_andThen)
    | split
    | with_reducible intro _)

theorem silent_PROCEDURE_setstate (E : Engine σ) (params : JsonArray):
    Silent (PROCEDURE_setstate E params) := by
  unfold PROCEDURE_setstate
  repeat' (first
    | with_reducible (first
        | apply silent_get
        | apply silent_raise
        | apply silent_ret
        | apply silent_pure
        | apply silent_ofExcept
        | apply silent_modify
        | apply silent_capture
        | apply silent_eng
        | apply silent_exec
        | apply silent_read
        | apply silent_run
        | apply silent_deref
        | apply silent_bank_deref
        | apply silent_param_deref
        | apply silent_save_preset
        | apply silent_when
        | apply silent_forEach
        | apply silent_bind
        | apply silent_andThen)
    | split
    | with_reducible intro _)

theorem silent_PROCEDURE_switch_tuner (E : Engine σ) (params : JsonArray):
    Silent (PROCEDURE_switch_tuner E params) := by
  unfold PROCEDURE_switch_tuner
  repeat' (first
    | with_reducible (first
        | apply silent_get
        | apply silent_raise
        | apply silent_ret
        | apply silent_pure
        | apply silent_ofExcept
        | apply silent_modify
        | apply silent_capture
        | apply silent_eng
        | apply silent_exec
        | apply silent_read
        | apply silent_run
        | apply silent_deref
        | apply silent_bank_deref
        | apply silent_param_deref
        | apply silent_save_preset
        | apply silent_when
        | apply silent_forEach
        | apply silent_bind
        | apply silent_andThen)
    | split
    | with_reducible intro _)

theorem silent_PROCEDURE_ladspaloader_set_plugins (E : Engine σ) (params : JsonArray):
    Silent (PROCEDURE_ladspaloader_set_plugins E params) := by
  unfold PROCEDURE_ladspaloader_set_plugins
  repeat' (first
    | with_reducible (first
        | apply silent_get
        | apply silent_raise
        | apply silent_ret
        | apply silent_pure
        | apply silent_ofExcept
        | apply silent_modify
        | apply silent_capture
        | apply silent_eng
        | apply silent_exec
        | apply silent_read
        | apply silent_run
        | apply silent_deref
        | apply silent_bank_deref
        | apply silent_param_deref
        | apply silent_save_preset
        | apply silent_when
        | apply silent_forEach
        | apply silent_bind
        | apply silent_andThen)
    | split
    | with_reducible intro _)

theorem silent_PROCEDURE_save_current (E : Engine σ):
    Silent (PROCEDURE_save_current E) := by
  unfold PROCEDURE_save_current
  repeat' (first
    | with_reducible (first
        | apply silent_get
        | apply silent_raise
        | apply silent_ret
        | apply silent_pure
        | apply silent_ofExcept
        | apply silent_modify
        | apply silent_capture
        | apply silent_eng
        | apply silent_exec
        | apply silent_read
        | apply silent_run
        | apply silent_deref
        | apply silent_bank_deref
        | apply silent_param_deref
        | apply silent_save_preset
        | apply silent_when
        | apply silent_forEach
        | apply silent_bind
        | apply silent_andThen)
    | split
    | with_reducible intro _)

theorem silent_PROCEDURE_save_preset (E : Engine σ) (params : JsonArray):
    Silent (PROCEDURE_save_preset E params) := by
  unfold PROCEDURE_save_preset
  repeat' (first
    | with_reducible (first
        | apply silent_get
        | apply silent_raise
        | apply silent_ret
        | apply silent_pure
        | apply silent_ofExcept
        | apply silent_modify
        | apply silent_capture
        | apply silent_eng
        | apply silent_exec
        | apply silent_read
        | apply silent_run
        | apply silent_deref
        | apply silent_bank_deref
        | apply silent_param_deref
        | apply silent_save_preset
        | apply silent_when
        | apply silent_forEach
        | apply silent_bind
        | apply silent_andThen)
    | split
    | with_reducible intro _)

theorem silent_PROCEDURE_set_oscilloscope_mul_buffer (E : Engine σ) (params : JsonArray):
    Silent (PROCEDURE_set_oscilloscope_mul_buffer E params) := by
  unfold PROCEDURE_set_oscilloscope_mul_buffer
  repeat' (first
    | with_reducible (first
        | apply silent_get
        | apply silent_raise
        | apply silent_ret
        | apply silent_pure
        | apply silent_ofExcept
        | apply silent_modify
        | apply silent_capture
        | apply silent_eng
        | apply silent_exec
        | apply silent_read
        | apply silent_run
        | apply silent_deref
        | apply silent_bank_deref
        | apply silent_param_deref
        | apply silent_save_preset
        | apply silent_when
        | apply silent_forEach
        | apply silent_bind
        | apply silent_andThen)
    | split
    | with_reducible intro _)

theorem silent_PROCEDURE_int_op (E : Engine σ) (op : Int → EngineOp) (params : JsonArray):
    Silent (PROCEDURE_int_op E op params) := by
  unfold PROCEDURE_int_op
  repeat' (first
    | with_reducible (first
        | apply silent_get
        | apply silent_raise
        | apply silent_ret
        | apply silent_pure
        | apply silent_ofExcept
        | apply silent_modify
        | apply silent_capture
        | apply silent_eng
        | apply silent_exec
        | apply silent_read
        | apply silent_run
        | apply silent_deref
        | apply silent_when
        | apply silent_forEach
        | apply silent_bind
        | apply silent_andThen)
    | split
    | with_reducible intro _)

theorem silent_listen (E : Engine σ) (this : Nat) (tp : String):
    Silent (CmdConnection.listen E this tp) := by
  unfold CmdConnection.listen
  repeat' (first
    | with_reducible (first
        | apply silent_get
        | apply silent_raise
        | apply silent_ret
        | apply silent_pure
        | apply silent_ofExcept
        | apply silent_modify
        | apply silent_capture
        | apply silent_eng
        | apply silent_exec
        | apply silent_read
        | apply silent_run
        | apply silent_deref
        | apply silent_send_notify_end
        | apply silent_broadcast
        | apply silent_update
        | apply silent_save_state
        | apply silent_on_param_value_changed
        | apply silent_when
        | apply silent_forEach
        | apply silent_bind
        | apply silent_andThen)
    | split
    | with_reducible intro _)

theorem silent_unlisten (this : Nat) (tp : String):
    Silent (CmdConnection.unlisten this tp : M σ Unit) := by
  unfold CmdConnection.unlisten
  repeat' (first
    | with_reducible (first
        | apply silent_get
        | apply silent_raise
        | apply silent_ret
        | apply silent_pure
        | apply silent_ofExcept
        | apply silent_modify
        | apply silent_capture
        | apply silent_eng
        | apply silent_exec
        | apply silent_read
        | apply silent_run
        | apply silent_deref
        | apply silent_send_notify_end
        | apply silent_broadcast
        | apply silent_update
        | apply silent_save_state
        | apply silent_on_param_value_changed
        | apply silent_when
        | apply silent_forEach
        | apply silent_bind
        | apply silent_andThen)
    | split
    | with_reducible intro _)

theorem silent_send_rack_changed (E : Engine σ) (this : Nat) (stereo : Bool):
    Silent (CmdConnection.send_rack_changed E this stereo) := by
  unfold CmdConnection.send_rack_changed
  repeat' (first
    | with_reducible (first
        | apply silent_get
        | apply silent_raise
        | apply silent_ret
        | apply silent_pure
        | apply silent_ofExcept
        | apply silent_modify
        | apply silent_capture
        | apply silent_eng
        | apply silent_exec
        | apply silent_read
        | apply silent_run
        | apply silent_deref
        | apply silent_send_notify_end
        | apply silent_broadcast
        | apply silent_update
        | apply silent_save_state
        | apply silent_on_param_value_changed
        | apply silent_when
        | apply silent_forEach
        | apply silent_bind
        | apply silent_andThen)
    | split
    | with_reducible intro _)

theorem silent_insert_rack_unit (E : Engine σ) (this : Nat) (params : JsonArray):
    Silent (PROCEDURE_insert_rack_unit E this params) := by
  unfold PROCEDURE_insert_rack_unit
  repeat' (first
    | with_reducible (first
        | apply silent_get
        | apply silent_raise
        | apply silent_ret
        | apply silent_pure
        | apply silent_ofExcept
        | apply silent_modify
        | apply silent_capture
        | apply silent_eng
        | apply silent_exec
        | apply silent_read
        | apply silent_run
        | apply silent_deref
        | apply silent_send_notify_end
        | apply silent_broadcast
        | apply silent_update
        | apply silent_save_state
        | apply silent_on_param_value_changed
        | apply silent_send_rack_changed
        | apply silent_when
        | apply silent_forEach
        | apply silent_bind
        | apply silent_andThen)
    | split
    | with_reducible intro _)

theorem silent_remove_rack_unit (E : Engine σ) (this : Nat) (params : JsonArray):
    Silent (PROCEDURE_remove_rack_unit E this params) := by
  unfold PROCEDURE_remove_rack_unit
  repeat' (first
    | with_reducible (first
        | apply silent_get
        | apply silent_raise
        | apply silent_ret
        | apply silent_pure
        | apply silent_ofExcept
        | apply silent_modify
        | apply silent_capture
        | apply silent_eng
        | apply silent_exec
        | apply silent_read
        | apply silent_run
        | apply silent_deref
        | apply silent_send_notify_end
        | apply silent_broadcast
        | apply silent_update
        | apply silent_save_state
        | apply silent_on_param_value_changed
        | apply silent_send_rack_changed
        | apply silent_when
        | apply silent_forEach
        | apply silent_bind
        | apply silent_andThen)
    | split
    | with_reducible intro _)

theorem silent_plugin_preset_list_set_body (E : Engine σ) (this : Nat) (params : JsonArray):
    Silent (plugin_preset_list_set_body E this params) := by
  unfold plugin_preset_list_set_body plugin_preset_list_set_changes
  repeat' (first
    | with_reducible (first
        | apply silent_get
        | apply silent_raise
        | apply silent_ret
        | apply silent_pure
        | apply silent_ofExcept
        | apply silent_modify
        | apply silent_capture
        | apply silent_eng
        | apply silent_exec
        | apply silent_read
        | apply silent_run
        | apply silent_deref
        | apply silent_send_notify_end
        | apply silent_broadcast
        | apply silent_update
        | apply silent_save_state
        | apply silent_on_param_value_changed
        | apply silent_when
        | apply silent_forEach
        | apply silent_bind
        | apply silent_andThen)
    | split
    | with_reducible intro _)

theorem silent_plugin_preset_list_set (E : Engine σ) (this : Nat) (params : JsonArray) :
    Silent (PROCEDURE_plugin_preset_list_set E this params) := by
  intro s
  unfold PROCEDURE_plugin_preset_list_set
  have h := silent_plugin_preset_list_set_body E this params
    { s with jwc := .live (JsonWriter.send_notify_begin "set") }
  split
  · next e o s1 heq =>
    rw [heq] at h
    exact h
  · exact h

theorem silent_midi_set_config_mode (E : Engine σ) (this : Nat) (params : JsonArray):
    Silent (PROCEDURE_midi_set_config_mode E this params) := by
  unfold PROCEDURE_midi_set_config_mode
  repeat' (first
    | with_reducible (first
        | apply silent_get
        | apply silent_raise
        | apply silent_ret
        | apply silent_pure
        | apply silent_ofExcept
        | apply silent_modify
        | apply silent_capture
        | apply silent_eng
        | apply silent_exec
        | apply silent_read
        | apply silent_run
        | apply silent_deref
        | apply silent_send_notify_end
        | apply silent_broadcast
        | apply silent_update
        | apply silent_save_state
        | apply silent_on_param_value_changed
        | apply silent_when
        | apply silent_forEach
        | apply silent_bind
        | apply silent_andThen)
    | split
    | with_reducible intro _)

theorem silent_set_one (E : Engine σ) (attr : JsonValue) (v : Except Exn JsonValue):
    Silent (set_one E attr v) := by
  unfold set_one
  repeat' (first
    | with_reducible (first
        | apply silent_get
        | apply silent_raise
        | apply silent_ret
        | apply silent_pure
        | apply silent_ofExcept
        | apply silent_modify
        | apply silent_capture
        | apply silent_eng
        | apply silent_exec
        | apply silent_read
        | apply silent_run
        | apply silent_deref
        | apply silent_send_notify_end
        | apply silent_broadcast
        | apply silent_update
        | apply silent_save_state
        | apply silent_on_param_value_changed
        | apply silent_when
        | apply silent_forEach
        | apply silent_bind
        | apply silent_andThen)
    | split
    | with_reducible intro _)

theorem silent_set_loop (E : Engine σ) : ∀ params : JsonArray, Silent (set_loop E params)
  | [] => silent_ret ()
  | [attr] => by unfold set_loop; exact silent_set_one E attr _
  | attr :: v :: rest => by
    unfold set_loop
    exact silent_andThen (silent_set_one E attr _) (fun _ => silent_set_loop E rest)

theorem silent_PROCEDURE_set (E : Engine σ) (this : Nat) (params : JsonArray):
    Silent (PROCEDURE_set E this params) := by
  unfold PROCEDURE_set
  repeat' (first
    | with_reducible (first
        | apply silent_get
        | apply silent_raise
        | apply silent_ret
        | apply silent_pure
        | apply silent_ofExcept
        | apply silent_modify
        | apply silent_capture
        | apply silent_eng
        | apply silent_exec
        | apply silent_read
        | apply silent_run
        | apply silent_deref
        | apply silent_send_notify_end
        | apply silent_broadcast
        | apply silent_update
        | apply silent_save_state
        | apply silent_on_param_value_changed
        | apply silent_set_loop
        | apply silent_when
        | apply silent_forEach
        | apply silent_bind
        | apply silent_andThen)
    | split
    | with_reducible intro _)

theorem silent_setpreset (E : Engine σ) (params : JsonArray):
    Silent (PROCEDURE_setpreset E params) := by
  unfold PROCEDURE_setpreset
  repeat' (first
    | with_reducible (first
        | apply silent_get
        | apply silent_raise
        | apply silent_ret
        | apply silent_pure
        | apply silent_ofExcept
        | apply silent_modify
        | apply silent_capture
        | apply silent_eng
        | apply silent_exec
        | apply silent_read
        | apply silent_run
        | apply silent_deref
        | apply silent_send_notify_end
        | apply silent_broadcast
        | apply silent_update
        | apply silent_save_state
        | apply silent_on_param_value_changed
        | apply silent_when
        | apply silent_forEach
        | apply silent_bind
        | apply silent_andThen)
    | split
    | with_reducible intro _)

theorem silent_reload_impresp_list (E : Engine σ) (this : Nat) (params : JsonArray):
    Silent (PROCEDURE_reload_impresp_list E this params) := by
  unfold PROCEDURE_reload_impresp_list
  repeat' (first
    | with_reducible (first
        | apply silent_get
        | apply silent_raise
        | apply silent_ret
        | apply silent_pure
        | apply silent_ofExcept
        | apply silent_modify
        | apply silent_capture
        | apply silent_eng
        | apply silent_exec
        | apply silent_read
        | apply silent_run
        | apply silent_deref
        | apply silent_send_notify_end
        | apply silent_broadcast
        | apply silent_update
        | apply silent_save_state
        | apply silent_on_param_value_changed
        | apply silent_when
        | apply silent_forEach
        | apply silent_bind
        | apply silent_andThen)
    | split
    | with_reducible intro _)

theorem silent_shutdown (this : Nat):
    Silent (PROCEDURE_shutdown this : M σ Unit) := by
  unfold PROCEDURE_shutdown
  repeat' (first
    | with_reducible (first
        | apply silent_get
        | apply silent_raise
        | apply silent_ret
        | apply silent_pure
        | apply silent_ofExcept
        | apply silent_modify
        | apply silent_capture
        | apply silent_eng
        | apply silent_exec
        | apply silent_read
        | apply silent_run
        | apply silent_deref
        | apply silent_send_notify_end
        | apply silent_broadcast
        | apply silent_update
        | apply silent_save_state
        | apply silent_on_param_value_changed
        | apply silent_when
        | apply silent_forEach
        | apply silent_bind
        | apply silent_andThen)
    | split
    | with_reducible intro _)

theorem silent_PROCEDURE_listen (E : Engine σ) (this : Nat) (params : JsonArray):
    Silent (PROCEDURE_listen E this params) := by
  unfold PROCEDURE_listen
  repeat' (first
    | with_reducible (first
        | apply silent_get
        | apply silent_raise
        | apply silent_ret
        | apply silent_pure
        | apply silent_ofExcept
        | apply silent_modify
        | apply silent_capture
        | apply silent_eng
        | apply silent_exec
        | apply silent_read
        | apply silent_run
        | apply silent_deref
        | apply silent_listen
        | apply silent_when
        | apply silent_forEach
        | apply silent_bind
        | apply silent_andThen)
    | split
    | with_reducible intro _)

theorem silent_PROCEDURE_unlisten (this : Nat) (params : JsonArray):
    Silent (PROCEDURE_unlisten this params : M σ Unit) := by
  unfold PROCEDURE_unlisten
  repeat' (first
    | with_reducible (first
        | apply silent_get
        | apply silent_raise
        | apply silent_ret
        | apply silent_pure
        | apply silent_ofExcept
        | apply silent_modify
        | apply silent_capture
        | apply silent_eng
        | apply silent_exec
        | apply silent_read
        | apply silent_run
        | apply silent_deref
        | apply silent_unlisten
        | apply silent_when
        | apply silent_forEach
        | apply silent_bind
        | apply silent_andThen)
    | split
    | with_reducible intro _)

/-- No case of `notify` makes a call on the writer it is given. -/
theorem silent_notify (E : Engine σ) (this : Nat) (mn : methodnames) (params : JsonArray) :
    Silent (CmdConnection.notify E this mn params) := by
  unfold CmdConnection.notify
  split <;> with_reducible first
    | exact silent_eng (silent_PROCEDURE_bank_reorder E params)
    | exact silent_eng (silent_PROCEDURE_reorder_preset E params)
    | exact silent_eng (silent_PROCEDURE_erase_preset E params)
    | exact silent_eng (silent_PROCEDURE_bank_set_flag E params)
    | exact silent_eng (silent_PROCEDURE_pf_append E params)
    | exact silent_eng (silent_PROCEDURE_pf_insert_before E params)
    | exact silent_eng (silent_PROCEDURE_pf_insert_after E params)
    | exact silent_eng (silent_PROCEDURE_pf_save E params)
    | exact silent_eng (silent_PROCEDURE_plugin_preset_list_save E params)
    | exact silent_eng (silent_PROCEDURE_plugin_preset_list_remove E params)
    | exact silent_eng (silent_PROCEDURE_midi_deleteParameter E params)
    | exact silent_eng (silent_PROCEDURE_midi_set_current_control E params)
    | exact silent_eng (silent_PROCEDURE_midi_modifyCurrent E params)
    | exact silent_eng (silent_PROCEDURE_setstate E params)
    | exact silent_eng (silent_PROCEDURE_switch_tuner E params)
    | exact silent_eng (silent_PROCEDURE_ladspaloader_set_plugins E params)
    | exact silent_eng (silent_PROCEDURE_save_current E)
    | exact silent_eng (silent_PROCEDURE_save_preset E params)
    | exact silent_eng (silent_PROCEDURE_set_oscilloscope_mul_buffer E params)
    | exact silent_eng (silent_PROCEDURE_int_op E _ params)
    | exact silent_eng (silent_exec E _)
    | exact silent_insert_rack_unit E this params
    | exact silent_remove_rack_unit E this params
    | exact silent_plugin_preset_list_set E this params
    | exact silent_midi_set_config_mode E this params
    | exact silent_PROCEDURE_set E this params
    | exact silent_setpreset E params
    | exact silent_reload_impresp_list E this params
    | exact silent_shutdown this
    | exact silent_PROCEDURE_listen E this params
    | exact silent_PROCEDURE_unlisten this params
    | exact silent_raise _

end silent_handlers

/-! ## Requests -/

section dispatch

variable {σ : Type}

theorem request_eq (E : Engine σ) (this : Nat) (jp : JsonParser) (bs : Bool) (s : MyService σ) :
    CmdConnection.request E this jp bs s =
      match request_read jp with
      | .error e => (.error e, [], s)
      | .ok (r, jp1) => W.andThen (request_dispatch E this r bs) (fun b => W.ret (b, jp1)) s := by
  unfold CmdConnection.request
  cases h : request_read jp with
  | error e => simp [W.bind_def, W.andThen]
  | ok x =>
    obtain ⟨r, jp1⟩ := x
    simp only [W.bind_def, W.andThen, W.ofExcept_run]
    rcases request_dispatch E this r bs s with ⟨a, o, s1⟩
    cases a <;> simp

/-- An unknown method name: `request` throws MethodNotFound and does nothing
else. -/
theorem dispatch_unknown (E : Engine σ) (this : Nat) (r : RequestFields) (bs : Bool)
    (s : MyService σ) (hm : in_word_set r.method = none) :
    request_dispatch E this r bs s =
      (.error (Exn.RpcError (-32601) ("Method not found -- '" ++ r.method ++ "'")), [], s) := by
  simp [request_dispatch, hm]

/-- A call whose handler returns: the response object, after the opening
bracket when the call is the first of its batch. -/
theorem dispatch_call_ok (E : Engine σ) (this : Nat) (r : RequestFields) (bs : Bool)
    (s s1 : MyService σ) (p : methodnames) (o : JsonWriter)
    (hm : in_word_set r.method = some p) (hid : r.id ≠ "")
    (hc : CmdConnection.call E this p r.params s = (.ok (), o, s1)) :
    request_dispatch E this r bs s =
      (.ok true, (if bs then [JsonEvent.begin_array] else []) ++ call_response r.id o, s1) := by
  simp only [request_dispatch, hm, hid, if_false, W.bind_def]
  simp only [W.andThen, W.ret_run, W.when, W.write_run, hc]
  cases bs <;> simp [call_response, JsonWriter.write_kv_string, hc]

/-- A call whose handler throws: the exception leaves `request`. -/
theorem dispatch_call_error (E : Engine σ) (this : Nat) (r : RequestFields) (bs : Bool)
    (s s1 : MyService σ) (p : methodnames) (o : JsonWriter) (e : Exn)
    (hm : in_word_set r.method = some p) (hid : r.id ≠ "")
    (hc : CmdConnection.call E this p r.params s = (.error e, o, s1)) :
    ∃ o1, request_dispatch E this r bs s = (.error e, o1, s1) := by
  simp only [request_dispatch, hm, hid, if_false, W.bind_def]
  simp only [W.andThen, W.ret_run, W.when, W.write_run, hc]
  cases bs <;> simp [hc]

/-- A notification whose handler returns: nothing is written. -/
theorem dispatch_notify_ok (E : Engine σ) (this : Nat) (r : RequestFields) (bs : Bool)
    (s s1 : MyService σ) (p : methodnames) (o : JsonWriter)
    (hm : in_word_set r.method = some p) (hid : r.id = "")
    (hc : CmdConnection.notify E this p r.params s = (.ok (), o, s1)) :
    request_dispatch E this r bs s = (.ok false, [], s1) := by
  have ho : o = [] := by
    have := silent_notify E this p r.params s
    rw [hc] at this
    exact this
  subst ho
  simp only [request_dispatch, hm, hid, if_true, W.bind_def]
  simp [W.andThen, W.catchRpc, hc]

/-- A notification whose handler throws an `RpcError`: the error response is
written to the writer of the batch, and `request` returns false. -/
theorem dispatch_notify_rpc_error (E : Engine σ) (this : Nat) (r : RequestFields) (bs : Bool)
    (s s1 : MyService σ) (p : methodnames) (o : JsonWriter) (code : Int) (message : String)
    (hm : in_word_set r.method = some p) (hid : r.id = "")
    (hc : CmdConnection.notify E this p r.params s = (.error (Exn.RpcError code message), o, s1)) :
    request_dispatch E this r bs s = (.ok false, error_response code message, s1) := by
  have ho : o = [] := by
    have := silent_notify E this p r.params s
    rw [hc] at this
    exact this
  subst ho
  simp only [request_dispatch, hm, hid, if_true, W.bind_def]
  simp [W.andThen, W.catchRpc, hc]

end dispatch

/-! ## Single requests and batches -/

section processing

variable {σ : Type}

theorem objects_length_le (qs : List RequestObject) :
    qs.length ≤ (qs.flatMap RequestObject.toks).length := by
  induction qs with
  | nil => simp
  | cons q qs ih =>
    have : 1 ≤ q.toks.length := by simp [RequestObject.toks]
    simp only [List.flatMap_cons, List.length_append, List.length_cons]
    omega

/-- `request` on the tokens of a well-formed request object is the dispatch
of its fields; the parser is left behind the object. -/
theorem request_object (E : Engine σ) (this : Nat) (q : RequestObject) (hq : q.wf)
    (rest : List Tok) (cur : String) (bs : Bool) (s : MyService σ) :
    CmdConnection.request E this { toks := q.toks ++ rest, cur := cur } bs s =
      W.andThen (request_dispatch E this q.fields bs)
        (fun b => W.ret (b, { toks := rest, cur := q.rbrace })) s := by
  rw [request_eq, request_read_object q hq rest cur]

/-- The `try` block of `process` on a single well-formed request object. -/
theorem process_try_object (E : Engine σ) (this : Nat) (q : RequestObject) (hq : q.wf)
    (rest : List Tok) (cur : String) (s : MyService σ) :
    process_try E this { toks := q.toks ++ rest, cur := cur } s =
      request_dispatch E this q.fields false s := by
  have hb : JsonParser.first_is_bracket { toks := q.toks ++ rest, cur := cur } = false := by
    simp [JsonParser.first_is_bracket, RequestObject.toks]
  unfold process_try
  simp only [hb, Bool.false_eq_true, if_false, W.bind_def]
  have h := request_object E this q hq rest cur false s
  simp only [W.andThen, h] 
  rcases request_dispatch E this q.fields false s with ⟨a, o, s1⟩
  cases a <;> simp

end processing

section sent_lemmas

variable {σ : Type}

/-- Documents that went to other sessions do not show among those sent on a
session. -/
theorem sent_on_of_stays {this : Nat} {s t : MyService σ}
    (h : Stays (fun p => p ≠ this) s t) : sent_on this t = sent_on this s := by
  obtain ⟨_, extra, hw, hp⟩ := h
  have : extra.filter (fun e => decide (e.1 = this)) = [] := by
    rw [List.filter_eq_nil_iff]
    intro e he
    simpa using hp e he
  simp [sent_on, hw, List.filter_append, this]

theorem process_of_try_true (E : Engine σ) (this : Nat) (jp : JsonStringParser)
    (s s1 : MyService σ) (jw : JsonWriter)
    (h : process_try E this jp.jp s = (.ok true, jw, s1)) :
    CmdConnection.process E this jp s =
      (.ok (), [], { s1 with wire := s1.wire ++ [(this, jw)] }) := by
  simp [CmdConnection.process, h, CmdConnection.send]

theorem process_of_try_false (E : Engine σ) (this : Nat) (jp : JsonStringParser)
    (s s1 : MyService σ) (jw : JsonWriter)
    (h : process_try E this jp.jp s = (.ok false, jw, s1)) :
    CmdConnection.process E this jp s = (.ok (), [], s1) := by
  simp [CmdConnection.process, h]

theorem process_of_try_rpc_error (E : Engine σ) (this : Nat) (jp : JsonStringParser)
    (s s1 : MyService σ) (jw : JsonWriter) (code : Int) (message : String)
    (h : process_try E this jp.jp s = (.error (Exn.RpcError code message), jw, s1)) :
    CmdConnection.process E this jp s =
      (.ok (), [], { s1 with wire := s1.wire ++ [(this, error_response code message)] }) := by
  simp [CmdConnection.process, h, CmdConnection.send]

end sent_lemmas

section batches

variable {σ : Type}

theorem handle_all_length (E : Engine σ) (this : Nat) :
    ∀ (rs : List RequestFields) (s s1 : MyService σ) (outs : List JsonWriter),
      handle_all E this rs s = some (outs, s1) → outs.length = (call_ids rs).length
  | [], s, s1, outs, h => by
    simp [handle_all] at h
    obtain ⟨rfl, rfl⟩ := h
    simp [call_ids]
  | r :: rs, s, s1, outs, h => by
    unfold handle_all at h
    cases hm : in_word_set r.method with
    | none => simp [hm] at h
    | some p =>
      simp only [hm] at h
      by_cases hid : r.id = ""
      · simp only [hid, if_true] at h
        rcases hn : CmdConnection.notify E this p r.params s with ⟨a, o, s2⟩
        rw [hn] at h
        cases a with
        | error e => simp at h
        | ok u =>
          simp only [] at h
          have := handle_all_length E this rs s2 s1 outs h
          simpa [call_ids, hid] using this
      · simp only [hid, if_false] at h
        rcases hn : CmdConnection.call E this p r.params s with ⟨a, o, s2⟩
        rw [hn] at h
        cases a with
        | error e => simp at h
        | ok u =>
          simp only [] at h
          cases hr : handle_all E this rs s2 with
          | none => simp [hr] at h
          | some x =>
            simp only [hr, Option.some.injEq, Prod.mk.injEq] at h
            have := handle_all_length E this rs s2 x.2 x.1 (by simp [hr])
            rw [← h.1]
            simp [call_ids, hid, this]

/-- The loop of `process` over the request objects of a batch whose handlers
all return: the responses of the calls, in order, and the state the last
handler left; the loop stops in front of the closing bracket. -/
theorem batch_loop_handled (E : Engine σ) (this : Nat) (rb : String) (rest : List Tok) :
    ∀ (qs : List RequestObject) (s s1 : MyService σ) (outs : List JsonWriter) (resp : Bool)
      (cur : String),
      (∀ q ∈ qs, q.wf) → handle_all E this (qs.map RequestObject.fields) s = some (outs, s1) →
      ∃ cur1, ∀ fuel, qs.length < fuel →
        batch_loop E this fuel
          { toks := qs.flatMap RequestObject.toks ++ { kind := token.end_array, value := rb } :: rest,
            cur := cur } resp s =
        (.ok (resp || decide (call_ids (qs.map RequestObject.fields) ≠ []),
              { toks := { kind := token.end_array, value := rb } :: rest, cur := cur1 }),
          batch_events resp (call_ids (qs.map RequestObject.fields)) outs, s1)
  | [], s, s1, outs, resp, cur, _, h => by
    simp [handle_all] at h
    obtain ⟨rfl, rfl⟩ := h
    refine ⟨cur, fun fuel hf => ?_⟩
    obtain ⟨n, rfl⟩ : ∃ n, fuel = n + 1 := ⟨fuel - 1, by simp at hf; omega⟩
    simp [batch_loop, JsonParser.peek, call_ids, batch_events, responses]
  | q :: qs, s, s1, outs, resp, cur, hw, h => by
    have hq : q.wf := hw q (by simp)
    have hqs : ∀ q1 ∈ qs, q1.wf := fun b hb => hw b (by simp [hb])
    simp only [List.map_cons] at h
    unfold handle_all at h
    have hpeek : ({ toks := q.toks ++ (qs.flatMap RequestObject.toks ++
        { kind := token.end_array, value := rb } :: rest), cur := cur } : JsonParser).peek =
        .ok token.begin_object := by
      simp [RequestObject.toks, JsonParser.peek]
    cases hm : in_word_set q.fields.method with
    | none => simp [hm] at h
    | some p =>
      simp only [hm] at h
      by_cases hid : q.fields.id = ""
      · simp only [hid, if_true] at h
        rcases hn : CmdConnection.notify E this p q.fields.params s with ⟨a, o, s2⟩
        rw [hn] at h
        cases a with
        | error e => simp at h
        | ok u =>
          simp only [] at h
          obtain ⟨cur1, ih⟩ := batch_loop_handled E this rb rest qs s2 s1 outs (false || resp)
            q.rbrace hqs h
          refine ⟨cur1, fun fuel hf => ?_⟩
          obtain ⟨n, rfl⟩ : ∃ n, fuel = n + 1 := ⟨fuel - 1, by simp at hf; omega⟩
          have ih := ih n (by simp at hf; omega)
          have hd := dispatch_notify_ok E this q.fields (!resp) s s2 p o hm hid hn
          have hr := request_object E this q hq
            (qs.flatMap RequestObject.toks ++ { kind := token.end_array, value := rb } :: rest)
            cur (!resp) s
          simp only [List.flatMap_cons, List.append_assoc, List.map_cons]
          unfold batch_loop
          rw [hpeek]
          simp only [W.andThen, hr, hd, W.ret_run, ih]
          simp [call_ids, hid, batch_events]
      · simp only [hid, if_false] at h
        rcases hn : CmdConnection.call E this p q.fields.params s with ⟨a, o, s2⟩
        rw [hn] at h
        cases a with
        | error e => simp at h
        | ok u =>
          simp only [] at h
          cases hr : handle_all E this (qs.map RequestObject.fields) s2 with
          | none => simp [hr] at h
          | some x =>
            simp only [hr, Option.some.injEq, Prod.mk.injEq] at h
            obtain ⟨cur1, ih⟩ := batch_loop_handled E this rb rest qs s2 x.2 x.1 (true || resp)
              q.rbrace hqs (by simp [hr])
            refine ⟨cur1, fun fuel hf => ?_⟩
            obtain ⟨n, rfl⟩ : ∃ n, fuel = n + 1 := ⟨fuel - 1, by simp at hf; omega⟩
            have ih := ih n (by simp at hf; omega)
            have hd := dispatch_call_ok E this q.fields (!resp) s s2 p o hm hid hn
            have hr := request_object E this q hq
              (qs.flatMap RequestObject.toks ++ { kind := token.end_array, value := rb } :: rest)
              cur (!resp) s
            simp only [List.flatMap_cons, List.append_assoc, List.map_cons]
            unfold batch_loop
            rw [hpeek]
            simp only [W.andThen, hr, hd, W.ret_run, ih]
            rw [← h.1, ← h.2]
            cases resp <;> simp [call_ids, hid, batch_events, responses]

end batches

section batch_errors

variable {σ : Type}

/-- The loop of `process` over a batch in which the handlers of the first
entries return and the next request throws: the exception leaves the loop, in
the state that request left; what follows the request is not read. -/
theorem batch_loop_raises (E : Engine σ) (this : Nat) (qf : RequestObject) (hqf : qf.wf)
    (tail : List Tok) (e : Exn) (s2 : MyService σ) :
    ∀ (qs : List RequestObject) (s s1 : MyService σ) (outs : List JsonWriter) (resp : Bool)
      (cur : String),
      (∀ q ∈ qs, q.wf) → handle_all E this (qs.map RequestObject.fields) s = some (outs, s1) →
      (∀ bs, ∃ o, request_dispatch E this qf.fields bs s1 = (.error e, o, s2)) →
      ∀ fuel, qs.length < fuel →
        ∃ o, batch_loop E this fuel
          { toks := qs.flatMap RequestObject.toks ++ (qf.toks ++ tail), cur := cur } resp s =
          (.error e, o, s2)
  | [], s, s1, outs, resp, cur, _, h, hd, fuel, hf => by
    simp [handle_all] at h
    obtain ⟨rfl, rfl⟩ := h
    obtain ⟨n, rfl⟩ : ∃ n, fuel = n + 1 := ⟨fuel - 1, by simp at hf; omega⟩
    obtain ⟨o, hd⟩ := hd (!resp)
    have hpeek : ({ toks := qf.toks ++ tail, cur := cur } : JsonParser).peek =
        .ok token.begin_object := by
      simp [RequestObject.toks, JsonParser.peek]
    have hr := request_object E this qf hqf tail cur (!resp) s
    refine ⟨o, ?_⟩
    simp only [List.flatMap_nil, List.nil_append]
    unfold batch_loop
    rw [hpeek]
    simp only [W.andThen, hr, hd]
  | q :: qs, s, s1, outs, resp, cur, hw, h, hd, fuel, hf => by
    have hq : q.wf := hw q (by simp)
    have hqs : ∀ q1 ∈ qs, q1.wf := fun b hb => hw b (by simp [hb])
    obtain ⟨n, rfl⟩ : ∃ n, fuel = n + 1 := ⟨fuel - 1, by simp at hf; omega⟩
    simp only [List.map_cons] at h
    unfold handle_all at h
    have hpeek : JsonParser.peek
        { toks := q.toks ++ (qs.flatMap RequestObject.toks ++ (qf.toks ++ tail)), cur := cur } =
        .ok token.begin_object := by
      simp [RequestObject.toks, JsonParser.peek]
    have hr := request_object E this q hq (qs.flatMap RequestObject.toks ++ (qf.toks ++ tail))
      cur (!resp) s
    cases hm : in_word_set q.fields.method with
    | none => simp [hm] at h
    | some p =>
      simp only [hm] at h
      by_cases hid : q.fields.id = ""
      · simp only [hid, if_true] at h
        rcases hn : CmdConnection.notify E this p q.fields.params s with ⟨a, o, s3⟩
        rw [hn] at h
        cases a with
        | error e => simp at h
        | ok u =>
          simp only [] at h
          obtain ⟨o1, ih⟩ := batch_loop_raises E this qf hqf tail e s2 qs s3 s1 outs
            (false || resp) q.rbrace hqs h hd n (by simp at hf; omega)
          have hd1 := dispatch_notify_ok E this q.fields (!resp) s s3 p o hm hid hn
          refine ⟨o1, ?_⟩
          simp only [List.flatMap_cons, List.append_assoc]
          unfold batch_loop
          rw [hpeek]
          simp only [W.andThen, hr, hd1, W.ret_run, ih]
          simp
      · simp only [hid, if_false] at h
        rcases hn : CmdConnection.call E this p q.fields.params s with ⟨a, o, s3⟩
        rw [hn] at h
        cases a with
        | error e => simp at h
        | ok u =>
          simp only [] at h
          cases hx : handle_all E this (qs.map RequestObject.fields) s3 with
          | none => simp [hx] at h
          | some x =>
            simp only [hx, Option.some.injEq, Prod.mk.injEq] at h
            obtain ⟨o1, ih⟩ := batch_loop_raises E this qf hqf tail e s2 qs s3 s1 x.1
              (true || resp) q.rbrace hqs (by rw [hx, ← h.2]) hd n (by simp at hf; omega)
            have hd1 := dispatch_call_ok E this q.fields (!resp) s s3 p o hm hid hn
            refine ⟨(if (!resp) = true then [JsonEvent.begin_array] else []) ++
              call_response q.fields.id o ++ o1, ?_⟩
            simp only [List.flatMap_cons, List.append_assoc]
            unfold batch_loop
            rw [hpeek]
            simp only [W.andThen, hr, hd1, W.ret_run, ih]
            simp

/-- The `try` block of `process` on a batch whose handlers all return. -/
theorem process_try_batch (E : Engine σ) (this : Nat) (lb rb : String) (qs : List RequestObject)
    (rest : List Tok) (cur : String) (s s1 : MyService σ) (outs : List JsonWriter)
    (hq : ∀ q ∈ qs, q.wf)
    (hh : handle_all E this (qs.map RequestObject.fields) s = some (outs, s1)) :
    process_try E this { toks := batch_toks lb qs rb ++ rest, cur := cur } s =
      (.ok (decide (call_ids (qs.map RequestObject.fields) ≠ [])),
        batch_events false (call_ids (qs.map RequestObject.fields)) outs ++
          (if call_ids (qs.map RequestObject.fields) ≠ [] then [JsonEvent.end_array] else []),
        s1) := by
  obtain ⟨cur1, hl⟩ := batch_loop_handled E this rb rest qs s s1 outs false lb hq hh
  have hb : JsonParser.first_is_bracket { toks := batch_toks lb qs rb ++ rest, cur := cur } =
      true := by
    simp [JsonParser.first_is_bracket, batch_toks]
  unfold process_try
  simp only [hb, if_true, W.bind_def]
  simp only [batch_toks, List.cons_append, List.append_assoc, List.singleton_append,
    List.nil_append, JsonParser.next, W.andThen, W.ofExcept_run]
  simp only [if_true, if_false, reduceCtorEq]
  rw [hl _ (by
    have := objects_length_le qs
    simp only [List.length_append, List.length_cons]
    omega)]
  by_cases hk : call_ids (qs.map RequestObject.fields) = [] <;>
    simp [hk, W.when, JsonParser.next]

/-- The `try` block of `process` on a batch in which a request throws after the
handlers of the entries before it returned. -/
theorem process_try_batch_raises (E : Engine σ) (this : Nat) (lb : String)
    (qs : List RequestObject) (qf : RequestObject) (tail : List Tok) (cur : String)
    (s s1 s2 : MyService σ) (outs : List JsonWriter) (e : Exn)
    (hq : ∀ q ∈ qs, q.wf) (hqf : qf.wf)
    (hh : handle_all E this (qs.map RequestObject.fields) s = some (outs, s1))
    (hd : ∀ bs, ∃ o, request_dispatch E this qf.fields bs s1 = (.error e, o, s2)) :
    ∃ o, process_try E this
        { toks := { kind := token.begin_array, value := lb } ::
            (qs.flatMap RequestObject.toks ++ (qf.toks ++ tail)), cur := cur } s =
      (.error e, o, s2) := by
  obtain ⟨o, hl⟩ := batch_loop_raises E this qf hqf tail e s2 qs s s1 outs false lb hq hh hd
    ((qs.flatMap RequestObject.toks ++ (qf.toks ++ tail)).length + 1) (by
      have := objects_length_le qs
      simp only [List.length_append]
      omega)
  refine ⟨[] ++ o, ?_⟩
  unfold process_try
  simp only [JsonParser.first_is_bracket, decide_True, if_true, W.bind_def]
  simp only [JsonParser.next, W.andThen, W.ofExcept_run]
  simp only [if_true, if_false, reduceCtorEq]
  rw [hl]

end batch_errors

/-! ## The fan-out and the set notification -/

section fan_out

variable {σ : Type}

theorem broadcast_loop_run (sender : Option Nat) (jw : JsonWriter)
    (l : List (Nat × CmdConnection)) (s : MyService σ) :
    MyService.broadcast_loop sender jw l s =
      (.ok (), [], { s with wire := s.wire ++ (listeners sender l).map (fun p => (p, jw)) }) := by
  induction l generalizing s with
  | nil => simp [MyService.broadcast_loop, listeners, W.ret]
  | cons p l ih =>
    unfold MyService.broadcast_loop
    by_cases h : some p.1 ≠ sender ∧ p.2.parameter_change_notify = true
    · simp only [h, and_self, if_true, W.andThen, CmdConnection.send, W.modify, ih]
      simp [listeners, List.filter_cons, h]
    · simp only [h, if_false, W.andThen, W.ret, ih]
      simp [listeners, List.filter_cons, h]

theorem broadcast_run (sender : Option Nat) (jw : JsonWriter) (s : MyService σ) :
    MyService.broadcast sender jw s =
      (.ok (), [],
        { s with wire := s.wire ++ (listeners sender s.connection_list).map (fun p => (p, jw)) }) :=
  broadcast_loop_run sender jw s.connection_list s

theorem listeners_of_none (sender : Option Nat) (l : List (Nat × CmdConnection))
    (h : MyService.broadcast_listeners l sender = false) : listeners sender l = [] := by
  induction l with
  | nil => rfl
  | cons p l ih =>
    unfold MyService.broadcast_listeners at h
    by_cases hc : some p.1 ≠ sender ∧ p.2.parameter_change_notify = true
    · simp [hc] at h
    · simp only [hc, if_false] at h
      have h2 := ih h
      unfold listeners at h2 ⊢
      rw [List.filter_cons_of_neg (by simpa using hc)]
      exact h2

theorem quiet_refl (s : MyService σ) : Quiet s s := ⟨rfl, rfl⟩

theorem quiet_trans (a b c : MyService σ) (h1 : Quiet a b) (h2 : Quiet b c) : Quiet a c :=
  ⟨h2.1.trans h1.1, h2.2.trans h1.2⟩

theorem quiet_eng {α : Type} (x : B σ α) : Keeps Quiet (M.eng x) := by
  intro s
  exact ⟨rfl, rfl⟩

theorem quiet_on_param_value_changed (E : Engine σ) (p : Parameter) :
    Keeps Quiet (MyService.on_param_value_changed E p) := by
  intro s
  unfold MyService.on_param_value_changed
  repeat' split
  all_goals exact ⟨rfl, rfl⟩

theorem quiet_set_one (E : Engine σ) (attr : JsonValue) (v : Except Exn JsonValue) :
    Keeps Quiet (set_one E attr v) := by
  unfold set_one
  repeat' (first
    | with_reducible (first
        | apply keeps_get quiet_refl
        | apply keeps_ret quiet_refl
        | apply keeps_pure quiet_refl
        | apply keeps_ofExcept quiet_refl
        | apply quiet_eng
        | apply quiet_on_param_value_changed
        | apply keeps_when quiet_refl
        | apply keeps_bind quiet_trans)
    | split
    | with_reducible intro _)

theorem quiet_set_loop (E : Engine σ) : ∀ params : JsonArray, Keeps Quiet (set_loop E params)
  | [] => keeps_ret quiet_refl ()
  | [attr] => by unfold set_loop; exact quiet_set_one E attr _
  | attr :: v :: rest => by
    unfold set_loop
    exact keeps_andThen quiet_trans (quiet_set_one E attr _) (fun _ => quiet_set_loop E rest)

theorem save_state_ok (E : Engine σ) (s : MyService σ) :
    (MyService.save_state E s).1 = .ok () := by
  unfold MyService.save_state
  repeat' split
  all_goals rfl

theorem save_state_out (E : Engine σ) (s : MyService σ) :
    (MyService.save_state E s).2.1 = [] := by
  unfold MyService.save_state
  repeat' split
  all_goals rfl

theorem save_state_list (E : Engine σ) (s : MyService σ) :
    (MyService.save_state E s).2.2.connection_list = s.connection_list := by
  unfold MyService.save_state
  repeat' split
  all_goals rfl

theorem pair_params_length (pairs : List (String × JsonValue)) :
    (pair_params pairs).length % 2 = 0 := by
  induction pairs with
  | nil => rfl
  | cons pr rest ih =>
    simp only [pair_params, List.flatMap_cons, List.length_append, List.length_cons,
      List.length_nil] at ih ⊢
    omega

/-- The second loop of `PROCEDURE(set)` on a list of pairs writes each id and
its value, in order. -/
theorem set_push_loop_pairs (E : Engine σ) (pairs : List (String × JsonValue))
    (s : MyService σ) :
    set_push_loop E (pair_params pairs) s =
      (.ok (), pairs.flatMap (fun pr => JsonEvent.write_string pr.1 :: set_push_value E pr.2),
        s) := by
  induction pairs with
  | nil => rfl
  | cons pr rest ih =>
    have h : pair_params (pr :: rest) = JsonValue.JsonString pr.1 :: pr.2 :: pair_params rest := by
      simp [pair_params]
    rw [h]
    unfold set_push_loop
    simp only [W.bind_def, W.andThen, JsonValue.getString, W.ofExcept, W.write, ih]
    simp

theorem value_events_eq (E : Engine σ) (v : JsonValue) : set_push_value E v = value_events E v := by
  cases v <;> rfl

theorem set_push_eq (E : Engine σ) (pairs : List (String × JsonValue)) :
    JsonWriter.send_notify_begin "set" ++
        pairs.flatMap (fun pr => JsonEvent.write_string pr.1 :: set_push_value E pr.2) ++
        JsonWriter.send_notify_end = set_push E pairs := by
  simp [set_push, JsonWriter.send_notify_begin, JsonWriter.send_notify_end,
    JsonWriter.write_kv_string, value_events_eq]

/-- The handler of `set` on a list of pairs that the first loop accepts, from
the state `s1` the first loop leaves: the push goes to the listeners other than
the issuing session, once each, and `save_state` runs. -/
theorem set_run (E : Engine σ) (this : Nat) (pairs : List (String × JsonValue))
    (s s1 : MyService σ) (o1 : JsonWriter)
    (h1 : set_loop E (pair_params pairs) s = (.ok (), o1, s1)) :
    (PROCEDURE_set E this (pair_params pairs) s).1 = .ok () ∧
    (PROCEDURE_set E this (pair_params pairs) s).2.2 =
      (MyService.save_state E
        { s1 with wire := s1.wire ++
            (listeners (some this) s1.connection_list).map (fun p => (p, set_push E pairs)) }).2.2 := by
  have hl := pair_params_length pairs
  unfold PROCEDURE_set
  simp only [hl, Nat.zero_ne_one, if_false, W.bind_def, W.andThen, h1, W.get]
  cases hb : MyService.broadcast_listeners s1.connection_list (some this) with
  | false =>
    have hn := listeners_of_none (some this) s1.connection_list hb
    simp [W.when, W.ret, save_state_ok, hn]
  | true =>
    simp only [W.when, if_true, W.capture, set_push_loop_pairs, CmdConnection.send_notify_end,
      Bool.false_eq_true, if_false, W.ret, broadcast_run, W.andThen, W.bind_def]
    simp only [List.append_nil, List.nil_append, save_state_ok, true_and]
    rw [← set_push_eq, List.append_assoc]

end fan_out

/-! ## Frames of `process` and the loop over the received bytes -/

section process_frames

variable {σ : Type}

theorem feed_line (E : Engine σ) (jp : JsonStringParser) (line : List Char) (c : Char) :
    JsonStringParser.feed E jp (line ++ [c]) =
      JsonStringParser.put E (JsonStringParser.feed E jp line) c := by
  simp [JsonStringParser.feed, List.foldl_append]

end process_frames

/-! ## The claims -/

theorem sample_wf_call (id : Member) (h : id.wf) : (sample_call id).wf := by
  intro m hm
  simp [sample_call] at hm
  rcases hm with rfl | rfl | rfl
  · rfl
  · trivial
  · exact h

theorem sample_wf_set (args : List ArgSrc) (h : ∀ a ∈ args, a.wf) : (sample_set args).wf := by
  intro m hm
  simp [sample_set] at hm
  rcases hm with rfl | rfl | rfl
  · rfl
  · trivial
  · exact h

theorem sample_wf_failing_call : sample_failing_call.wf := by
  intro m hm
  simp [sample_failing_call] at hm
  rcases hm with rfl | rfl | rfl | rfl
  · rfl
  · trivial
  · intro a ha; simp at ha
  · trivial

theorem sample_wf_pair_args : ∀ a ∈ sample_pair_args, a.wf := by
  intro a ha
  simp [sample_pair_args] at ha
  rcases ha with rfl | rfl | rfl | rfl <;> trivial

theorem sample_wf_odd_args : ∀ a ∈ sample_odd_args, a.wf := by
  intro a ha
  simp [sample_odd_args] at ha
  subst ha
  trivial

theorem sample_wf_batch : ∀ q ∈ sample_batch, q.wf := by
  intro q hq
  simp [sample_batch] at hq
  rcases hq with rfl | rfl | rfl
  · exact sample_wf_call _ trivial
  · exact sample_wf_set _ sample_wf_pair_args
  · exact sample_wf_call _ trivial

/-- C3: a batch of request objects whose handlers all return normally, at least
one of them a call, makes `CmdConnection::process` send exactly one document
after the handlers have run: the array of the response objects of the calls,
one for each call, in the order of the calls in the batch, with nothing for
the notifications. -/
theorem C3_batch_order {σ : Type} (E : Engine σ) (this : Nat) (lb rb : String)
    (qs : List RequestObject) (str : List Char) (rest : List Tok) (cur : String)
    (s s1 : MyService σ) (outs : List JsonWriter)
    (hq : ∀ q ∈ qs, q.wf)
    (hh : handle_all E this (qs.map RequestObject.fields) s = some (outs, s1))
    (hk : call_ids (qs.map RequestObject.fields) ≠ []) :
    CmdConnection.process E this
        { str := str, jp := { toks := batch_toks lb qs rb ++ rest, cur := cur } } s =
      (.ok (), [],
        { s1 with wire := s1.wire ++
            [(this, [JsonEvent.begin_array] ++
              (List.zipWith call_response (call_ids (qs.map RequestObject.fields)) outs).flatten ++
              [JsonEvent.end_array])] }) ∧
    outs.length = (call_ids (qs.map RequestObject.fields)).length := by
  refine ⟨?_, handle_all_length E this _ s s1 outs hh⟩
  have ht := process_try_batch E this lb rb qs rest cur s s1 outs hq hh
  simp only [hk, ne_eq, not_false_eq_true, decide_True, if_true, batch_events, or_self,
    Bool.false_eq_true, if_false, responses] at ht
  rw [process_of_try_true E this _ s s1 _ ht]

/-- Witness of C3: the batch of a call with id "1", a `set` notification and a
call with id 7, sent by session 1 of the sample service. -/
theorem C3_batch_order_witness :
    CmdConnection.process sample_engine 1
        { str := [], jp := { toks := batch_toks "" sample_batch "" ++ [], cur := "" } }
        sample_service =
      (.ok (), [],
        { sample_batch_run.2 with wire := sample_batch_run.2.wire ++
            [(1, [JsonEvent.begin_array] ++
              (List.zipWith call_response (call_ids (sample_batch.map RequestObject.fields))
                sample_batch_run.1).flatten ++
              [JsonEvent.end_array])] }) ∧
    sample_batch_run.1.length = (call_ids (sample_batch.map RequestObject.fields)).length :=
  C3_batch_order sample_engine 1 "" "" sample_batch [] [] "" sample_service sample_batch_run.2
    sample_batch_run.1 sample_wf_batch (by rfl) (by decide)

/-- C4, refuted as stated: in the batch of the calls "1", "2" and "3", where the
handler of "2" throws an `RpcError` (no argument for `get_rack_unit_order`),
session 1 receives one document only, the error response with a null id; no
document answers the call "1" or the call "3". -/
theorem C4_counterexample :
    sent_on 1 (CmdConnection.process sample_engine 1 (message sample_failing_batch)
        sample_service).2.2 =
      [error_response (-32602) "Invalid param -- wrong argument count"] ∧
    ¬ (∃ doc ∈ sent_on 1 (CmdConnection.process sample_engine 1 (message sample_failing_batch)
        sample_service).2.2, answers_call "1" doc = true ∨ answers_call "3" doc = true) := by
  decide

/-- C4, amended: when a call inside a batch fails with an `RpcError` after the
handlers of the entries before it returned normally, the batch is aborted:
`CmdConnection::process` sends exactly one document, the error response with
that error's code and message and a null id, in the state the failing handler
left. The responses written so far are dropped, and what follows the failing
call in the batch is not read. -/
theorem C4_batch_aborted {σ : Type} (E : Engine σ) (this : Nat) (lb : String)
    (qs : List RequestObject) (qf : RequestObject) (tail : List Tok) (str : List Char)
    (cur : String) (s s1 : MyService σ) (outs : List JsonWriter) (p : methodnames) (code : Int)
    (message : String)
    (hq : ∀ q ∈ qs, q.wf) (hqf : qf.wf)
    (hh : handle_all E this (qs.map RequestObject.fields) s = some (outs, s1))
    (hm : in_word_set qf.fields.method = some p) (hid : qf.fields.id ≠ "")
    (herr : (CmdConnection.call E this p qf.fields.params s1).1 =
      .error (Exn.RpcError code message)) :
    CmdConnection.process E this
        { str := str,
          jp := { toks := { kind := token.begin_array, value := lb } ::
                    (qs.flatMap RequestObject.toks ++ (qf.toks ++ tail)),
                  cur := cur } } s =
      (.ok (), [],
        { (CmdConnection.call E this p qf.fields.params s1).2.2 with
          wire := (CmdConnection.call E this p qf.fields.params s1).2.2.wire ++
            [(this, error_response code message)] }) := by
  rcases hc : CmdConnection.call E this p qf.fields.params s1 with ⟨a, o, s2⟩
  rw [hc] at herr
  simp only [] at herr
  subst herr
  obtain ⟨o1, ht⟩ := process_try_batch_raises E this lb qs qf tail cur s s1 s2 outs
    (Exn.RpcError code message) hq hqf hh
    (fun bs => dispatch_call_error E this qf.fields bs s1 s2 p o _ hm hid hc)
  rw [process_of_try_rpc_error E this _ s s2 o1 code message ht]

/-- Witness of C4, amended: the batch of the calls "1", "2" and "3" of which
"2" fails. -/
theorem C4_batch_aborted_witness :
    CmdConnection.process sample_engine 1
        { str := [],
          jp := { toks := { kind := token.begin_array, value := "" } ::
                    ([sample_call (Member.id_string "1")].flatMap RequestObject.toks ++
                      (sample_failing_call.toks ++
                        ((sample_call (Member.id_string "3")).toks ++
                          [{ kind := token.end_array, value := "" }]))),
                  cur := "" } } sample_service =
      (.ok (), [],
        { (CmdConnection.call sample_engine 1
              (methodnames.mk "get_rack_unit_order" m_id.RPCM_get_rack_unit_order)
              sample_failing_call.fields.params sample_service).2.2 with
          wire := (CmdConnection.call sample_engine 1
              (methodnames.mk "get_rack_unit_order" m_id.RPCM_get_rack_unit_order)
              sample_failing_call.fields.params sample_service).2.2.wire ++
            [(1, error_response (-32602) "Invalid param -- wrong argument count")] }) := by
  have h := C4_batch_aborted sample_engine 1 "" [sample_call (Member.id_string "1")] sample_failing_call
    ((sample_call (Member.id_string "3")).toks ++ [{ kind := token.end_array, value := "" }]) []
    "" sample_service sample_service [sample_version]
    (methodnames.mk "get_rack_unit_order" m_id.RPCM_get_rack_unit_order) (-32602)
    "Invalid param -- wrong argument count"
    (by intro q hq; simp at hq; subst hq; exact sample_wf_call _ trivial)
    sample_wf_failing_call (by decide) (by decide) (by decide) (by decide)
  exact h

/-- C5, the code at the failing input: in the batch of a `set` notification
with an odd number of params and the call "1", the handler of the notification
throws an `RpcError`; the document `CmdConnection::process` sends starts with
the error response of the notification, written in front of the bracket that
opens the response array: two values in a row, not one array with one element
for the call. -/
theorem C5_failing_notification_in_batch :
    sent_on 1 (CmdConnection.process sample_engine 1 (message sample_notification_batch)
        sample_service).2.2 =
      [error_response (-32602) "Invalid param -- array length must be even" ++
        ([JsonEvent.begin_array] ++ call_response "1" sample_version ++ [JsonEvent.end_array])] := by
  decide

/-- C6, the code at the failing input: the single notification
`{"jsonrpc":"2.0","method":"set","params":["amp.tonestack.Bass"]}` makes the
handler throw the `RpcError` -32602; `CmdConnection::process` returns without
sending any document to any session. -/
theorem C6_failing_notification_dropped :
    (CmdConnection.notify sample_engine 1 (methodnames.mk "set" m_id.RPNM_set)
        (sample_set sample_odd_args).fields.params sample_service).1 =
      .error (Exn.RpcError (-32602) "Invalid param -- array length must be even") ∧
    (CmdConnection.process sample_engine 1 (message (sample_set sample_odd_args).toks)
        sample_service).1 = .ok () ∧
    (CmdConnection.process sample_engine 1 (message (sample_set sample_odd_args).toks)
        sample_service).2.2.wire = [] := by
  decide

theorem sample_wf_unknown : sample_unknown.wf := by
  intro m hm
  simp [sample_unknown] at hm
  rcases hm with rfl | rfl | rfl <;> trivial

/-- C10: `MyService::broadcast(sender, doc)` returns after handing `doc` to
`send` once for every entry of `connection_list` that is not the sender and has
its parameter-change flag set, in the order of the list, and to no other
session: the sender and the sessions without the flag are not among the
receivers. Nothing else changes. -/
theorem C10_broadcast_fan_out {σ : Type} (sender : Option Nat) (doc : JsonWriter)
    (s : MyService σ) :
    MyService.broadcast sender doc s =
      (.ok (), [],
        { s with wire := s.wire ++
            ((s.connection_list.filter (fun p =>
              decide (some p.1 ≠ sender ∧ p.2.parameter_change_notify = true))).map
                Prod.fst).map (fun p => (p, doc)) }) ∧
    (∀ p, sender = some p → sent_on p (MyService.broadcast sender doc s).2.2 = sent_on p s) ∧
    (∀ p, (∀ c, (p, c) ∈ s.connection_list → c.parameter_change_notify = false) →
      sent_on p (MyService.broadcast sender doc s).2.2 = sent_on p s) := by
  have h := broadcast_run sender doc s
  unfold listeners at h
  refine ⟨h, ?_, ?_⟩
  · intro p hp
    have hnil : (((s.connection_list.filter (fun p =>
        decide (some p.1 ≠ sender ∧ p.2.parameter_change_notify = true))).map
          Prod.fst).map (fun p => (p, doc))).filter (fun e => decide (e.1 = p)) = [] := by
      rw [List.filter_eq_nil_iff]
      intro e he
      simp only [List.mem_map, List.mem_filter] at he
      obtain ⟨x, ⟨c, ⟨_, hc2⟩, rfl⟩, rfl⟩ := he
      simp only [decide_eq_true_eq] at hc2 ⊢
      intro hx
      exact hc2.1 (by rw [hp, hx])
    rw [h]
    simp only [sent_on, List.filter_append, List.map_append, hnil]
    simp
  · intro p hp
    have hnil : (((s.connection_list.filter (fun p =>
        decide (some p.1 ≠ sender ∧ p.2.parameter_change_notify = true))).map
          Prod.fst).map (fun p => (p, doc))).filter (fun e => decide (e.1 = p)) = [] := by
      rw [List.filter_eq_nil_iff]
      intro e he
      simp only [List.mem_map, List.mem_filter] at he
      obtain ⟨x, ⟨c, ⟨hc1, hc2⟩, rfl⟩, rfl⟩ := he
      simp only [decide_eq_true_eq] at hc2 ⊢
      intro hx
      have h3 := hp c.2 (by rw [← hx]; exact hc1)
      rw [hc2.2] at h3
      exact Bool.noConfusion h3
    rw [h]
    simp only [sent_on, List.filter_append, List.map_append, hnil]
    simp

/-! ## The outbound queue -/

section outbound

theorem to_unsigned_small (v : Int) (h0 : 0 ≤ v) (h1 : v < 2 ^ 32) : to_unsigned v = v.toNat := by
  unfold to_unsigned
  congr 1
  omega

theorem long_to_int_small (v : Int) (h0 : -(2 ^ 31) ≤ v) (h1 : v < 2 ^ 31) : long_to_int v = v := by
  unfold long_to_int
  simp only []
  split <;> omega

theorem sendbytes_cases (r : WriteRoom) (d : List Char) (off : Nat) (hd : d.length < 2 ^ 31)
    (hoff : off = 0 ∨ off < d.length) :
    sendbytes r d off = (false, off, []) ∨
    (∃ n, 0 < n ∧ off + n < d.length ∧ sendbytes r d off = (true, off + n, (d.drop off).take n)) ∨
    (off < d.length ∧ sendbytes r d off = (true, 0, d.drop off)) := by
  have hle : off ≤ d.length := by omega
  have hlen : to_unsigned ((d.length : Int) - (off : Int)) = d.length - off := by
    rw [to_unsigned_small _ (by omega) (by omega)]
    omega
  have htake : (d.drop off).take (d.length - off) = d.drop off :=
    List.take_of_length_le (by simp)
  unfold sendbytes
  simp only [hlen, htake]
  cases r with
  | fails =>
    left
    simp [write, long_to_int_small (-1) (by omega) (by omega)]
  | takes room =>
    have htk : (d.drop off).take room = (d.drop off).take (min room (d.drop off).length) := by
      rw [List.take_eq_take]
      simp
    have hm : min room (d.drop off).length ≤ d.length - off := by
      simp only [List.length_drop]
      omega
    simp only [write, htk]
    generalize min room (d.drop off).length = m at hm ⊢
    rw [long_to_int_small _ (by omega) (by omega)]
    by_cases h0 : m = 0
    · left
      subst h0
      simp
    · have hpos : ¬ ((m : Int) ≤ 0) := by omega
      simp only [hpos, if_false]
      right
      by_cases hall : m = d.length - off
      · right
        have hz : to_unsigned (((d.length - off : Nat) : Int) - (m : Int)) = 0 := by
          rw [to_unsigned_small _ (by omega) (by omega)]
          omega
        have htk2 : (d.drop off).take m = d.drop off :=
          List.take_of_length_le (by simp; omega)
        refine ⟨by omega, ?_⟩
        simp only [hz, htk2, gt_iff_lt, Nat.lt_irrefl, if_false]
      · left
        have hz : to_unsigned (((d.length - off : Nat) : Int) - (m : Int)) = d.length - off - m := by
          rw [to_unsigned_small _ (by omega) (by omega)]
          omega
        have ho : to_unsigned ((off : Int) + (m : Int)) = off + m := by
          rw [to_unsigned_small _ (by omega) (by omega)]
          omega
        refine ⟨m, by omega, by omega, ?_⟩
        have hp : 0 < d.length - off - m := by omega
        simp only [hz, ho, gt_iff_lt, hp, if_true]

theorem on_data_out_sound : ∀ (rs : List WriteRoom) (st : Outbound), st.Sound →
    (Outbound.on_data_out rs st).2.2.Sound ∧
    (Outbound.on_data_out rs st).2.2.socket ++ (Outbound.on_data_out rs st).2.2.pending =
      st.socket ++ st.pending ∧
    (Outbound.on_data_out rs st).2.2.io_out = st.io_out ∧
    ((Outbound.on_data_out rs st).1 = false → (Outbound.on_data_out rs st).2.2.outgoing = [])
  | [], st, h => by
    refine ⟨h, rfl, rfl, ?_⟩
    simp [Outbound.on_data_out]
  | r :: rs, st, h => by
    obtain ⟨outgoing, off, io, sock⟩ := st
    cases outgoing with
    | nil => exact ⟨h, rfl, rfl, fun _ => rfl⟩
    | cons d q =>
      obtain ⟨hlen, hoff, hio⟩ := h
      simp only [] at hlen hoff hio
      have hd : d.length < 2 ^ 31 := hlen d (by simp)
      have hq : ∀ x ∈ q, x.length < 2 ^ 31 := fun x hx => hlen x (by simp [hx])
      unfold Outbound.on_data_out
      simp only []
      rcases sendbytes_cases r d off hd hoff with hs | ⟨n, hn0, hn1, hs⟩ | ⟨ho, hs⟩
      · simp only [hs, if_true, List.append_nil]
        refine ⟨⟨hlen, hoff, hio⟩, ?_, ?_, ?_⟩ <;> simp
      · have hne : off + n ≠ 0 := by omega
        simp only [hs, Bool.true_eq_false, if_false, hne]
        have ih := on_data_out_sound rs
          (Outbound.mk (d :: q) (off + n) io (sock ++ (d.drop off).take n))
          ⟨hlen, Or.inr hn1, hio⟩
        refine ⟨ih.1, ?_, ih.2.2.1, ih.2.2.2⟩
        rw [ih.2.1]
        simp only [Outbound.pending, List.append_assoc, List.append_cancel_left_eq]
        rw [← List.append_assoc, ← List.drop_drop, List.take_append_drop]
      · simp only [hs, Bool.true_eq_false, if_false, if_true]
        have hs2 : Outbound.Sound (Outbound.mk q 0 io (sock ++ d.drop off)) := by
          refine ⟨hq, ?_⟩
          cases q with
          | nil => rfl
          | cons e q2 => exact ⟨Or.inl rfl, hio⟩
        have ih := on_data_out_sound rs _ hs2
        refine ⟨ih.1, ?_, ih.2.2.1, ih.2.2.2⟩
        rw [ih.2.1]
        cases q <;> simp [Outbound.pending]

theorem send_sound (s : List Char) (rs : List WriteRoom) (st : Outbound) (h : st.Sound)
    (hs : s.length < 2 ^ 31) :
    ∃ rs1 st1, Outbound.send s rs st = .ok (rs1, st1) ∧ st1.Sound ∧
      st1.socket ++ st1.pending = st.socket ++ st.pending ++ s := by
  obtain ⟨outgoing, off, io, sock⟩ := st
  cases outgoing with
  | cons d q =>
    obtain ⟨hlen, hoff, hio⟩ := h
    simp only [] at hlen hoff hio
    refine ⟨rs, Outbound.mk (d :: q ++ [s]) off (io + 1) sock, by simp [Outbound.send],
      ⟨?_, hoff, by simp⟩, ?_⟩
    · intro x hx
      simp only [List.cons_append, List.mem_cons, List.mem_append, List.not_mem_nil,
        or_false] at hx
      rcases hx with rfl | hx | rfl
      · exact hlen _ (by simp)
      · exact hlen _ (by simp [hx])
      · exact hs
    · simp [Outbound.pending]
  | nil =>
    obtain ⟨_, hoff⟩ := h
    simp only [] at hoff
    subst hoff
    simp only [Outbound.send, List.length_nil, if_true, ne_eq, not_true_eq_false, if_false]
    cases hr : rs.head?.getD WriteRoom.fails with
    | fails =>
      have hne : ¬ ((-1 : Int) = (s.length : Int)) := by omega
      refine ⟨rs.tail, _, by simp only [write, hne, if_false]; rfl, ?_, ?_⟩
      · refine ⟨by simpa using hs, Or.inl ?_, by simp⟩
        simp [write, to_unsigned]
      · simp [Outbound.pending, write, to_unsigned]
    | takes room =>
      by_cases hall : s.length ≤ room
      · have hmin : min room s.length = s.length := by omega
        refine ⟨rs.tail, _, by simp only [write, hmin, if_true]; rfl, ⟨by simp, rfl⟩, ?_⟩
        simp [Outbound.pending, write, List.take_of_length_le hall]
      · have hmin : min room s.length = room := by omega
        have hne : ¬ ((room : Int) = (s.length : Int)) := by omega
        have ho : to_unsigned (max 0 (room : Int)) = room := by
          rw [to_unsigned_small _ (by omega) (by omega)]
          omega
        refine ⟨rs.tail, _, by simp only [write, hmin, hne, if_false]; rfl, ?_, ?_⟩
        · refine ⟨by simpa using hs, Or.inr ?_, by simp⟩
          simp only [List.nil_append, write, hmin, ho]
          omega
        · have ho2 : to_unsigned (room : Int) = room := by
            rw [to_unsigned_small _ (by omega) (by omega)]
            omega
          simp [Outbound.pending, write, hmin, ho2]

theorem run_sound : ∀ (es : List OutEvent) (rs : List WriteRoom) (st : Outbound), st.Sound →
    (∀ s ∈ OutEvent.docs es, s.length < 2 ^ 31) →
    ∃ rs1 st1, Outbound.run es rs st = .ok (rs1, st1) ∧ st1.Sound ∧
      st1.socket ++ st1.pending = st.socket ++ st.pending ++ (OutEvent.docs es).flatten
  | [], rs, st, h, _ => ⟨rs, st, rfl, h, by simp [OutEvent.docs]⟩
  | .send s :: es, rs, st, h, hd => by
    obtain ⟨rs1, st1, h1, hs1, he1⟩ := send_sound s rs st h (hd s (by simp [OutEvent.docs]))
    obtain ⟨rs2, st2, h2, hs2, he2⟩ := run_sound es rs1 st1 hs1
      (fun x hx => hd x (by simp [OutEvent.docs, hx]))
    refine ⟨rs2, st2, ?_, hs2, ?_⟩
    · simp [Outbound.run, h1, h2]
    · rw [he2, he1]
      simp [OutEvent.docs]
  | .writable :: es, rs, st, h, hd => by
    unfold Outbound.run
    by_cases hio : st.io_out = 0
    · simp only [hio, if_true]
      exact run_sound es rs st h hd
    · simp only [hio, if_false]
      obtain ⟨hs1, he1, hi1, hf1⟩ := on_data_out_sound rs st h
      by_cases hb : (Outbound.on_data_out rs st).1 = true
      · simp only [hb, if_true]
        obtain ⟨rs2, st2, h2, hs2, he2⟩ := run_sound es _ _ hs1 hd
        exact ⟨rs2, st2, h2, hs2, by rw [he2, he1]; rfl⟩
      · simp only [hb, if_false]
        have hout := hf1 (by simpa using hb)
        have hs3 : Outbound.Sound
            { (Outbound.on_data_out rs st).2.2 with
              io_out := (Outbound.on_data_out rs st).2.2.io_out - 1 } := by
          obtain ⟨ha, hb2⟩ := hs1
          refine ⟨ha, ?_⟩
          simp only [hout] at hb2 ⊢
          exact hb2
        obtain ⟨rs2, st2, h2, hs2, he2⟩ := run_sound es _ _ hs3 hd
        refine ⟨rs2, st2, h2, hs2, ?_⟩
        rw [he2, ← he1]
        simp [Outbound.pending, OutEvent.docs]

end outbound

/-! ## The bulk updates of the plugin list -/

section bulk_update

variable {σ : Type}

theorem quiet_on_param_insert_remove (id : String) (inserted : Bool) :
    Keeps Quiet (MyService.on_param_insert_remove id inserted : M σ Unit) := by
  intro s
  simp only [MyService.on_param_insert_remove, W.modify_run]
  split <;> exact ⟨rfl, rfl⟩

theorem quiet_serialize_parameter_change (E : Engine σ) :
    Keeps Quiet (MyService.serialize_parameter_change E) := by
  unfold MyService.serialize_parameter_change
  repeat' (first
    | with_reducible (first
        | apply keeps_get quiet_refl
        | apply keeps_raise quiet_refl
        | apply keeps_write quiet_refl
        | apply keeps_ret quiet_refl
        | apply keeps_pure quiet_refl
        | apply keeps_when quiet_refl
        | apply keeps_forEach quiet_refl quiet_trans
        | apply keeps_bind quiet_trans)
    | split
    | with_reducible intro _)

/-- The push of a bulk update reaches nobody: it is built only when
`broadcast_listeners` finds no session to send it to. -/
theorem quiet_parameters_push (E : Engine σ) (this : Nat) :
    Keeps Quiet (parameters_push E this) := by
  intro s
  unfold parameters_push
  simp only [W.bind_def, W.andThen, W.get_run]
  cases hb : MyService.broadcast_listeners s.connection_list (some this) with
  | true => exact ⟨rfl, rfl⟩
  | false =>
    have hn := listeners_of_none (some this) s.connection_list hb
    have hq := keeps_capture (quiet_serialize_parameter_change E) s
    simp only [W.when, Bool.not_false, if_true, W.andThen]
    rcases hc : W.capture (MyService.serialize_parameter_change E) s with ⟨a, o, s1⟩
    rw [hc] at hq
    obtain ⟨hq1, hq2⟩ := hq
    simp only [] at hq1 hq2
    cases a with
    | error e => exact ⟨hq1, hq2⟩
    | ok r =>
      simp only [CmdConnection.send_notify_end, Bool.false_eq_true, if_false, W.ret_run,
        broadcast_run]
      have hn1 : listeners (some this) s1.connection_list = [] := by rw [hq1]; exact hn
      simp only [hn1, List.map_nil, List.append_nil]
      exact ⟨hq1, hq2⟩

theorem quiet_modify_preg_map (m : Option (List (String × Bool))) :
    Keeps Quiet (W.modify (fun s : MyService σ => { s with preg_map := m })) :=
  fun _ => ⟨rfl, rfl⟩

theorem quiet_update_plugins (E : Engine σ) (this : Nat) (params : JsonArray) :
    Keeps Quiet (FUNCTION_ladspaloader_update_plugins E this params) := by
  unfold FUNCTION_ladspaloader_update_plugins
  repeat' (first
    | with_reducible (first
        | apply keeps_get quiet_refl
        | apply keeps_raise quiet_refl
        | apply keeps_write quiet_refl
        | apply keeps_ret quiet_refl
        | apply keeps_pure quiet_refl
        | apply keeps_ofExcept quiet_refl
        | apply quiet_eng
        | apply quiet_modify_preg_map
        | apply quiet_on_param_insert_remove
        | apply quiet_serialize_parameter_change
        | apply quiet_parameters_push
        | apply keeps_forEach quiet_refl quiet_trans
        | apply keeps_bind quiet_trans)
    | split
    | with_reducible intro _)

theorem quiet_update_instance (E : Engine σ) (this : Nat) (params : JsonArray) :
    Keeps Quiet (FUNCTION_ladspaloader_update_instance E this params) := by
  unfold FUNCTION_ladspaloader_update_instance
  repeat' (first
    | with_reducible (first
        | apply keeps_get quiet_refl
        | apply keeps_raise quiet_refl
        | apply keeps_write quiet_refl
        | apply keeps_ret quiet_refl
        | apply keeps_pure quiet_refl
        | apply keeps_ofExcept quiet_refl
        | apply quiet_eng
        | apply quiet_modify_preg_map
        | apply quiet_on_param_insert_remove
        | apply quiet_serialize_parameter_change
        | apply quiet_parameters_push
        | apply keeps_forEach quiet_refl quiet_trans
        | apply keeps_bind quiet_trans)
    | split
    | with_reducible intro _)

end bulk_update

/-! ## Requests that are turned down while they are read -/

section reading_more

variable {σ : Type}

/-- The loop over the members reads well-formed members as they stand, one
round for each, whatever follows them. -/
theorem request_members_prefix (tail : List Tok) :
    ∀ (ms : List Member) (r : RequestFields) (cur : String),
      (∀ m ∈ ms, m.wf) →
      ∃ cur1, ∀ n, request_members (n + ms.length)
          { toks := ms.flatMap Member.toks ++ tail, cur := cur } r =
        request_members n { toks := tail, cur := cur1 } (ms.foldl Member.read r)
  | [], r, cur, _ => ⟨cur, fun n => by simp⟩
  | m :: ms, r, cur, hw => by
    have hm : m.wf := hw m (by simp)
    have hrec := fun r1 cur1 => request_members_prefix tail ms r1 cur1
      (fun b hb => hw b (by simp [hb]))
    have hfuel : ∀ n, n + (m :: ms).length = (n + ms.length) + 1 := fun n => by
      simp only [List.length_cons]
      omega
    cases m with
    | jsonrpc v =>
      obtain ⟨cur2, h2⟩ := hrec r v
      refine ⟨cur2, fun n => ?_⟩
      have h2 := h2 n
      have hv : v = "2.0" := hm
      subst hv
      rw [hfuel]
      simp only [List.flatMap_cons, List.foldl_cons, Member.toks, Member.read]
      conv_lhs => unfold request_members
      simpa [JsonParser.peek, JsonParser.next, JsonParser.current_value] using h2
    | method name =>
      obtain ⟨cur2, h2⟩ := hrec { r with method := name } name
      refine ⟨cur2, fun n => ?_⟩
      have h2 := h2 n
      rw [hfuel]
      simp only [List.flatMap_cons, List.foldl_cons, Member.toks, Member.read]
      conv_lhs => unfold request_members
      simpa [JsonParser.peek, JsonParser.next, JsonParser.current_value] using h2
    | id_string i =>
      obtain ⟨cur2, h2⟩ := hrec { r with id := i } i
      refine ⟨cur2, fun n => ?_⟩
      have h2 := h2 n
      rw [hfuel]
      simp only [List.flatMap_cons, List.foldl_cons, Member.toks, Member.read]
      conv_lhs => unfold request_members
      simpa [JsonParser.peek, JsonParser.next, JsonParser.next_any, JsonParser.current_value]
        using h2
    | id_number i =>
      obtain ⟨cur2, h2⟩ := hrec { r with id := i } i
      refine ⟨cur2, fun n => ?_⟩
      have h2 := h2 n
      rw [hfuel]
      simp only [List.flatMap_cons, List.foldl_cons, Member.toks, Member.read]
      conv_lhs => unfold request_members
      simpa [JsonParser.peek, JsonParser.next, JsonParser.next_any, JsonParser.current_value]
        using h2
    | params lb args rb1 =>
      have hargs : ∀ a ∈ args, a.wf := hm
      obtain ⟨cur1, h1⟩ := params_loop_args rb1 (ms.flatMap Member.toks ++ tail) args
        r.params lb hargs
      obtain ⟨cur2, h2⟩ := hrec { r with params := r.params ++ args.map ArgSrc.value } rb1
      refine ⟨cur2, fun n => ?_⟩
      have h2 := h2 n
      rw [hfuel]
      simp only [List.flatMap_cons, List.foldl_cons, Member.toks, Member.read]
      conv_lhs => unfold request_members
      simp [JsonParser.peek, JsonParser.next, JsonParser.current_value]
      rw [h1 _ (by
        have := args_length_le args
        simp only [List.length_flatMap] at this
        omega)]
      simp [JsonParser.next, h2]

/-- A params member that opens an object ends the reading of the request with
the error -32000. -/
theorem request_read_named_params (lb v : String) (ms : List Member) (hw : ∀ m ∈ ms, m.wf)
    (rest : List Tok) (cur : String) :
    request_read
        { toks := { kind := token.begin_object, value := lb } ::
            (ms.flatMap Member.toks ++
              { kind := token.value_key, value := "params" } ::
                { kind := token.begin_object, value := v } :: rest),
          cur := cur } =
      .error (Exn.RpcError (-32000) "by-name parameters not implemented") := by
  obtain ⟨cur1, h1⟩ := request_members_prefix
    ({ kind := token.value_key, value := "params" } ::
      { kind := token.begin_object, value := v } :: rest) ms
    { method := "", params := [], id := "" } lb hw
  unfold request_read
  simp only [JsonParser.next]
  simp only [show (token.begin_object = token.no_token) = False by simp, if_false, if_true]
  have hlen := members_length_le ms
  obtain ⟨n, hn⟩ : ∃ n, (ms.flatMap Member.toks ++
      { kind := token.value_key, value := "params" } ::
        { kind := token.begin_object, value := v } :: rest).length + 1 = (n + 1) + ms.length := by
    refine ⟨(ms.flatMap Member.toks).length - ms.length + rest.length + 2, ?_⟩
    simp only [List.length_append, List.length_cons]
    omega
  rw [hn, h1 (n + 1)]
  simp [request_members, JsonParser.peek, JsonParser.next, JsonParser.current_value]

/-- The handler switch of the notifications has no case for a call method. -/
theorem notify_of_call (E : Engine σ) (this : Nat) (p : methodnames) (params : JsonArray)
    (s : MyService σ) (h : p.m_id.is_call = true) :
    CmdConnection.notify E this p params s = (.error (Exn.Fatal "assert(false)"), [], s) := by
  obtain ⟨name, id⟩ := p
  cases id <;> first | rfl | exact Bool.noConfusion h

/-- A pair whose id is not in the parameter directory is passed over. -/
theorem set_one_unknown (E : Engine σ) (id : String) (v : Except Exn JsonValue)
    (s : MyService σ) (h : ParamMap.find s.eng.param id = none) :
    set_one E (JsonValue.JsonString id) v s = (.ok (), [], s) := by
  simp [set_one, W.bind_def, W.andThen, JsonValue.getString, h]

theorem set_loop_unknown (E : Engine σ) (s : MyService σ) :
    ∀ pairs : List (String × JsonValue),
      (∀ pr ∈ pairs, ParamMap.find s.eng.param pr.1 = none) →
      set_loop E (pair_params pairs) s = (.ok (), [], s)
  | [], _ => rfl
  | pr :: rest, h => by
    have h1 : pair_params (pr :: rest) =
        JsonValue.JsonString pr.1 :: pr.2 :: pair_params rest := by
      simp [pair_params]
    rw [h1]
    unfold set_loop
    simp [W.andThen, set_one_unknown E pr.1 _ s (h pr (by simp)),
      set_loop_unknown E s rest (fun x hx => h x (by simp [hx]))]

end reading_more

/-- C11, the code: the handlers of `ladspaloader_update_plugins` and
`ladspaloader_update_instance` build the "parameters" push only when
`broadcast_listeners` finds no session to send it to, so no run of them sends a
document to any session. In the sample service the sessions 2 and 3 listen to
parameter changes; after the update call of session 1 neither has received a
document. -/
theorem C11_bulk_update_reaches_no_listener {σ : Type} (E : Engine σ) (this : Nat)
    (params : JsonArray) (s : MyService σ) :
    (CmdConnection.call E this
        (methodnames.mk "ladspaloader_update_plugins" m_id.RPCM_ladspaloader_update_plugins)
        params s).2.2.wire = s.wire ∧
    (CmdConnection.call E this
        (methodnames.mk "ladspaloader_update_instance" m_id.RPCM_ladspaloader_update_instance)
        params s).2.2.wire = s.wire ∧
    listeners (some 1) sample_service.connection_list = [2, 3] ∧
    (CmdConnection.process sample_engine 1 (message sample_update_plugins.toks)
        sample_service).1 = .ok () ∧
    sent_on 2 (CmdConnection.process sample_engine 1 (message sample_update_plugins.toks)
        sample_service).2.2 = [] ∧
    sent_on 3 (CmdConnection.process sample_engine 1 (message sample_update_plugins.toks)
        sample_service).2.2 = [] := by
  refine ⟨(quiet_update_plugins E this params s).2, (quiet_update_instance E this params s).2,
    ?_, ?_, ?_, ?_⟩ <;> decide

/-- C13: with auto-save off and no unsaved change (`oldest_unsaved = 0`), a
call of `save_state` at the time `T0` (not the zero of the clock) saves
nothing, notes `T0` in `oldest_unsaved` and `last_change` and connects the
timeout for `1000 * min_idle` = 2000 ms; the call of `save_state` by that
timeout, at `T0 + min_idle` or later, performs `save_to_state` once, sets
`oldest_unsaved` to zero and disconnects the timeout. -/
theorem C13_single_edit_saved_by_timer {σ : Type} (E : Engine σ) (s : MyService σ) (T0 t : Int)
    (hauto : E.get_opt_auto_save s.eng = false) (hq : s.oldest_unsaved = 0) (hT : T0 ≠ 0)
    (ht : T0 + MyService.min_idle ≤ t) :
    MyService.save_state E { s with now := T0 } =
      (.ok (), [],
        { s with now := T0, oldest_unsaved := T0, last_change := T0, save_conn := some 2000 }) ∧
    MyService.save_state E
        { s with now := t, oldest_unsaved := T0, last_change := T0, save_conn := some 2000 } =
      (.ok (), [],
        { s with now := t, eng := E.exec EngineOp.save_to_state s.eng, oldest_unsaved := 0,
                 last_change := T0, save_conn := none }) := by
  constructor
  · simp [MyService.save_state, hauto, hq, MyService.min_idle]
  · have h2 : t - T0 ≥ MyService.min_idle := by omega
    simp [MyService.save_state, hauto, hT, h2]

/-- Witness of C13: an edit at the time 100 on the counting engine, and the
timeout at 102. -/
theorem C13_single_edit_saved_by_timer_witness :
    (MyService.save_state saving_engine { saving_service with now := 100 }).2.2.eng.ext = 0 ∧
    (MyService.save_state saving_engine
        { saving_service with now := 102, oldest_unsaved := 100, last_change := 100,
                              save_conn := some 2000 }).2.2.eng.ext = 1 := by
  have h := C13_single_edit_saved_by_timer saving_engine saving_service 100 102 (by decide)
    (by decide) (by decide) (by decide)
  exact ⟨by rw [h.1]; rfl, by rw [h.2]; rfl⟩

theorem edits_before_deadline {σ : Type} (E : Engine σ) (hauto : ∀ e, E.get_opt_auto_save e = false)
    (T0 : Int) (hT : T0 ≠ 0) :
    ∀ (ts : List Int) (last : Int) (s : MyService σ),
      s.oldest_unsaved = T0 → s.last_change = last → s.now = last → s.save_conn = some 2000 →
      List.Chain (fun a b => a ≤ b ∧ b - a < MyService.min_idle) last ts →
      (∀ t ∈ ts, t - T0 < MyService.max_delay) →
      edits E ts s =
        { s with now := (last :: ts).getLast (by simp),
                 last_change := (last :: ts).getLast (by simp) }
  | [], last, s, _, h2, h3, _, _, _ => by
    obtain ⟨eng, ou, lc, sc, cl, jwc, pm, wire, now, qm⟩ := s
    simp only [] at h2 h3
    subst h2
    subst h3
    rfl
  | t :: ts, last, s, h1, h2, h3, h4, hc, hb => by
    obtain ⟨eng, ou, lc, sc, cl, jwc, pm, wire, now, qm⟩ := s
    simp only [] at h1 h2 h3 h4
    subst h1
    subst h2
    subst h4
    have hgap := (List.chain_cons.1 hc).1
    have hrest := (List.chain_cons.1 hc).2
    have hdl := hb t (by simp)
    have hstep : save_state_at E t
        (MyService.mk eng ou lc (some 2000) cl jwc pm wire now qm) =
        MyService.mk eng ou t (some 2000) cl jwc pm wire t qm := by
      simp only [MyService.min_idle, MyService.max_delay] at hgap hdl
      have hno : ¬ ((15 : Int) ≤ t - ou ∨ (2 : Int) ≤ t - lc) := by omega
      simp [save_state_at, MyService.save_state, hauto, hT, hno, MyService.min_idle,
        MyService.max_delay]
    have ih := edits_before_deadline E hauto ou hT ts t
      (MyService.mk eng ou t (some 2000) cl jwc pm wire t qm) rfl rfl rfl rfl hrest
      (fun x hx => hb x (by simp [hx]))
    simp only [edits, hstep, ih]
    simp [List.getLast_cons]

/-- C15, refuted as stated: on the counting engine, with `oldest_unsaved` = 90,
`last_change` = 99 and the clock at 105, `save_state` performs the save and
sets `oldest_unsaved` to zero, but `last_change` is still 99 afterwards. -/
theorem C15_counterexample :
    (MyService.save_state saving_engine
        { saving_service with oldest_unsaved := 90, last_change := 99, now := 105,
                              save_conn := some 2000 }).2.2.eng.ext = 1 ∧
    (MyService.save_state saving_engine
        { saving_service with oldest_unsaved := 90, last_change := 99, now := 105,
                              save_conn := some 2000 }).2.2.oldest_unsaved = 0 ∧
    (MyService.save_state saving_engine
        { saving_service with oldest_unsaved := 90, last_change := 99, now := 105,
                              save_conn := some 2000 }).2.2.last_change = 99 := by
  decide

/-- C15, amended: when `save_state` is called with a non-zero `oldest_unsaved`
and auto-save off, it performs `save_to_state` exactly when
`now - oldest_unsaved ≥ max_delay` or `now - last_change ≥ min_idle`. When it
saves, `oldest_unsaved` is zero afterwards and the timeout is disconnected,
and `last_change` keeps its value; when it does not save, `last_change`
becomes `now`, the timeout is connected anew for 2000 ms, and nothing else
changes. -/
theorem C15_save_condition {σ : Type} (E : Engine σ) (s : MyService σ)
    (hauto : E.get_opt_auto_save s.eng = false) (hu : s.oldest_unsaved ≠ 0) :
    ((s.now - s.oldest_unsaved ≥ MyService.max_delay ∨ s.now - s.last_change ≥ MyService.min_idle) →
      MyService.save_state E s =
        (.ok (), [],
          { s with eng := E.exec EngineOp.save_to_state s.eng, oldest_unsaved := 0,
                   save_conn := none })) ∧
    (¬ (s.now - s.oldest_unsaved ≥ MyService.max_delay ∨
        s.now - s.last_change ≥ MyService.min_idle) →
      MyService.save_state E s =
        (.ok (), [], { s with last_change := s.now, save_conn := some 2000 })) := by
  constructor
  · intro h
    simp only [MyService.save_state, hauto, hu, h, if_true, if_false, Bool.false_eq_true]
  · intro h
    simp only [MyService.save_state, hauto, hu, h, if_false, Bool.false_eq_true]
    rfl

/-- Witness of C15, amended: the state of the counterexample. -/
theorem C15_save_condition_witness :
    MyService.save_state saving_engine
        { saving_service with oldest_unsaved := 90, last_change := 99, now := 105,
                              save_conn := some 2000 } =
      (.ok (), [],
        { saving_service with eng := { param := [], ext := 1 }, oldest_unsaved := 0,
                              last_change := 99, now := 105, save_conn := none }) := by
  have h := (C15_save_condition saving_engine
    { saving_service with oldest_unsaved := 90, last_change := 99, now := 105,
                          save_conn := some 2000 } (by decide) (by decide)).1 (by decide)
  rw [h]
  rfl

theorem sample_wf_get_bank : sample_get_bank.wf := by
  intro m hm
  simp [sample_get_bank] at hm
  rcases hm with rfl | rfl | rfl | rfl
  · rfl
  · trivial
  · intro a ha
    simp at ha
    subst ha
    trivial
  · trivial

/-- C16, refuted as stated: the call
`{"jsonrpc":"2.0","method":"get_bank","params":["NoSuchBank"],"id":"2"}` on the
sample service, which has no bank, is answered with the error code -32602, not
-32001. -/
theorem C16_counterexample :
    sent_on 1 (CmdConnection.process sample_engine 1 (message sample_get_bank.toks)
        sample_service).2.2 =
      [error_response (-32602) "Invalid params -- unknown bank"] ∧
    error_response (-32602) "Invalid params -- unknown bank" ≠
      error_response (-32001) "Invalid params -- unknown bank" := by
  decide

/-- C16, amended: a `get_bank` call whose first argument is a string that
names no bank is answered with exactly one document, the error response with
the code -32602 (the code of the invalid-params errors) and the message
"Invalid params -- unknown bank"; nothing else changes. -/
theorem C16_get_bank_unknown {σ : Type} (E : Engine σ) (this : Nat) (q : RequestObject)
    (name : String) (str : List Char) (rest : List Tok) (cur : String) (s : MyService σ)
    (hq : q.wf) (hm : q.fields.method = "get_bank") (hid : q.fields.id ≠ "")
    (hn : JsonArray.getString q.fields.params 0 = .ok name)
    (hb : E.get_file s.eng name = none) :
    CmdConnection.process E this { str := str, jp := { toks := q.toks ++ rest, cur := cur } } s =
      (.ok (), [],
        { s with wire := s.wire ++
            [(this, error_response (-32602) "Invalid params -- unknown bank")] }) := by
  have hw : in_word_set q.fields.method = some (methodnames.mk "get_bank" m_id.RPCM_get_bank) := by
    rw [hm]
    decide
  have hc : CmdConnection.call E this (methodnames.mk "get_bank" m_id.RPCM_get_bank)
      q.fields.params s =
      (.error (Exn.RpcError (-32602) "Invalid params -- unknown bank"), [], s) := by
    show M.eng (FUNCTION_get_bank E q.fields.params) s = _
    simp [M.eng, W.zoom, FUNCTION_get_bank, W.bind_def, W.andThen, hn, hb]
  obtain ⟨o1, hd⟩ := dispatch_call_error E this q.fields false s s _ [] _ hw hid hc
  have ht : process_try E this
      ({ str := str, jp := { toks := q.toks ++ rest, cur := cur } } : JsonStringParser).jp s =
      (.error (Exn.RpcError (-32602) "Invalid params -- unknown bank"), o1, s) := by
    rw [process_try_object E this q hq rest cur s, hd]
  rw [process_of_try_rpc_error E this _ s s o1 _ _ ht]

/-- Witness of C16, amended: the call of the counterexample. -/
theorem C16_get_bank_unknown_witness :
    CmdConnection.process sample_engine 1
        { str := [], jp := { toks := sample_get_bank.toks ++ [], cur := "" } } sample_service =
      (.ok (), [],
        { sample_service with wire := sample_service.wire ++
            [(1, error_response (-32602) "Invalid params -- unknown bank")] }) := by
  have h := C16_get_bank_unknown sample_engine 1 sample_get_bank "NoSuchBank" [] [] ""
    sample_service sample_wf_get_bank (by decide) (by decide) (by decide) (by decide)
  exact h

theorem sample_wf_unknown_args : ∀ a ∈ sample_unknown_args, a.wf := by
  intro a ha
  simp [sample_unknown_args] at ha
  rcases ha with rfl | rfl <;> trivial

/-- C18, refuted as stated: the request
`{"jsonrpc":"2.0","method":"getversion","params":{},"id":"1"}` is answered with
the error code -32000, while the request `{"jsonrpc":"1.0"}` with a wrong
protocol version is answered with -32600. -/
theorem C18_counterexample :
    sent_on 1 (CmdConnection.process sample_engine 1 (message sample_named_params)
        sample_service).2.2 =
      [error_response (-32000) "by-name parameters not implemented"] ∧
    sent_on 1 (CmdConnection.process sample_engine 1
        (message [{ kind := token.begin_object, value := "" },
                  { kind := token.value_key, value := "jsonrpc" },
                  { kind := token.value_string, value := "1.0" },
                  { kind := token.end_object, value := "" }])
        sample_service).2.2 =
      [error_response (-32600) "Invalid Request"] ∧
    error_response (-32000) "by-name parameters not implemented" ≠
      error_response (-32600) "by-name parameters not implemented" := by
  decide

/-- C18, amended: a request object in which, after any well-formed members, the
params member opens an object is turned down when that member is read:
`CmdConnection::process` sends exactly one document, the error response with
the code -32000 and the message "by-name parameters not implemented", and runs
no handler; nothing else changes. -/
theorem C18_named_params_rejected {σ : Type} (E : Engine σ) (this : Nat) (lb v : String)
    (ms : List Member) (str : List Char) (rest : List Tok) (cur : String) (s : MyService σ)
    (hw : ∀ m ∈ ms, m.wf) :
    CmdConnection.process E this
        { str := str,
          jp := { toks := { kind := token.begin_object, value := lb } ::
                    (ms.flatMap Member.toks ++
                      { kind := token.value_key, value := "params" } ::
                        { kind := token.begin_object, value := v } :: rest),
                  cur := cur } } s =
      (.ok (), [],
        { s with wire := s.wire ++
            [(this, error_response (-32000) "by-name parameters not implemented")] }) := by
  have ht : process_try E this
      ({ str := str,
         jp := { toks := { kind := token.begin_object, value := lb } ::
                   (ms.flatMap Member.toks ++
                     { kind := token.value_key, value := "params" } ::
                       { kind := token.begin_object, value := v } :: rest),
                 cur := cur } } : JsonStringParser).jp s =
      (.error (Exn.RpcError (-32000) "by-name parameters not implemented"), [], s) := by
    unfold process_try
    simp only [JsonParser.first_is_bracket]
    simp only [show decide (token.begin_object = token.begin_array) = false by decide,
      Bool.false_eq_true, if_false, W.bind_def, W.andThen, request_eq,
      request_read_named_params lb v ms hw rest cur]
  rw [process_of_try_rpc_error E this _ s s [] _ _ ht]

/-- Witness of C18, amended: the request of the counterexample. -/
theorem C18_named_params_rejected_witness :
    CmdConnection.process sample_engine 1 (message sample_named_params) sample_service =
      (.ok (), [],
        { sample_service with wire := sample_service.wire ++
            [(1, error_response (-32000) "by-name parameters not implemented")] }) := by
  have h := C18_named_params_rejected sample_engine 1 "" ""
    [Member.jsonrpc "2.0", Member.method "getversion"] [] 
    [{ kind := token.end_object, value := "" },
     { kind := token.value_key, value := "id" }, { kind := token.value_string, value := "1" },
     { kind := token.end_object, value := "" }] "" sample_service
    (by intro m hm; simp at hm; rcases hm with rfl | rfl <;> trivial)
  exact h

theorem sample_wf_empty_id : sample_empty_id.wf := by
  intro m hm
  simp [sample_empty_id] at hm
  rcases hm with rfl | rfl | rfl <;> trivial

/-- C19, the code: a request object whose id is the empty string, like one
without an id member, is taken for a notification; when its method is a call
method, the switch of `notify` has no case for it and ends in `assert(false)`:
`CmdConnection::process` sends no document, to the issuing session or any
other. -/
theorem C19_empty_id_gets_no_response {σ : Type} (E : Engine σ) (this : Nat) (q : RequestObject)
    (str : List Char) (rest : List Tok) (cur : String) (s : MyService σ) (p : methodnames)
    (hq : q.wf) (hm : in_word_set q.fields.method = some p) (hc : p.m_id.is_call = true)
    (hid : q.fields.id = "") :
    CmdConnection.process E this { str := str, jp := { toks := q.toks ++ rest, cur := cur } } s =
      (.error (Exn.Fatal "assert(false)"), [], s) := by
  have ht : process_try E this
      ({ str := str, jp := { toks := q.toks ++ rest, cur := cur } } : JsonStringParser).jp s =
      (.error (Exn.Fatal "assert(false)"), [], s) := by
    rw [process_try_object E this q hq rest cur s]
    simp only [request_dispatch, hm, hid, if_true, W.bind_def, W.andThen, W.catchRpc,
      notify_of_call E this p q.fields.params s hc]
  simp only [CmdConnection.process, ht]

/-- Witness of C19: the request `{"jsonrpc":"2.0","method":"getversion","id":""}`
of session 1 on the sample service. -/
theorem C19_empty_id_gets_no_response_witness :
    CmdConnection.process sample_engine 1
        { str := [], jp := { toks := sample_empty_id.toks ++ [], cur := "" } } sample_service =
      (.error (Exn.Fatal "assert(false)"), [], sample_service) := by
  have h := C19_empty_id_gets_no_response sample_engine 1 sample_empty_id [] [] "" sample_service
    (methodnames.mk "getversion" m_id.RPCM_getversion) sample_wf_empty_id (by decide) (by decide)
    (by decide)
  exact h

/-- C20, the code: `JsonArray::append` stores the number token `4294967297` as
the integer 1, and the token `2147483648` as the integer -2147483648: the
`long` that `strtol` returns is narrowed to `int` without a check. Tokens
within the range of `int` are stored as they are written, and a token with a
fraction is stored as a floating-point value. -/
theorem C20_large_integer_wraps :
    JsonArray.append [] { toks := [{ kind := token.value_number, value := "4294967297" }], cur := "" } =
      .ok ([JsonValue.JsonInt 1], { toks := [], cur := "4294967297" }) ∧
    JsonArray.number_value "2147483648" = JsonValue.JsonInt (-2147483648) ∧
    JsonArray.number_value "2147483647" = JsonValue.JsonInt 2147483647 ∧
    JsonArray.number_value "-12" = JsonValue.JsonInt (-12) ∧
    JsonArray.number_value "1.5" = JsonValue.JsonFloat (Double.ofText "1.5") := by
  decide

/-! ## The documents in the outbound queue -/

section queue_members

theorem on_data_out_members : ∀ (rs : List WriteRoom) (st : Outbound),
    ∀ d ∈ (Outbound.on_data_out rs st).2.2.outgoing, d ∈ st.outgoing
  | [], st => fun d h => h
  | r :: rs, st => by
    obtain ⟨outgoing, off, io, sock⟩ := st
    cases outgoing with
    | nil => exact fun d h => h
    | cons d0 q =>
      intro d h
      unfold Outbound.on_data_out at h
      simp only [] at h
      split at h
      · exact h
      · split at h
        · have h1 := on_data_out_members rs _ d h
          exact List.mem_cons_of_mem _ h1
        · have h1 := on_data_out_members rs _ d h
          exact h1

theorem send_members (s : List Char) (rs rs1 : List WriteRoom) (st st1 : Outbound)
    (h : Outbound.send s rs st = .ok (rs1, st1)) :
    ∀ d ∈ st1.outgoing, d ∈ st.outgoing ∨ d = s := by
  unfold Outbound.send at h
  intro d hd
  split at h
  · split at h
    · exact absurd h (by simp)
    · split at h
      · injection h with h
        injection h with _ h2
        subst h2
        exact Or.inl hd
      · injection h with h
        injection h with _ h2
        subst h2
        simpa using hd
  · injection h with h
    injection h with _ h2
    subst h2
    simpa using hd

theorem run_members : ∀ (es : List OutEvent) (rs rs1 : List WriteRoom) (st st1 : Outbound),
    Outbound.run es rs st = .ok (rs1, st1) →
    ∀ d ∈ st1.outgoing, d ∈ st.outgoing ∨ d ∈ OutEvent.docs es
  | [], rs, rs1, st, st1, h => by
    injection h with h
    injection h with _ h2
    subst h2
    exact fun d hd => Or.inl hd
  | .send s :: es, rs, rs1, st, st1, h => by
    unfold Outbound.run at h
    cases hs : Outbound.send s rs st with
    | error e => rw [hs] at h; exact absurd h (by simp)
    | ok x =>
      rw [hs] at h
      simp only [] at h
      intro d hd
      rcases run_members es x.1 rs1 x.2 st1 h d hd with h1 | h1
      · rcases send_members s rs x.1 st x.2 hs d h1 with h2 | h2
        · exact Or.inl h2
        · exact Or.inr (by simp [OutEvent.docs, h2])
      · exact Or.inr (by simp [OutEvent.docs, h1])
  | .writable :: es, rs, rs1, st, st1, h => by
    unfold Outbound.run at h
    intro d hd
    split at h
    · exact run_members es rs rs1 st st1 h d hd
    · split at h
      · rcases run_members es _ rs1 _ st1 h d hd with h1 | h1
        · exact Or.inl (on_data_out_members rs st d h1)
        · exact Or.inr h1
      · rcases run_members es _ rs1 _ st1 h d hd with h1 | h1
        · exact Or.inl (on_data_out_members rs st d h1)
        · exact Or.inr h1

end queue_members

/-! ## The inbound line assembly -/

section line_assembly

variable {σ : Type}

theorem feed_append (E : Engine σ) (jp : JsonStringParser) (a b : List Char) :
    JsonStringParser.feed E (JsonStringParser.feed E jp a) b = JsonStringParser.feed E jp (a ++ b) := by
  simp [JsonStringParser.feed, List.foldl_append]

/-- The loop over the bytes of a read dispatches the complete messages of the
bytes, the first one together with what the parser already holds. -/
theorem on_data_in_bytes_messages (E : Engine σ) (this : Nat) :
    ∀ (bs buffer : List Char) (s : MyService σ),
      on_data_in_bytes E this bs (JsonStringParser.feed E (JsonStringParser.reset E) buffer) s =
        dispatch_messages E this (messages_of buffer bs).1 (messages_of buffer bs).2 s
  | [], buffer, s => rfl
  | c :: cs, buffer, s => by
    by_cases hc : c = '\n'
    · subst hc
      have hput : JsonStringParser.put E
          (JsonStringParser.feed E (JsonStringParser.reset E) buffer) '\n' =
          JsonStringParser.feed E (JsonStringParser.reset E) (buffer ++ ['\n']) := by
        rw [feed_line]
      have ih := fun s1 => on_data_in_bytes_messages E this cs [] s1
      simp only [JsonStringParser.feed, List.foldl_nil] at ih
      conv_lhs => rw [on_data_in_bytes]
      simp only [if_true, messages_of, dispatch_messages, hput]
      rcases CmdConnection.process E this
        (JsonStringParser.feed E (JsonStringParser.reset E) (buffer ++ ['\n'])) s with ⟨a, o, s1⟩
      cases a with
      | ok u => exact ih s1
      | error e => rfl
    · have ih := on_data_in_bytes_messages E this cs (buffer ++ [c]) s
      conv_lhs => rw [on_data_in_bytes]
      simp only [hc, if_false, messages_of]
      rw [← feed_line] 
      exact ih

/-- Two reads one after the other are the read of their bytes in a row. -/
theorem on_data_in_bytes_append (E : Engine σ) (this : Nat) :
    ∀ (a b : List Char) (jp : JsonStringParser) (s : MyService σ),
      on_data_in_bytes E this (a ++ b) jp s =
        match on_data_in_bytes E this a jp s with
        | (.ok _, jp1, s1) => on_data_in_bytes E this b jp1 s1
        | (.error e, jp1, s1) => (.error e, jp1, s1)
  | [], b, jp, s => rfl
  | c :: cs, b, jp, s => by
    rw [List.cons_append]
    conv_lhs => rw [on_data_in_bytes]
    conv_rhs => rw [on_data_in_bytes]
    by_cases hc : c = '\n'
    · simp only [hc, if_true]
      rcases CmdConnection.process E this (JsonStringParser.put E jp '\n') s with ⟨r, o, s1⟩
      cases r with
      | ok u => exact on_data_in_bytes_append E this cs b _ s1
      | error e => rfl
    · simp only [hc, if_false]
      exact on_data_in_bytes_append E this cs b _ s

/-- The reads of a call of `on_data_in`, until the socket has nothing more, are
the read of their bytes in a row. -/
theorem on_data_in_reads (E : Engine σ) (this : Nat) :
    ∀ (bufs : List (List Char)) (jp : JsonStringParser) (s : MyService σ),
      CmdConnection.on_data_in E this (bufs.map Receive.data) jp s =
        match on_data_in_bytes E this bufs.flatten jp s with
        | (.ok _, jp1, s1) => (.ok true, jp1, s1)
        | (.error e, jp1, s1) => (.error e, jp1, s1)
  | [], jp, s => rfl
  | b :: bufs, jp, s => by
    simp only [List.map_cons, List.flatten_cons, CmdConnection.on_data_in]
    rw [on_data_in_bytes_append]
    rcases on_data_in_bytes E this b jp s with ⟨r, jp1, s1⟩
    cases r with
    | ok u => exact on_data_in_reads E this bufs jp1 s1
    | error e => rfl

/-- The messages are the bytes cut behind each newline. -/
theorem messages_of_flatten : ∀ (bs buffer : List Char),
    (messages_of buffer bs).1.flatten ++ (messages_of buffer bs).2 = buffer ++ bs
  | [], buffer => by simp [messages_of]
  | c :: cs, buffer => by
    by_cases hc : c = '\n'
    · have ih := messages_of_flatten cs []
      simp only [messages_of, hc, if_true, List.flatten_cons, List.append_assoc]
      rw [ih]
      simp
    · have ih := messages_of_flatten cs (buffer ++ [c])
      simp only [messages_of, hc, if_false]
      rw [ih]
      simp

theorem messages_of_ends : ∀ (bs buffer : List Char), '\n' ∉ buffer →
    (∀ m ∈ (messages_of buffer bs).1, ∃ line, m = line ++ ['\n'] ∧ '\n' ∉ line) ∧
      '\n' ∉ (messages_of buffer bs).2
  | [], buffer, hb => by simp [messages_of, hb]
  | c :: cs, buffer, hb => by
    by_cases hc : c = '\n'
    · have ih := messages_of_ends cs [] (by simp)
      simp only [messages_of, hc, if_true, List.mem_cons]
      refine ⟨?_, ih.2⟩
      intro m hm
      rcases hm with rfl | hm
      · exact ⟨buffer, rfl, hb⟩
      · exact ih.1 m hm
    · have ih := messages_of_ends cs (buffer ++ [c]) (by
        simp only [List.mem_append, List.mem_singleton, not_or]
        exact ⟨hb, fun h => hc h.symm⟩)
      simp only [messages_of, hc, if_false]
      exact ih

end line_assembly

section set_sequence
variable {σ : Type}

/-- The first loop of `PROCEDURE(set)` stops at the first pair whose round
throws: the rounds of the pairs before it have run. -/
theorem set_loop_stops (E : Engine σ) (pr : String × JsonValue) (more : List (String × JsonValue))
    (e : Exn) (o2 : JsonWriter) (s1 s2 : MyService σ)
    (h2 : set_one E (JsonValue.JsonString pr.1) (.ok pr.2) s1 = (.error e, o2, s2)) :
    ∀ (ps : List (String × JsonValue)) (s : MyService σ) (o1 : JsonWriter),
      set_loop E (pair_params ps) s = (.ok (), o1, s1) →
      set_loop E (pair_params (ps ++ pr :: more)) s = (.error e, o1 ++ o2, s2)
  | [], s, o1, h1 => by
    have h0 : set_loop E (pair_params []) s = (.ok (), [], s) := rfl
    rw [h0] at h1
    injection h1 with _ h1
    injection h1 with ho hs
    subst ho
    subst hs
    have h3 : pair_params ([] ++ pr :: more) =
        JsonValue.JsonString pr.1 :: pr.2 :: pair_params more := by
      simp [pair_params]
    rw [h3]
    unfold set_loop
    rw [W.andThen_error h2]
    rfl
  | p :: rest, s, o1, h1 => by
    have h3 : pair_params (p :: rest) = JsonValue.JsonString p.1 :: p.2 :: pair_params rest := by
      simp [pair_params]
    have h4 : pair_params ((p :: rest) ++ pr :: more) =
        JsonValue.JsonString p.1 :: p.2 :: pair_params (rest ++ pr :: more) := by
      simp [pair_params]
    rw [h3] at h1
    rw [h4]
    unfold set_loop at h1 ⊢
    rcases ha : set_one E (JsonValue.JsonString p.1) (.ok p.2) s with ⟨r, oa, sa⟩
    cases r with
    | error e1 =>
      rw [W.andThen_error ha] at h1
      injection h1 with h1 _
      exact Except.noConfusion h1
    | ok u =>
      rw [W.andThen_ok ha] at h1
      rw [W.andThen_ok ha]
      rcases hb : set_loop E (pair_params rest) sa with ⟨rb, ob, sb⟩
      rw [hb] at h1
      simp only [] at h1
      injection h1 with hr h1
      injection h1 with ho hs
      subst hr
      subst hs
      subst ho
      rw [set_loop_stops E pr more e o2 _ s2 h2 rest sa ob hb]
      simp

/-- The handler of `set` ends where its first loop throws: neither the push nor
`save_state` is reached. -/
theorem set_stops (E : Engine σ) (this : Nat) (pairs : List (String × JsonValue))
    (e : Exn) (o : JsonWriter) (s s2 : MyService σ)
    (h : set_loop E (pair_params pairs) s = (.error e, o, s2)) :
    PROCEDURE_set E this (pair_params pairs) s = (.error e, o, s2) := by
  have hl := pair_params_length pairs
  unfold PROCEDURE_set
  simp only [hl, Nat.zero_ne_one, if_false, W.bind_def]
  rw [W.andThen_error h]

/-- A round of the first loop of `PROCEDURE(set)` whose value the setter does
not take throws before anything is changed. -/
theorem set_one_rejected (E : Engine σ) (id : String) (v : JsonValue) (p : Parameter) (e : Exn)
    (s : MyService σ) (hf : ParamMap.find s.eng.param id = some p)
    (ha : set_arg E p v = .error e) :
    set_one E (JsonValue.JsonString id) (.ok v) s = (.error e, [], s) := by
  simp [set_one, W.bind_def, W.andThen, JsonValue.getString, hf, ha, W.ofExcept, W.get]

end set_sequence

section document_lemmas

variable {σ : Type}

/-- The id a request carries is the text of its last id member. -/
theorem id_of_members (ms ms2 : List Member) (number : Bool) (t : String) (r0 : RequestFields)
    (hlater : ∀ m ∈ ms2, ∀ i, m ≠ Member.id_string i ∧ m ≠ Member.id_number i) :
    ((ms ++ (if number then Member.id_number t else Member.id_string t) :: ms2).foldl
      Member.read r0).id = t := by
  have hkeep : ∀ (l : List Member) (r : RequestFields),
      (∀ m ∈ l, ∀ i, m ≠ Member.id_string i ∧ m ≠ Member.id_number i) →
      (l.foldl Member.read r).id = r.id := by
    intro l
    induction l with
    | nil => intro r _; rfl
    | cons m l ih =>
      intro r h
      rw [List.foldl_cons, ih _ (fun x hx => h x (by simp [hx]))]
      have hm := h m (by simp)
      cases m with
      | id_string i => exact absurd rfl (hm i).1
      | id_number i => exact absurd rfl (hm i).2
      | _ => rfl
  rw [List.foldl_append, List.foldl_cons, hkeep _ _ hlater]
  cases number <;> rfl

theorem sample_wf_id_first : sample_id_first.wf := by
  intro m hm
  simp [sample_id_first] at hm
  rcases hm with rfl | rfl | rfl <;> trivial

theorem set_loop_cons (E : Engine σ) (attr v : JsonValue) (rest : JsonArray) :
    set_loop E (attr :: v :: rest) =
      W.andThen (set_one E attr (.ok v)) (fun _ => set_loop E rest) := by
  rw [set_loop]

/-- The first loop of `PROCEDURE(set)` over two lists of pairs, one behind the
other. -/
theorem set_loop_append (E : Engine σ) (qs : List (String × JsonValue)) :
    ∀ (ps : List (String × JsonValue)) (s : MyService σ),
      set_loop E (pair_params (ps ++ qs)) s =
        W.andThen (set_loop E (pair_params ps)) (fun _ => set_loop E (pair_params qs)) s
  | [], s => by
    have h0 : set_loop E (pair_params []) = W.ret () := rfl
    simp [h0, W.andThen, W.ret]
  | p :: rest, s => by
    have h3 : pair_params (p :: rest) = JsonValue.JsonString p.1 :: p.2 :: pair_params rest := by
      simp [pair_params]
    have h4 : pair_params ((p :: rest) ++ qs) =
        JsonValue.JsonString p.1 :: p.2 :: pair_params (rest ++ qs) := by
      simp [pair_params]
    rw [h3, h4, set_loop_cons, set_loop_cons]
    rcases ha : set_one E (JsonValue.JsonString p.1) (.ok p.2) s with ⟨r, oa, sa⟩
    cases r with
    | error e1 => simp [W.andThen, ha]
    | ok u =>
      simp only [W.andThen, ha, set_loop_append E qs rest sa]
      rcases set_loop E (pair_params rest) sa with ⟨rb, ob, sb⟩
      cases rb <;> simp

/-- The first loop of `PROCEDURE(set)` passes over a pair whose id is not in
the parameter directory when its turn comes. -/
theorem set_loop_skips (E : Engine σ) (ps more : List (String × JsonValue)) (u : String)
    (v : JsonValue) (s s1 s2 : MyService σ) (o1 o2 : JsonWriter)
    (h1 : set_loop E (pair_params ps) s = (.ok (), o1, s1))
    (hu : ParamMap.find s1.eng.param u = none)
    (h2 : set_loop E (pair_params more) s1 = (.ok (), o2, s2)) :
    set_loop E (pair_params (ps ++ (u, v) :: more)) s = (.ok (), o1 ++ o2, s2) := by
  have h3 : pair_params ((u, v) :: more) = JsonValue.JsonString u :: v :: pair_params more := by
    simp [pair_params]
  rw [set_loop_append, W.andThen_ok h1, h3, set_loop_cons,
    W.andThen_ok (set_one_unknown E u (.ok v) s1 hu), h2]
  simp

end document_lemmas

section drain_lemmas

/-- What `sendbytes` does when the socket takes at most `n` bytes. -/
theorem sendbytes_takes (n : Nat) (d : List Char) (off : Nat) (hd : d.length < 2 ^ 31)
    (hoff : off ≤ d.length) :
    sendbytes (WriteRoom.takes n) d off =
      if min n (d.length - off) = 0 then (false, off, [])
      else if n < d.length - off then (true, off + n, (d.drop off).take n)
      else (true, 0, d.drop off) := by
  have hlen : to_unsigned ((d.length : Int) - (off : Int)) = d.length - off := by
    rw [to_unsigned_small _ (by omega) (by omega)]
    omega
  have htake : (d.drop off).take (d.length - off) = d.drop off :=
    List.take_of_length_le (by simp)
  have hdl : (d.drop off).length = d.length - off := by simp
  unfold sendbytes
  simp only [hlen, htake, write, hdl]
  rw [long_to_int_small _ (by omega) (by omega)]
  by_cases h0 : min n (d.length - off) = 0
  · have htk : (d.drop off).take n = [] := by
      rcases Nat.min_eq_zero_iff.1 h0 with h | h
      · subst h
        rfl
      · apply List.eq_nil_of_length_eq_zero
        simp [h]
    simp [h0, htk]
  · have hpos : ¬ (((min n (d.length - off) : Nat) : Int) ≤ 0) := by omega
    simp only [hpos, if_false, h0]
    by_cases hall : n < d.length - off
    · have hmin : min n (d.length - off) = n := by omega
      have hz : to_unsigned (((d.length - off : Nat) : Int) - ((min n (d.length - off) : Nat) : Int))
          = d.length - off - n := by
        rw [hmin, to_unsigned_small _ (by omega) (by omega)]
        omega
      have ho : to_unsigned ((off : Int) + ((min n (d.length - off) : Nat) : Int)) = off + n := by
        rw [hmin, to_unsigned_small _ (by omega) (by omega)]
        omega
      have hp : 0 < d.length - off - n := by omega
      simp only [hz, ho, gt_iff_lt, hp, if_true, hall]
    · have hmin : min n (d.length - off) = d.length - off := by omega
      have hz : to_unsigned (((d.length - off : Nat) : Int) - ((min n (d.length - off) : Nat) : Int))
          = 0 := by
        rw [hmin, to_unsigned_small _ (by omega) (by omega)]
        omega
      have htk2 : (d.drop off).take n = d.drop off :=
        List.take_of_length_le (by simp; omega)
      simp only [hz, htk2, gt_iff_lt, Nat.lt_irrefl, if_false, hall]

/-- One write of a drain that takes a part of what is left of the first
document: the offset moves on by the bytes taken. -/
theorem on_data_out_partial (d : List Char) (q : List (List Char)) (off io : Nat)
    (sock : List Char) (n : Nat) (hd : d.length < 2 ^ 31) (h0 : 0 < n) (h1 : n < d.length - off) :
    Outbound.on_data_out [WriteRoom.takes n] (Outbound.mk (d :: q) off io sock) =
      (true, [], Outbound.mk (d :: q) (off + n) io (sock ++ (d.drop off).take n)) := by
  have hs := sendbytes_takes n d off hd (by omega)
  have hmin : ¬ (min n (d.length - off) = 0) := by omega
  rw [if_neg hmin, if_pos h1] at hs
  have hne : off + n ≠ 0 := by omega
  rw [Outbound.on_data_out]
  show (if (sendbytes (WriteRoom.takes n) d off).1 = false then _ else _) = _
  rw [hs]
  show (if true = false then _ else if off + n = 0 then _ else _) = _
  rw [if_neg (by decide), if_neg hne, Outbound.on_data_out]
  rfl

/-- One write of a drain that takes all that is left of the first document:
the document leaves the queue. -/
theorem on_data_out_full (d : List Char) (q : List (List Char)) (off io : Nat)
    (sock : List Char) (n : Nat) (rs : List WriteRoom) (hd : d.length < 2 ^ 31)
    (h0 : 0 < d.length - off) (h1 : d.length - off ≤ n) :
    Outbound.on_data_out (WriteRoom.takes n :: rs) (Outbound.mk (d :: q) off io sock) =
      Outbound.on_data_out rs (Outbound.mk q 0 io (sock ++ d.drop off)) := by
  have hs := sendbytes_takes n d off hd (by omega)
  have hmin : ¬ (min n (d.length - off) = 0) := by omega
  have hnot : ¬ (n < d.length - off) := by omega
  rw [if_neg hmin, if_neg hnot] at hs
  conv_lhs => rw [Outbound.on_data_out]
  show (if (sendbytes (WriteRoom.takes n) d off).1 = false then _ else _) = _
  rw [hs]
  show (if true = false then _ else if (0 : Nat) = 0 then _ else _) = _
  rw [if_neg (by decide), if_pos rfl]

/-- A drain against a socket that takes everything empties the queue. -/
theorem on_data_out_all (N : Nat) : ∀ (k : Nat) (st : Outbound), st.Sound →
    (∀ d ∈ st.outgoing, 0 < d.length ∧ d.length ≤ N) → st.outgoing.length ≤ k →
    (Outbound.on_data_out (List.replicate k (WriteRoom.takes N)) st).1 = false ∧
    (Outbound.on_data_out (List.replicate k (WriteRoom.takes N)) st).2.2.outgoing = [] ∧
    (Outbound.on_data_out (List.replicate k (WriteRoom.takes N)) st).2.2.socket =
      st.socket ++ st.pending
  | 0, st, _, _, hk => by
    obtain ⟨outgoing, off, io, sock⟩ := st
    have h0 : outgoing = [] := List.eq_nil_of_length_eq_zero (by simpa using hk)
    subst h0
    simp [Outbound.on_data_out, Outbound.pending]
  | k + 1, st, hs, hN, hk => by
    obtain ⟨outgoing, off, io, sock⟩ := st
    cases outgoing with
    | nil => simp [List.replicate_succ, Outbound.on_data_out, Outbound.pending]
    | cons d q =>
      obtain ⟨hlen, hoff, hio⟩ := hs
      simp only [] at hlen hoff hio
      have hd : d.length < 2 ^ 31 := hlen d (by simp)
      have hdN := hN d (by simp)
      have hs2 : Outbound.Sound (Outbound.mk q 0 io (sock ++ d.drop off)) := by
        refine ⟨fun x hx => hlen x (by simp [hx]), ?_⟩
        cases q with
        | nil => rfl
        | cons e q2 => exact ⟨Or.inl rfl, hio⟩
      have ih := on_data_out_all N k (Outbound.mk q 0 io (sock ++ d.drop off)) hs2
        (fun x hx => hN x (by simp [hx])) (by simpa using hk)
      rw [List.replicate_succ, on_data_out_full d q off io sock N _ hd (by omega) (by omega)]
      refine ⟨ih.1, ih.2.1, ?_⟩
      rw [ih.2.2]
      cases q <;> simp [Outbound.pending]

end drain_lemmas

/-- C21: the accessors of the four kinds of argument values. `getFloat` gives
the value of a float and the value of an integer widened to a float; `getInt`
gives the value of an integer only, `getString` the text of a string only,
`getSubParser` a parser on an embedded object or array only. Every other
combination fails with an `RpcError` of code -32602, so no accessor turns a
value into another kind, int to float apart. -/
theorem C21_accessors_by_kind (n : Int) (d : Double) (str : String) (position : List Tok)
    (v : JsonValue) :
    (JsonValue.JsonInt n).getFloat = .ok (Double.ofInt n) ∧
    (JsonValue.JsonFloat d).getFloat = .ok d ∧
    (JsonValue.JsonInt n).getInt = .ok n ∧
    (JsonValue.JsonString str).getString = .ok str ∧
    (JsonValue.JsonObject position).getSubParser = .ok { toks := position, cur := "" } ∧
    (JsonValue.JsonFloat d).getInt = .error (Exn.RpcError (-32602) "Invalid param -- int expected") ∧
    (JsonValue.JsonString str).getInt =
      .error (Exn.RpcError (-32602) "Invalid param -- int expected") ∧
    (JsonValue.JsonString str).getFloat =
      .error (Exn.RpcError (-32602) "Invalid param -- float expected") ∧
    (JsonValue.JsonInt n).getString =
      .error (Exn.RpcError (-32602) "Invalid param -- string expected") ∧
    (JsonValue.JsonFloat d).getString =
      .error (Exn.RpcError (-32602) "Invalid param -- string expected") ∧
    ((∀ p, v ≠ JsonValue.JsonObject p) →
      v.getSubParser = .error (Exn.RpcError (-32602) "Invalid param -- object expected")) ∧
    (∀ x, v.getInt = .ok x → v = JsonValue.JsonInt x) ∧
    (∀ x, v.getString = .ok x → v = JsonValue.JsonString x) ∧
    (∀ x, v.getFloat = .ok x →
      v = JsonValue.JsonFloat x ∨ ∃ m, v = JsonValue.JsonInt m ∧ x = Double.ofInt m) ∧
    (∀ x, v.getSubParser = .ok x → ∃ p, v = JsonValue.JsonObject p) ∧
    (∀ e, v.getInt = .error e ∨ v.getFloat = .error e ∨ v.getString = .error e ∨
        v.getSubParser = .error e → ∃ message, e = Exn.RpcError (-32602) message) := by
  refine ⟨rfl, rfl, rfl, rfl, rfl, rfl, rfl, rfl, rfl, rfl, ?_, ?_, ?_, ?_, ?_, ?_⟩
  · intro h
    cases v with
    | JsonObject p => exact absurd rfl (h p)
    | _ => rfl
  · intro x h
    cases v <;> simp [JsonValue.getInt] at h
    rw [h]
  · intro x h
    cases v <;> simp [JsonValue.getString] at h
    rw [h]
  · intro x h
    cases v with
    | JsonFloat y =>
      injection h with h
      exact Or.inl (by rw [h])
    | JsonInt m =>
      injection h with h
      exact Or.inr ⟨m, rfl, h.symm⟩
    | JsonString y => exact absurd h (by simp [JsonValue.getFloat])
    | JsonObject y => exact absurd h (by simp [JsonValue.getFloat])
  · intro x h
    cases v <;> simp [JsonValue.getSubParser] at h
    exact ⟨_, rfl⟩
  · intro e h
    cases v <;> rcases h with h | h | h | h <;>
      first
        | (injection h with h; exact ⟨_, h.symm⟩)
        | exact absurd h (by simp [JsonValue.getInt, JsonValue.getFloat, JsonValue.getString,
            JsonValue.getSubParser])

/-- C23, the code: `FUNCTION(read_audio)` returns without writing anything when
the file cannot be read, and `FUNCTION(bank_insert_content)` when no bank is
created. The response that `request` builds around the handler then has the
key "result" followed at once by the end of the object, as the calls
`read_audio ["x.wav"]` and `bank_insert_content ["u","c"]` of session 1 on the
sample service show. -/
theorem C23_call_without_result {σ : Type} (E : Engine σ) (params : JsonArray) (s : Eng σ)
    (first second : String) :
    (JsonArray.getString params 0 = .ok first → E.read_audio s first = none →
      FUNCTION_read_audio E params s = (.ok (), [], s)) ∧
    (JsonArray.getString params 0 = .ok first → JsonArray.getString params 1 = .ok second →
      (E.bank_insert_content first second s).1 = none →
      (FUNCTION_bank_insert_content E params s).1 = .ok () ∧
      (FUNCTION_bank_insert_content E params s).2.1 = []) ∧
    sent_on 1 (CmdConnection.process sample_engine 1
        (message (sample_request "read_audio" [ArgSrc.string "x.wav"] "1").toks)
        sample_service).2.2 =
      [[JsonEvent.begin_object, JsonEvent.write_key "jsonrpc", JsonEvent.write_string "2.0",
        JsonEvent.write_key "id", JsonEvent.write_string "1", JsonEvent.write_key "result",
        JsonEvent.end_object]] ∧
    sent_on 1 (CmdConnection.process sample_engine 1
        (message (sample_request "bank_insert_content" [ArgSrc.string "u", ArgSrc.string "c"]
          "1").toks)
        sample_service).2.2 =
      [[JsonEvent.begin_object, JsonEvent.write_key "jsonrpc", JsonEvent.write_string "2.0",
        JsonEvent.write_key "id", JsonEvent.write_string "1", JsonEvent.write_key "result",
        JsonEvent.end_object]] := by
  refine ⟨?_, ?_, by decide, by decide⟩
  · intro h1 h2
    simp [FUNCTION_read_audio, W.bind_def, W.andThen, h1, h2]
  · intro h1 h2 h3
    rcases hb : E.bank_insert_content first second s with ⟨f, s1⟩
    rw [hb] at h3
    simp only [] at h3
    subst h3
    simp [FUNCTION_bank_insert_content, W.bind_def, W.andThen, h1, h2, B.run, hb]

/-- C26, the code: `unlisten` has no case for the topics "oscilloscope" and
"param". After `listen` and `unlisten` for "param", session 1 of the sample
service still has its parameter-change flag set and is among the receivers of
a broadcast of session 2; after "oscilloscope" its two oscilloscope slots are
still connected; after "all" both remain. For the topic "preset" the session
is as it was before. -/
theorem C26_unlisten_leaves_param :
    (sample_listen_unlisten "param").connection_list.head? =
      some (1, { sample_connection with parameter_change_notify := true }) ∧
    listeners (some 2) (sample_listen_unlisten "param").connection_list = [1, 3] ∧
    listeners (some 2) sample_service.connection_list = [3] ∧
    (sample_listen_unlisten "oscilloscope").connection_list.head? =
      some (1, { sample_connection with conn_osc_activation := { slots := 1, handle := true },
                                        conn_osc_size_changed := { slots := 1, handle := true } }) ∧
    (sample_listen_unlisten "all").connection_list.head? =
      some (1, { sample_connection with parameter_change_notify := true,
                                        conn_osc_activation := { slots := 1, handle := true },
                                        conn_osc_size_changed := { slots := 1, handle := true } }) ∧
    (sample_listen_unlisten "preset").connection_list = sample_service.connection_list := by
  decide

/-- C30: when the `try` block of `CmdConnection::process` ends in an `RpcError`
(unknown method, invalid params, an error of a handler; a single request or a
batch), the one document `process` sends is the error response built by
`error_response`. Every such document, for whatever code and message (the
parse error -32700 included), has a null id member and answers no id: no error
document carries the id of the failing call. -/
theorem C30_error_id_is_null {σ : Type} (E : Engine σ) (this : Nat) (jp : JsonStringParser)
    (s : MyService σ) (code : Int) (message : String)
    (he : (process_try E this jp.jp s).1 = .error (Exn.RpcError code message)) :
    CmdConnection.process E this jp s =
      (.ok (), [],
        { (process_try E this jp.jp s).2.2 with
          wire := (process_try E this jp.jp s).2.2.wire ++
            [(this, error_response code message)] }) ∧
    (∀ (c : Int) (m : String), error_response c m =
      [JsonEvent.begin_object, JsonEvent.write_key "jsonrpc", JsonEvent.write_string "2.0",
       JsonEvent.write_key "id", JsonEvent.write_null, JsonEvent.write_key "error",
       JsonEvent.begin_object, JsonEvent.write_key "code", JsonEvent.write_int c,
       JsonEvent.write_key "message", JsonEvent.write_string m, JsonEvent.end_object,
       JsonEvent.end_object]) ∧
    (∀ (c : Int) (m id : String), answers_call id (error_response c m) = false) := by
  rcases ht : process_try E this jp.jp s with ⟨a, o, s1⟩
  rw [ht] at he
  simp only [] at he
  subst he
  rw [process_of_try_rpc_error E this _ s s1 o code message ht]
  refine ⟨rfl, fun _ _ => rfl, ?_⟩
  intro c m id
  simp [answers_call, error_response, write_error, JsonWriter.write_kv_string,
    JsonWriter.write_kv_int, List.tails, List.isPrefixOf]

/-- Witness of C30: the call `get_rack_unit_order` with the id "2" and without
its argument. -/
theorem C30_error_id_is_null_witness :
    CmdConnection.process sample_engine 1 (message sample_failing_call.toks) sample_service =
      (.ok (), [],
        { sample_service with wire := sample_service.wire ++
            [(1, error_response (-32602) "Invalid param -- wrong argument count")] }) := by
  have h := C30_error_id_is_null sample_engine 1 (message sample_failing_call.toks)
    sample_service (-32602) "Invalid param -- wrong argument count" (by decide)
  exact h.1

/-- C24: whatever the reads of a call of `on_data_in` are, and whatever the
parser holds from earlier reads, `on_data_in` is the dispatch of the complete
messages of the buffered bytes followed by all the bytes read: `process` runs
on each message in order, each fed into a parser that has been reset, and the
bytes behind the last newline stay in the parser. The messages are the bytes
cut behind each newline, so the outcome is the same for any two ways of
splitting the same bytes into reads. -/
theorem C24_messages_dispatched_in_order {σ : Type} (E : Engine σ) (this : Nat)
    (bufs : List (List Char)) (buffer : List Char) (s : MyService σ) :
    CmdConnection.on_data_in E this (bufs.map Receive.data)
        (JsonStringParser.feed E (JsonStringParser.reset E) buffer) s =
      (match dispatch_messages E this (messages_of buffer bufs.flatten).1
          (messages_of buffer bufs.flatten).2 s with
       | (.ok _, jp1, s1) => (.ok true, jp1, s1)
       | (.error e, jp1, s1) => (.error e, jp1, s1)) ∧
    (messages_of buffer bufs.flatten).1.flatten ++ (messages_of buffer bufs.flatten).2 =
      buffer ++ bufs.flatten ∧
    ('\n' ∉ buffer →
      (∀ m ∈ (messages_of buffer bufs.flatten).1, ∃ line, m = line ++ ['\n'] ∧ '\n' ∉ line) ∧
        '\n' ∉ (messages_of buffer bufs.flatten).2) ∧
    (∀ (bufs2 : List (List Char)) (jp : JsonStringParser), bufs2.flatten = bufs.flatten →
      CmdConnection.on_data_in E this (bufs2.map Receive.data) jp s =
        CmdConnection.on_data_in E this (bufs.map Receive.data) jp s) := by
  refine ⟨?_, messages_of_flatten _ _, messages_of_ends _ _, ?_⟩
  · rw [on_data_in_reads, on_data_in_bytes_messages]
  · intro bufs2 jp h
    rw [on_data_in_reads, on_data_in_reads, h]

theorem find_after_update (l : List (Nat × CmdConnection)) (p : Nat)
    (f : CmdConnection → CmdConnection) :
    (l.map (fun x => if x.1 = p then (x.1, f x.2) else x)).find? (fun x => decide (x.1 = p)) =
      (l.find? (fun x => decide (x.1 = p))).map (fun x => (x.1, f x.2)) := by
  induction l with
  | nil => rfl
  | cons a l ih =>
    by_cases h : a.1 = p
    · simp [List.find?_cons, h]
    · simp only [List.map_cons, h, if_false, List.find?_cons, decide_False]
      exact ih

theorem gone_after_erase (l : List (Nat × CmdConnection)) (p : Nat)
    (hnd : (l.map Prod.fst).Nodup) :
    ∀ x ∈ l.eraseP (fun x => decide (x.1 = p)), x.1 ≠ p := by
  induction l with
  | nil => intro x hx; simp at hx
  | cons a l ih =>
    have hnd2 : (l.map Prod.fst).Nodup := (List.nodup_cons.1 hnd).2
    have ha : a.1 ∉ l.map Prod.fst := (List.nodup_cons.1 hnd).1
    by_cases h : a.1 = p
    · intro x hx
      simp only [List.eraseP_cons, h, decide_True, if_true, cond_true] at hx
      intro hxp
      apply ha
      rw [h, ← hxp]
      exact List.mem_map_of_mem _ hx
    · intro x hx
      simp only [List.eraseP_cons, h, decide_False, cond_false, List.mem_cons] at hx
      rcases hx with rfl | hx
      · exact h
      · exact ih hnd2 x hx

/-- C25: `remove_connection` on a session of `connection_list` takes it from the
list and destroys it; the destructor calls `set_config_mode(false, -1)` once
when the session's `midi_config_mode` flag is set and leaves the engine alone
otherwise. `PROCEDURE(shutdown)` does not destroy the session, so a shutdown
followed by the end of the connection clears the mode once as well. With the
addresses of the list distinct the session is gone afterwards: a further
`remove_connection` fails the `assert` and changes nothing. -/
theorem C25_config_mode_cleared_once {σ : Type} (E : Engine σ) (p : Nat) (c : CmdConnection)
    (jp : JsonStringParser) (s : MyService σ)
    (hf : s.connection_list.find? (fun x => decide (x.1 = p)) = some (p, c))
    (hnd : (sessions s).Nodup) :
    MyService.remove_connection E p s =
      (.ok (), [],
        { s with
          connection_list := s.connection_list.eraseP (fun x => decide (x.1 = p)),
          eng := if c.midi_config_mode then E.exec (EngineOp.set_config_mode false (-1)) s.eng
                 else s.eng }) ∧
    (CmdConnection.on_data_in E p [Receive.closed] jp (PROCEDURE_shutdown p s).2.2).1 = .ok false ∧
    (CmdConnection.on_data_in E p [Receive.closed] jp (PROCEDURE_shutdown p s).2.2).2.2.eng =
      (if c.midi_config_mode then E.exec (EngineOp.set_config_mode false (-1)) s.eng
       else s.eng) ∧
    p ∉ sessions (MyService.remove_connection E p s).2.2 ∧
    MyService.remove_connection E p (MyService.remove_connection E p s).2.2 =
      (.error (Exn.Fatal "assert(false)"), [], (MyService.remove_connection E p s).2.2) := by
  have h1 : MyService.remove_connection E p s =
      (.ok (), [],
        { s with
          connection_list := s.connection_list.eraseP (fun x => decide (x.1 = p)),
          eng := if c.midi_config_mode then E.exec (EngineOp.set_config_mode false (-1)) s.eng
                 else s.eng }) := by
    simp only [MyService.remove_connection, hf]
  have hgone := gone_after_erase s.connection_list p hnd
  have hnone : (s.connection_list.eraseP (fun x => decide (x.1 = p))).find?
      (fun x => decide (x.1 = p)) = none := by
    rw [List.find?_eq_none]
    intro x hx
    simpa using hgone x hx
  have hfu : (s.connection_list.map
      (fun x => if x.1 = p then (x.1, { x.2 with closed := true }) else x)).find?
        (fun x => decide (x.1 = p)) = some (p, { c with closed := true }) := by
    rw [find_after_update s.connection_list p (fun c => { c with closed := true }), hf]
    rfl
  have hsd : (PROCEDURE_shutdown p s).2.2 =
      { s with
        connection_list := s.connection_list.map
          (fun x => if x.1 = p then (x.1, { x.2 with closed := true }) else x),
        quit_mainloop := s.quit_mainloop + 1 } := rfl
  refine ⟨h1, ?_, ?_, ?_, ?_⟩
  · rw [hsd]
    simp only [CmdConnection.on_data_in, MyService.remove_connection, hfu]
  · rw [hsd]
    simp only [CmdConnection.on_data_in, MyService.remove_connection, hfu]
  · rw [h1]
    simp only [sessions, List.mem_map, not_exists, not_and]
    intro x hx
    exact hgone x hx
  · rw [h1]
    simp only [MyService.remove_connection, hnone]

/-- Witness of C25: session 1 of the sample service after it has switched the
MIDI configuration mode on. -/
theorem C25_config_mode_cleared_once_witness :
    MyService.remove_connection sample_engine 1 sample_midi_service =
      (.ok (), [],
        { sample_midi_service with
          connection_list := sample_midi_service.connection_list.eraseP (fun x => decide (x.1 = 1)),
          eng := if ({ sample_connection with midi_config_mode := true } : CmdConnection).midi_config_mode
                 then sample_engine.exec (EngineOp.set_config_mode false (-1))
                   sample_midi_service.eng
                 else sample_midi_service.eng }) := by
  have h := C25_config_mode_cleared_once sample_engine 1
    { sample_connection with midi_config_mode := true } (JsonStringParser.reset sample_engine)
    sample_midi_service (by decide) (by decide)
  exact h.1

/-- C29: from a new session, over every sequence of documents sent and of times
the socket is writable, and whatever the socket does with each `write`, as long
as every document holds at least one byte and fewer than `2^31`: `send` and
`on_data_out` return normally (the `assert` of `send` holds), `current_offset`
is 0 whenever the queue is empty, and it is less than the length of the first
queued document whenever the queue is not empty. -/
theorem C29_queue_offset_invariant (es : List OutEvent) (rs : List WriteRoom)
    (hd : ∀ s ∈ OutEvent.docs es, 0 < s.length ∧ s.length < 2 ^ 31) :
    ∃ rs1 st1, Outbound.run es rs Outbound.init = .ok (rs1, st1) ∧
      (st1.outgoing = [] → st1.current_offset = 0) ∧
      (∀ d q, st1.outgoing = d :: q → st1.current_offset < d.length) := by
  obtain ⟨rs1, st1, h1, hs, _⟩ := run_sound es rs Outbound.init ⟨by simp [Outbound.init], rfl⟩
    (fun s hs => (hd s hs).2)
  have hm := run_members es rs rs1 Outbound.init st1 h1
  refine ⟨rs1, st1, h1, ?_, ?_⟩
  · intro h0
    have h2 := hs.2
    rw [h0] at h2
    exact h2
  · intro d q h0
    have h2 := hs.2
    rw [h0] at h2
    have hpos : 0 < d.length := by
      rcases hm d (by rw [h0]; simp) with h3 | h3
      · simp [Outbound.init] at h3
      · exact (hd d h3).1
    rcases h2.1 with h4 | h4
    · rw [h4]; exact hpos
    · exact h4

/-- Witness of C29: two documents, the socket taking one byte at a time. -/
theorem C29_queue_offset_invariant_witness :
    ∃ rs1 st1, Outbound.run sample_queue_events
        [WriteRoom.takes 1, WriteRoom.takes 1, WriteRoom.fails] Outbound.init = .ok (rs1, st1) ∧
      (st1.outgoing = [] → st1.current_offset = 0) ∧
      (∀ d q, st1.outgoing = d :: q → st1.current_offset < d.length) :=
  C29_queue_offset_invariant sample_queue_events
    [WriteRoom.takes 1, WriteRoom.takes 1, WriteRoom.fails] (by decide)

theorem sample_wf_bad_second_args : ∀ a ∈ sample_bad_second_args, a.wf := by
  intro a ha
  simp [sample_bad_second_args] at ha
  rcases ha with rfl | rfl | rfl | rfl <;> trivial

/-- C27, refuted as stated: the notification
`{"jsonrpc":"2.0","method":"set","params":["amp.tonestack.Bass",0.7,"amp.tonestack.Treble","x"]}`
sent by session 1 of the sample service. The handler throws the `RpcError` with
the code -32602 at the second pair, whose value is a string where a float is
expected; no push is sent, and the first parameter of the request keeps the
value 0.7 that the first round of the loop has set. -/
theorem C27_counterexample :
    (CmdConnection.notify sample_engine 1 (methodnames.mk "set" m_id.RPNM_set)
        (sample_set sample_bad_second_args).fields.params sample_service).1 =
      .error (Exn.RpcError (-32602) "Invalid param -- float expected") ∧
    (CmdConnection.process sample_engine 1 (message (sample_set sample_bad_second_args).toks)
        sample_service).1 = .ok () ∧
    (CmdConnection.process sample_engine 1 (message (sample_set sample_bad_second_args).toks)
        sample_service).2.2.wire = [] ∧
    (ParamMap.find (CmdConnection.process sample_engine 1
        (message (sample_set sample_bad_second_args).toks) sample_service).2.2.eng.param
        "amp.tonestack.Bass").map (fun p => p.value) =
      some (ParamValue.Float (Double.ofText "0.7")) ∧
    (ParamMap.find sample_service.eng.param "amp.tonestack.Bass").map (fun p => p.value) ≠
      some (ParamValue.Float (Double.ofText "0.7")) := by
  decide

/-- C27, amended: a `set` notification is applied pair by pair in request
order, and nothing is taken back. When the rounds of the first pairs `ps` of
the request return and leave the state `s1`, and the round of the next pair
throws an `RpcError` and leaves the state `s2`, then the handler ends with that
error in the state `s2`: the changes of `ps` stay, later pairs are not read,
and neither the push nor `save_state` is reached. `CmdConnection::process`
returns in the state `s2` without sending a document. When the error is that
of a value the parameter does not take, `s2` is `s1`. -/
theorem C27_set_keeps_earlier_pairs {σ : Type} (E : Engine σ) (this : Nat) (q : RequestObject)
    (ps more : List (String × JsonValue)) (pr : String × JsonValue)
    (str : List Char) (rest : List Tok) (cur : String)
    (s s1 s2 : MyService σ) (o1 o2 : JsonWriter) (code : Int) (message : String)
    (hq : q.wf) (hm : q.fields.method = "set") (hid : q.fields.id = "")
    (hp : q.fields.params = pair_params (ps ++ pr :: more))
    (h1 : set_loop E (pair_params ps) s = (.ok (), o1, s1))
    (h2 : set_one E (JsonValue.JsonString pr.1) (.ok pr.2) s1 =
      (.error (Exn.RpcError code message), o2, s2)) :
    PROCEDURE_set E this (pair_params (ps ++ pr :: more)) s =
      (.error (Exn.RpcError code message), o1 ++ o2, s2) ∧
    CmdConnection.process E this { str := str, jp := { toks := q.toks ++ rest, cur := cur } } s =
      (.ok (), [], s2) ∧
    (∀ p, ParamMap.find s1.eng.param pr.1 = some p →
      set_arg E p pr.2 = .error (Exn.RpcError code message) → s2 = s1) := by
  have hw : in_word_set q.fields.method = some (methodnames.mk "set" m_id.RPNM_set) := by
    rw [hm]
    decide
  have h3 := set_stops E this _ _ _ s s2 (set_loop_stops E pr more _ o2 s1 s2 h2 ps s o1 h1)
  have hc : CmdConnection.notify E this (methodnames.mk "set" m_id.RPNM_set) q.fields.params s =
      (.error (Exn.RpcError code message), o1 ++ o2, s2) := by
    rw [hp]
    exact h3
  have ht : process_try E this
      ({ str := str, jp := { toks := q.toks ++ rest, cur := cur } } : JsonStringParser).jp s =
      (.ok false, error_response code message, s2) := by
    rw [process_try_object E this q hq rest cur s,
      dispatch_notify_rpc_error E this q.fields false s s2 _ _ code message hw hid hc]
  refine ⟨h3, process_of_try_false E this _ s s2 _ ht, ?_⟩
  intro p hf ha
  rw [set_one_rejected E pr.1 pr.2 p _ s1 hf ha] at h2
  injection h2 with _ h2
  injection h2 with _ h2
  exact h2.symm

/-- Witness of C27, amended: the notification of the counterexample. -/
theorem C27_set_keeps_earlier_pairs_witness :
    CmdConnection.process sample_engine 1
        { str := [],
          jp := { toks := (sample_set sample_bad_second_args).toks ++ [], cur := "" } }
        sample_service =
      (.ok (), [],
        (set_loop sample_engine
          (pair_params [("amp.tonestack.Bass", JsonValue.JsonFloat (Double.ofText "0.7"))])
          sample_service).2.2) := by
  have h := C27_set_keeps_earlier_pairs sample_engine 1 (sample_set sample_bad_second_args)
    [("amp.tonestack.Bass", JsonValue.JsonFloat (Double.ofText "0.7"))] []
    ("amp.tonestack.Treble", JsonValue.JsonString "x") [] [] ""
    sample_service
    (set_loop sample_engine
      (pair_params [("amp.tonestack.Bass", JsonValue.JsonFloat (Double.ofText "0.7"))])
      sample_service).2.2
    (set_loop sample_engine
      (pair_params [("amp.tonestack.Bass", JsonValue.JsonFloat (Double.ofText "0.7"))])
      sample_service).2.2
    [] [] (-32602) "Invalid param -- float expected"
    (sample_wf_set _ sample_wf_bad_second_args) (by decide) (by decide) (by decide) (by decide)
    (by decide)
  exact h.2.1

/-- C2, refuted as stated: the request
`{"jsonrpc":"2.0","method":"getversion","id":7}` is answered with one document
whose id member is the string "7", which is not the JSON value of the number
token 7. -/
theorem C2_counterexample :
    sent_on 1 (CmdConnection.process sample_engine 1
        (message (sample_call (Member.id_number "7")).toks) sample_service).2.2 =
      [[JsonEvent.begin_object, JsonEvent.write_key "jsonrpc", JsonEvent.write_string "2.0",
        JsonEvent.write_key "id", JsonEvent.write_string "7", JsonEvent.write_key "result"] ++
        sample_version ++ [JsonEvent.end_object]] ∧
    ¬ id_is_same_value { kind := token.value_number, value := "7" } (JsonEvent.write_string "7") := by
  refine ⟨by decide, ?_⟩
  simp [id_is_same_value]

/-- C2, amended: the id member of the call response `CmdConnection::request`
writes is the JSON string of the text of the request's id token: a string id
is answered unchanged, and a number id is answered as the string of its
digits. The id member (a string or a number, with a non-empty text) stands
anywhere among the members of the request, `ms` before it and `ms2` behind it;
of several id members the last one counts. The handler returns normally. -/
theorem C2_id_written_as_string {σ : Type} (E : Engine σ) (this : Nat) (q : RequestObject)
    (rest : List Tok) (cur : String) (batch_start : Bool) (s : MyService σ) (p : methodnames)
    (ms ms2 : List Member) (number : Bool) (t : String)
    (hmem : q.members = ms ++ (if number then Member.id_number t else Member.id_string t) :: ms2)
    (hlater : ∀ m ∈ ms2, ∀ i, m ≠ Member.id_string i ∧ m ≠ Member.id_number i)
    (hq : q.wf) (hm : in_word_set q.fields.method = some p) (ht : t ≠ "")
    (hok : (CmdConnection.call E this p q.fields.params s).1 = .ok ()) :
    (CmdConnection.request E this { toks := q.toks ++ rest, cur := cur } batch_start s).2.1 =
      (if batch_start then [JsonEvent.begin_array] else []) ++
      [JsonEvent.begin_object, JsonEvent.write_key "jsonrpc", JsonEvent.write_string "2.0",
       JsonEvent.write_key "id", JsonEvent.write_string t, JsonEvent.write_key "result"] ++
      (CmdConnection.call E this p q.fields.params s).2.1 ++ [JsonEvent.end_object] := by
  have hidt : q.fields.id = t := by
    simp only [RequestObject.fields, hmem]
    exact id_of_members ms ms2 number t _ hlater
  rcases hc : CmdConnection.call E this p q.fields.params s with ⟨a, o, s1⟩
  rw [hc] at hok
  simp only [] at hok
  subst hok
  rw [request_object E this q hq rest cur batch_start s]
  simp only [W.andThen,
    dispatch_call_ok E this q.fields batch_start s s1 p o hm (by rw [hidt]; exact ht) hc]
  simp [call_response, hidt]

/-- Witness of C2, amended: the request `{"id":7,"jsonrpc":"2.0","method":"getversion"}`,
whose number id comes first. -/
theorem C2_id_written_as_string_witness :
    (CmdConnection.request sample_engine 1
        { toks := sample_id_first.toks ++ [], cur := "" } false sample_service).2.1 =
      (if false = true then [JsonEvent.begin_array] else []) ++
      [JsonEvent.begin_object, JsonEvent.write_key "jsonrpc", JsonEvent.write_string "2.0",
       JsonEvent.write_key "id", JsonEvent.write_string "7", JsonEvent.write_key "result"] ++
      (CmdConnection.call sample_engine 1 (methodnames.mk "getversion" m_id.RPCM_getversion)
        sample_id_first.fields.params sample_service).2.1 ++
      [JsonEvent.end_object] :=
  C2_id_written_as_string sample_engine 1 sample_id_first [] "" false
    sample_service (methodnames.mk "getversion" m_id.RPCM_getversion)
    [] [Member.jsonrpc "2.0", Member.method "getversion"] true "7" (by rfl)
    (by intro m hm i; simp at hm; rcases hm with rfl | rfl <;> simp)
    sample_wf_id_first (by decide) (by decide) (by rfl)

/-- C7, refuted as stated: the request
`{"jsonrpc":"2.0","method":"frobnicate","params":{},"id":"1"}` names a method
that is not in the method table, and the one document it is answered with has
the code -32000: `request` throws at the params member, before the method is
looked up. -/
theorem C7_counterexample :
    in_word_set "frobnicate" = none ∧
    (CmdConnection.process sample_engine 1 (message sample_unknown_named)
        sample_service).2.2.wire =
      [(1, [JsonEvent.begin_object, JsonEvent.write_key "jsonrpc", JsonEvent.write_string "2.0",
            JsonEvent.write_key "id", JsonEvent.write_null, JsonEvent.write_key "error",
            JsonEvent.begin_object, JsonEvent.write_key "code", JsonEvent.write_int (-32000),
            JsonEvent.write_key "message",
            JsonEvent.write_string "by-name parameters not implemented",
            JsonEvent.end_object, JsonEvent.end_object])] := by
  decide

/-- C7, amended: a request object with well-formed members (the version "2.0",
positional params, a string or number id or none) whose method name is not in
the method table makes `CmdConnection::process` send exactly one document on
the issuing session, the error response with the code -32601 and the message
"Method not found -- '<name>'", whether or not the request carries an id;
nothing else changes, so the session stays in the service. As an entry of a
batch, behind entries `qs` whose handlers returned and left the state `s1`,
such a request ends the batch: the only document sent is that error response,
and the entries behind it are not read. -/
theorem C7_unknown_method {σ : Type} (E : Engine σ) (this : Nat) (q : RequestObject)
    (str : List Char) (rest : List Tok) (cur : String) (s s1 : MyService σ)
    (lb : String) (qs : List RequestObject) (outs : List JsonWriter)
    (hq : q.wf) (hm : in_word_set q.fields.method = none)
    (hqs : ∀ x ∈ qs, x.wf)
    (hh : handle_all E this (qs.map RequestObject.fields) s = some (outs, s1)) :
    CmdConnection.process E this { str := str, jp := { toks := q.toks ++ rest, cur := cur } } s =
      (.ok (), [],
        { s with wire := s.wire ++
            [(this, error_response (-32601) ("Method not found -- '" ++ q.fields.method ++ "'"))] }) ∧
    CmdConnection.process E this
        { str := str,
          jp := { toks := { kind := token.begin_array, value := lb } ::
                    (qs.flatMap RequestObject.toks ++ (q.toks ++ rest)),
                  cur := cur } } s =
      (.ok (), [],
        { s1 with wire := s1.wire ++
            [(this, error_response (-32601) ("Method not found -- '" ++ q.fields.method ++ "'"))] }) ∧
    error_response (-32601) ("Method not found -- '" ++ q.fields.method ++ "'") =
      [JsonEvent.begin_object, JsonEvent.write_key "jsonrpc", JsonEvent.write_string "2.0",
       JsonEvent.write_key "id", JsonEvent.write_null, JsonEvent.write_key "error",
       JsonEvent.begin_object, JsonEvent.write_key "code", JsonEvent.write_int (-32601),
       JsonEvent.write_key "message",
       JsonEvent.write_string ("Method not found -- '" ++ q.fields.method ++ "'"),
       JsonEvent.end_object, JsonEvent.end_object] := by
  have ht : process_try E this
      ({ str := str, jp := { toks := q.toks ++ rest, cur := cur } } : JsonStringParser).jp s =
      (.error (Exn.RpcError (-32601) ("Method not found -- '" ++ q.fields.method ++ "'")), [], s) := by
    rw [process_try_object E this q hq rest cur s, dispatch_unknown E this q.fields false s hm]
  obtain ⟨o, hb⟩ := process_try_batch_raises E this lb qs q rest cur s s1 s1 outs _ hqs hq hh
    (fun bs => ⟨[], dispatch_unknown E this q.fields bs s1 hm⟩)
  refine ⟨?_, ?_, rfl⟩
  · rw [process_of_try_rpc_error E this _ s s _ _ _ ht]
  · rw [process_of_try_rpc_error E this _ s s1 _ _ _ hb]

/-- Witness of C7, amended: the request
`{"jsonrpc":"2.0","method":"frobnicate","id":"1"}` of session 1 on the sample
service, alone and behind the call `getversion` in a batch. -/
theorem C7_unknown_method_witness :
    CmdConnection.process sample_engine 1
        { str := [],
          jp := { toks := { kind := token.begin_array, value := "" } ::
                    ([sample_call (Member.id_string "1")].flatMap RequestObject.toks ++
                      (sample_unknown.toks ++ [])),
                  cur := "" } } sample_service =
      (.ok (), [],
        { sample_service with wire := sample_service.wire ++
            [(1, error_response (-32601)
              ("Method not found -- '" ++ sample_unknown.fields.method ++ "'"))] }) := by
  have h := C7_unknown_method sample_engine 1 sample_unknown [] [] "" sample_service
    sample_service "" [sample_call (Member.id_string "1")] [sample_version]
    sample_wf_unknown (by decide)
    (by intro x hx; simp at hx; subst hx; exact sample_wf_call _ trivial) (by rfl)
  exact h.2.1

/-- C17, refuted as stated: the notification
`{"jsonrpc":"2.0","method":"set","params":["no.such.param",1]}` of session 1
names an id that is not in the parameter directory of the sample service;
`CmdConnection::process` returns without an error document, and the sessions 2
and 3 each receive the "set" push that holds the unknown id. -/
theorem C17_counterexample :
    ParamMap.find sample_service.eng.param "no.such.param" = none ∧
    (CmdConnection.process sample_engine 1 (message (sample_set sample_unknown_args).toks)
        sample_service).1 = .ok () ∧
    (CmdConnection.process sample_engine 1 (message (sample_set sample_unknown_args).toks)
        sample_service).2.2.wire =
      [(2, [JsonEvent.begin_object, JsonEvent.write_key "jsonrpc", JsonEvent.write_string "2.0",
            JsonEvent.write_key "method", JsonEvent.write_string "set",
            JsonEvent.write_key "params", JsonEvent.begin_array,
            JsonEvent.write_string "no.such.param", JsonEvent.write_int 1,
            JsonEvent.end_array, JsonEvent.end_object]),
       (3, [JsonEvent.begin_object, JsonEvent.write_key "jsonrpc", JsonEvent.write_string "2.0",
            JsonEvent.write_key "method", JsonEvent.write_string "set",
            JsonEvent.write_key "params", JsonEvent.begin_array,
            JsonEvent.write_string "no.such.param", JsonEvent.write_int 1,
            JsonEvent.end_array, JsonEvent.end_object])] := by
  decide

/-- C17, amended: a `set` notification is not turned down for a pair whose id
is not in the parameter directory, wherever the pair `(u, v)` stands among the
pairs. When the pairs `ps` before it have been accepted and have left the state
`s1`, in which `u` is not in the directory, the round of the pair returns
without an error and without a change, and the loop goes on with the pairs
`more` behind it. When these are accepted too, `CmdConnection::process`
returns without a reply, and the "set" push of the handler, sent to every
session other than the issuing one with the parameter-change flag set, holds
all the pairs of the request, the pair `(u, v)` among them. -/
theorem C17_unknown_id_passed_on {σ : Type} (E : Engine σ) (this : Nat) (q : RequestObject)
    (ps more : List (String × JsonValue)) (u : String) (v : JsonValue)
    (str : List Char) (rest : List Tok) (cur : String)
    (s s1 s2 : MyService σ) (o1 o2 : JsonWriter)
    (hq : q.wf) (hm : q.fields.method = "set") (hid : q.fields.id = "")
    (hp : q.fields.params = pair_params (ps ++ (u, v) :: more))
    (h1 : set_loop E (pair_params ps) s = (.ok (), o1, s1))
    (hu : ParamMap.find s1.eng.param u = none)
    (h2 : set_loop E (pair_params more) s1 = (.ok (), o2, s2)) :
    set_one E (JsonValue.JsonString u) (.ok v) s1 = (.ok (), [], s1) ∧
    CmdConnection.process E this { str := str, jp := { toks := q.toks ++ rest, cur := cur } } s =
      (.ok (), [],
        (MyService.save_state E
          { s2 with
            wire := s2.wire ++
              (listeners (some this) s2.connection_list).map
                (fun p => (p, set_push E (ps ++ (u, v) :: more))) }).2.2) ∧
    (JsonEvent.write_string u :: value_events E v) <:+: set_push E (ps ++ (u, v) :: more) := by
  have hw : in_word_set q.fields.method = some (methodnames.mk "set" m_id.RPNM_set) := by
    rw [hm]
    decide
  have hv := set_loop_skips E ps more u v s s1 s2 o1 o2 h1 hu h2
  obtain ⟨h3, h4⟩ := set_run E this (ps ++ (u, v) :: more) s s2 _ hv
  rcases hn : PROCEDURE_set E this (pair_params (ps ++ (u, v) :: more)) s with ⟨a, o, s3⟩
  rw [hn] at h3 h4
  simp only [] at h3 h4
  subst h3
  have hc : CmdConnection.notify E this (methodnames.mk "set" m_id.RPNM_set) q.fields.params s =
      (.ok (), o, s3) := by
    rw [hp]
    exact hn
  have ht : process_try E this
      ({ str := str, jp := { toks := q.toks ++ rest, cur := cur } } : JsonStringParser).jp s =
      (.ok false, [], s3) := by
    rw [process_try_object E this q hq rest cur s,
      dispatch_notify_ok E this q.fields false s s3 _ o hw hid hc]
  rw [process_of_try_false E this _ s s3 _ ht, h4]
  refine ⟨set_one_unknown E u (.ok v) s1 hu, rfl, ?_⟩
  refine ⟨[JsonEvent.begin_object, JsonEvent.write_key "jsonrpc", JsonEvent.write_string "2.0",
    JsonEvent.write_key "method", JsonEvent.write_string "set", JsonEvent.write_key "params",
    JsonEvent.begin_array] ++
      ps.flatMap (fun pr => JsonEvent.write_string pr.1 :: value_events E pr.2),
    more.flatMap (fun pr => JsonEvent.write_string pr.1 :: value_events E pr.2) ++
      [JsonEvent.end_array, JsonEvent.end_object], ?_⟩
  simp [set_push]

/-- Witness of C17, amended: the notification of the counterexample. -/
theorem C17_unknown_id_passed_on_witness :
    CmdConnection.process sample_engine 1
        { str := [], jp := { toks := (sample_set sample_unknown_args).toks ++ [], cur := "" } }
        sample_service =
      (.ok (), [],
        (MyService.save_state sample_engine
          { sample_service with
            wire := sample_service.wire ++
              (listeners (some 1) sample_service.connection_list).map
                (fun p => (p, set_push sample_engine
                  ([] ++ ("no.such.param", JsonValue.JsonInt 1) :: []))) }).2.2) := by
  have h := C17_unknown_id_passed_on sample_engine 1 (sample_set sample_unknown_args)
    [] [] "no.such.param" (JsonValue.JsonInt 1) [] [] "" sample_service sample_service
    sample_service [] [] (sample_wf_set _ sample_wf_unknown_args)
    (by decide) (by decide) (by decide) (by rfl) (by decide) (by rfl)
  exact h.2.1

/-- C12: from a new session, over every sequence of documents sent and of
times the socket is writable, and whatever the socket does with each `write`
(it fails, or takes some or all of the bytes offered), `send` and `on_data_out`
return normally as long as every document is shorter than `2^31` bytes, and
afterwards the bytes the socket has taken, followed by the bytes still queued
(the first queued document from `current_offset` on, then the documents behind
it), are the concatenation of the documents in the order they were sent. The
next drain goes on at the first byte not yet written: a write of which the
socket takes `n` bytes, fewer than are left of the first document, hands over
exactly the `n` bytes from `current_offset` on and moves `current_offset` on by
`n`; a write that takes all that is left of the first document hands over
exactly these bytes and removes the document; and against a socket that takes
all it is offered a drain empties the queue, after which the socket has taken
the whole concatenation. While a document is queued a handler is connected. -/
theorem C12_outbound_bytes_in_order (es : List OutEvent) (rs : List WriteRoom)
    (hd : ∀ s ∈ OutEvent.docs es, s.length < 2 ^ 31) :
    ∃ rs1 st1, Outbound.run es rs Outbound.init = .ok (rs1, st1) ∧
      st1.socket ++ st1.pending = (OutEvent.docs es).flatten ∧
      st1.socket <+: (OutEvent.docs es).flatten ∧
      (st1.outgoing = [] → st1.socket = (OutEvent.docs es).flatten) ∧
      (st1.outgoing ≠ [] → 0 < st1.io_out) ∧
      (∀ d q n, st1.outgoing = d :: q → 0 < n → n < d.length - st1.current_offset →
        Outbound.on_data_out [WriteRoom.takes n] st1 =
          (true, [],
            { st1 with current_offset := st1.current_offset + n,
                       socket := st1.socket ++ (d.drop st1.current_offset).take n })) ∧
      (∀ d q n, st1.outgoing = d :: q → 0 < d.length - st1.current_offset →
        d.length - st1.current_offset ≤ n →
        Outbound.on_data_out [WriteRoom.takes n] st1 =
          (decide (q ≠ []), [],
            { st1 with outgoing := q, current_offset := 0,
                       socket := st1.socket ++ d.drop st1.current_offset })) ∧
      (∀ N k, (∀ d ∈ st1.outgoing, 0 < d.length ∧ d.length ≤ N) → st1.outgoing.length ≤ k →
        (Outbound.on_data_out (List.replicate k (WriteRoom.takes N)) st1).1 = false ∧
        (Outbound.on_data_out (List.replicate k (WriteRoom.takes N)) st1).2.2.outgoing = [] ∧
        (Outbound.on_data_out (List.replicate k (WriteRoom.takes N)) st1).2.2.socket =
          (OutEvent.docs es).flatten) := by
  obtain ⟨rs1, st1, h1, hs, he⟩ := run_sound es rs Outbound.init ⟨by simp [Outbound.init], rfl⟩ hd
  have he2 : st1.socket ++ st1.pending = (OutEvent.docs es).flatten := by
    rw [he]
    simp [Outbound.init, Outbound.pending]
  refine ⟨rs1, st1, h1, he2, ⟨st1.pending, he2⟩, ?_, ?_, ?_, ?_, ?_⟩
  · intro h0
    rw [← he2]
    simp [Outbound.pending, h0]
  · intro h0
    obtain ⟨_, h2⟩ := hs
    cases hq : st1.outgoing with
    | nil => exact absurd hq h0
    | cons d q =>
      rw [hq] at h2
      exact h2.2
  · intro d q n hq h0 hn
    obtain ⟨outgoing, off, io, sock⟩ := st1
    simp only [] at hq hn
    subst hq
    exact on_data_out_partial d q off io sock n (hs.1 d (by simp)) h0 hn
  · intro d q n hq h0 hn
    obtain ⟨outgoing, off, io, sock⟩ := st1
    simp only [] at hq hn h0
    subst hq
    rw [on_data_out_full d q off io sock n [] (hs.1 d (by simp)) h0 hn, Outbound.on_data_out]
    cases q <;> rfl
  · intro N k hN hk
    have h := on_data_out_all N k st1 hs hN hk
    exact ⟨h.1, h.2.1, by rw [h.2.2, he2]⟩

/-- Witness of C12: three documents, of which the socket takes the first byte,
then two, then nothing, then the rest. -/
theorem C12_outbound_bytes_in_order_witness :
    ∃ rs1 st1, Outbound.run sample_out_events sample_rooms Outbound.init = .ok (rs1, st1) ∧
      st1.socket ++ st1.pending = (OutEvent.docs sample_out_events).flatten ∧
      st1.socket <+: (OutEvent.docs sample_out_events).flatten ∧
      (st1.outgoing = [] → st1.socket = (OutEvent.docs sample_out_events).flatten) ∧
      (st1.outgoing ≠ [] → 0 < st1.io_out) ∧
      (∀ d q n, st1.outgoing = d :: q → 0 < n → n < d.length - st1.current_offset →
        Outbound.on_data_out [WriteRoom.takes n] st1 =
          (true, [],
            { st1 with current_offset := st1.current_offset + n,
                       socket := st1.socket ++ (d.drop st1.current_offset).take n })) ∧
      (∀ d q n, st1.outgoing = d :: q → 0 < d.length - st1.current_offset →
        d.length - st1.current_offset ≤ n →
        Outbound.on_data_out [WriteRoom.takes n] st1 =
          (decide (q ≠ []), [],
            { st1 with outgoing := q, current_offset := 0,
                       socket := st1.socket ++ d.drop st1.current_offset })) ∧
      (∀ N k, (∀ d ∈ st1.outgoing, 0 < d.length ∧ d.length ≤ N) → st1.outgoing.length ≤ k →
        (Outbound.on_data_out (List.replicate k (WriteRoom.takes N)) st1).1 = false ∧
        (Outbound.on_data_out (List.replicate k (WriteRoom.takes N)) st1).2.2.outgoing = [] ∧
        (Outbound.on_data_out (List.replicate k (WriteRoom.takes N)) st1).2.2.socket =
          (OutEvent.docs sample_out_events).flatten) :=
  C12_outbound_bytes_in_order sample_out_events sample_rooms (by decide)

/-- The edits of a stream that stays below `max_delay` save nothing, and the
next call of `save_state` past one of the two limits saves. -/
theorem edits_then_save {σ : Type} (E : Engine σ) (s : MyService σ)
    (T0 t : Int) (ts : List Int)
    (hauto : ∀ e, E.get_opt_auto_save e = false) (hq : s.oldest_unsaved = 0) (hT : T0 ≠ 0)
    (hc : List.Chain (fun a b => a ≤ b ∧ b - a < MyService.min_idle) T0 ts)
    (hb : ∀ x ∈ ts, x - T0 < MyService.max_delay)
    (ht : t - T0 ≥ MyService.max_delay ∨ t - (T0 :: ts).getLast (by simp) ≥ MyService.min_idle) :
    edits E (T0 :: ts) s =
      { s with now := (T0 :: ts).getLast (by simp), oldest_unsaved := T0,
               last_change := (T0 :: ts).getLast (by simp), save_conn := some 2000 } ∧
    save_state_at E t (edits E (T0 :: ts) s) =
      { s with now := t, eng := E.exec EngineOp.save_to_state s.eng, oldest_unsaved := 0,
               last_change := (T0 :: ts).getLast (by simp), save_conn := none } ∧
    (T0 :: ts).getLast (by simp) + MyService.min_idle < T0 + MyService.max_delay + MyService.min_idle := by
  obtain ⟨eng, ou, lc, sc, cl, jwc, pm, wire, now, qm⟩ := s
  simp only [] at hq
  subst hq
  have hfirst : save_state_at E T0 (MyService.mk eng 0 lc sc cl jwc pm wire now qm) =
      MyService.mk eng T0 T0 (some 2000) cl jwc pm wire T0 qm := by
    simp [save_state_at, MyService.save_state, hauto, MyService.min_idle]
  have hrest := edits_before_deadline E hauto T0 hT ts T0
    (MyService.mk eng T0 T0 (some 2000) cl jwc pm wire T0 qm) rfl rfl rfl rfl hc hb
  have he : edits E (T0 :: ts) (MyService.mk eng 0 lc sc cl jwc pm wire now qm) =
      MyService.mk eng T0 ((T0 :: ts).getLast (by simp)) (some 2000) cl jwc pm wire
        ((T0 :: ts).getLast (by simp)) qm := by
    simp only [edits, hfirst, hrest]
  have hlast : (T0 :: ts).getLast (by simp) - T0 < MyService.max_delay := by
    rcases List.eq_nil_or_concat ts with h | ⟨l, x, h⟩
    · subst h
      simp [MyService.max_delay]
    · subst h
      have := hb x (by simp)
      simpa using this
  simp only [MyService.min_idle, MyService.max_delay] at ht hlast ⊢
  refine ⟨he, ?_, by omega⟩
  rw [he]
  have ht2 : (15 : Int) ≤ t - T0 ∨ (2 : Int) ≤ t - (T0 :: ts).getLast (by simp) := ht
  simp [save_state_at, MyService.save_state, hauto, hT, ht2, MyService.min_idle,
    MyService.max_delay]

/-- C14, the code: `save_state` tests `max_delay` only when it is called, and an
edit that does not save connects nothing but the `min_idle` timeout. With
auto-save off, a stream of edits that starts at `T0` without unsaved changes,
with consecutive edits less than `min_idle` apart and all of them before
`T0 + max_delay`, performs no save and leaves the 2000 ms timeout connected;
the save is performed by the next call of `save_state` at a time `t` with
`t - T0 ≥ max_delay` or `t - last ≥ min_idle`. On the counting engine, edits at
every second from 100 to 114 save nothing, and the save is performed by the
timeout at 116, later than 100 + `max_delay`, the "maximum delay for save
changed state". -/
theorem C14_save_later_than_max_delay {σ : Type} (E : Engine σ) (s : MyService σ)
    (T0 t : Int) (ts : List Int)
    (hauto : ∀ e, E.get_opt_auto_save e = false) (hq : s.oldest_unsaved = 0) (hT : T0 ≠ 0)
    (hc : List.Chain (fun a b => a ≤ b ∧ b - a < MyService.min_idle) T0 ts)
    (hb : ∀ x ∈ ts, x - T0 < MyService.max_delay)
    (ht : t - T0 ≥ MyService.max_delay ∨ t - (T0 :: ts).getLast (by simp) ≥ MyService.min_idle) :
    edits E (T0 :: ts) s =
      { s with now := (T0 :: ts).getLast (by simp), oldest_unsaved := T0,
               last_change := (T0 :: ts).getLast (by simp), save_conn := some 2000 } ∧
    save_state_at E t (edits E (T0 :: ts) s) =
      { s with now := t, eng := E.exec EngineOp.save_to_state s.eng, oldest_unsaved := 0,
               last_change := (T0 :: ts).getLast (by simp), save_conn := none } ∧
    (T0 :: ts).getLast (by simp) + MyService.min_idle < T0 + MyService.max_delay + MyService.min_idle ∧
    (edits saving_engine [100, 101, 102, 103, 104, 105, 106, 107, 108, 109, 110, 111, 112, 113, 114]
        saving_service).eng.ext = 0 ∧
    (edits saving_engine [100, 101, 102, 103, 104, 105, 106, 107, 108, 109, 110, 111, 112, 113, 114]
        saving_service).save_conn = some 2000 ∧
    (edits saving_engine [100, 101, 102, 103, 104, 105, 106, 107, 108, 109, 110, 111, 112, 113, 114]
        saving_service).last_change = 114 ∧
    (save_state_at saving_engine 116
      (edits saving_engine
        [100, 101, 102, 103, 104, 105, 106, 107, 108, 109, 110, 111, 112, 113, 114]
        saving_service)).eng.ext = 1 ∧
    ¬ ((116 : Int) ≤ 100 + MyService.max_delay) := by
  obtain ⟨h1, h2, h3⟩ := edits_then_save E s T0 t ts hauto hq hT hc hb ht
  exact ⟨h1, h2, h3, by decide, by decide, by decide, by decide, by decide⟩

/-- Witness of C14: the edits from 100 to 114 and the timeout at 116. -/
theorem C14_save_later_than_max_delay_witness :
    (save_state_at saving_engine 116
      (edits saving_engine
        (100 :: [101, 102, 103, 104, 105, 106, 107, 108, 109, 110, 111, 112, 113, 114])
        saving_service)).eng.ext = 1 := by
  have h := C14_save_later_than_max_delay saving_engine saving_service 100 116
    [101, 102, 103, 104, 105, 106, 107, 108, 109, 110, 111, 112, 113, 114]
    (fun _ => rfl) (by decide) (by decide) (by simp [MyService.min_idle]) (by decide) (by decide)
  rw [h.2.1]
  rfl

/-- C28, the code: of the handlers that take a bank name, only `get_bank` and
`presets` test the pointer `banks.get_file` returns. For a name that is not in
the bank list the others use the null pointer once their arguments have been
read: no typed error is raised, and `setpreset` hands the null pointer on to
`load_preset`. A typed error comes only from the arguments: `rename_preset`
with the bank name alone fails with "wrong argument count". -/
theorem C28_missing_bank_dereferenced {σ : Type} (E : Engine σ) (params : JsonArray)
    (name : String) (s : Eng σ)
    (hn : JsonArray.getString params 0 = .ok name) (hb : E.get_file s name = none) :
    FUNCTION_get_bank E params s =
      (.error (Exn.RpcError (-32602) "Invalid params -- unknown bank"), [], s) ∧
    FUNCTION_presets E params s =
      (.error (Exn.RpcError (-32602) "Invalid params -- unknown bank"), [], s) ∧
    FUNCTION_bank_get_filename E params s = (.error (Exn.Fatal "null pointer"), [], s) ∧
    FUNCTION_bank_get_contents E params s = (.error (Exn.Fatal "null pointer"), [], s) ∧
    FUNCTION_convert_preset E params s = (.error (Exn.Fatal "null pointer"), [], s) ∧
    (∀ a b, JsonArray.getString params 1 = .ok a → JsonArray.getString params 2 = .ok b →
      FUNCTION_rename_preset E params s = (.error (Exn.Fatal "null pointer"), [], s)) ∧
    (∀ a, JsonArray.getString params 1 = .ok a →
      PROCEDURE_erase_preset E params s = (.error (Exn.Fatal "null pointer"), [], s) ∧
      PROCEDURE_pf_save E params s = (.error (Exn.Fatal "null pointer"), [], s)) ∧
    (∀ a b, JsonArray.getInt params 1 = .ok a → JsonArray.getInt params 2 = .ok b →
      PROCEDURE_bank_set_flag E params s = (.error (Exn.Fatal "null pointer"), [], s)) ∧
    (∀ a b c, JsonArray.getString params 1 = .ok a → JsonArray.getString params 2 = .ok b →
      JsonArray.getString params 3 = .ok c →
      PROCEDURE_pf_append E params s = (.error (Exn.Fatal "null pointer"), [], s)) ∧
    (∀ a b c d, JsonArray.getString params 1 = .ok a → JsonArray.getString params 2 = .ok b →
      JsonArray.getString params 3 = .ok c → JsonArray.getString params 4 = .ok d →
      PROCEDURE_pf_insert_before E params s = (.error (Exn.Fatal "null pointer"), [], s) ∧
      PROCEDURE_pf_insert_after E params s = (.error (Exn.Fatal "null pointer"), [], s)) ∧
    (∀ tail, params = JsonValue.JsonString name :: tail → (string_args tail).isOk = true →
      PROCEDURE_reorder_preset E params s = (.error (Exn.Fatal "null pointer"), [], s)) ∧
    (∀ (t : MyService σ) preset, t.eng = s → JsonArray.getString params 1 = .ok preset →
      PROCEDURE_setpreset E params t =
        MyService.save_state E
          { t with eng := E.exec (EngineOp.load_preset none preset) t.eng }) ∧
    (params = [JsonValue.JsonString name] →
      FUNCTION_rename_preset E params s =
        (.error (Exn.RpcError (-32602) "Invalid param -- wrong argument count"), [], s)) := by
  have hd : bank_deref E params 0 s = (.error (Exn.Fatal "null pointer"), [], s) := by
    simp [bank_deref, W.bind_def, W.andThen, hn, hb, B.deref]
  refine ⟨?_, ?_, ?_, ?_, ?_, ?_, ?_, ?_, ?_, ?_, ?_, ?_, ?_⟩
  · simp [FUNCTION_get_bank, W.bind_def, W.andThen, hn, hb]
  · simp [FUNCTION_presets, W.bind_def, W.andThen, hn, hb]
  · simp [FUNCTION_bank_get_filename, W.bind_def, W.andThen, hn, hb, B.deref]
  · simp [FUNCTION_bank_get_contents, W.bind_def, W.andThen, hn, hb, B.deref]
  · simp [FUNCTION_convert_preset, W.bind_def, W.andThen, hn, hb, B.deref]
  · intro a b h1 h2
    simp [FUNCTION_rename_preset, W.bind_def, W.andThen, hn, hb, h1, h2, B.deref]
  · intro a h1
    constructor
    · simp [PROCEDURE_erase_preset, W.bind_def, W.andThen, h1, hd]
    · simp [PROCEDURE_pf_save, W.bind_def, W.andThen, h1, hd]
  · intro a b h1 h2
    simp [PROCEDURE_bank_set_flag, W.bind_def, W.andThen, hn, hb, h1, h2, B.deref]
  · intro a b c h1 h2 h3
    simp [PROCEDURE_pf_append, W.bind_def, W.andThen, hn, hb, h1, h2, h3, B.deref]
  · intro a b c d h1 h2 h3 h4
    constructor
    · simp [PROCEDURE_pf_insert_before, W.bind_def, W.andThen, hn, hb, h1, h2, h3, h4, B.deref]
    · simp [PROCEDURE_pf_insert_after, W.bind_def, W.andThen, hn, hb, h1, h2, h3, h4, B.deref]
  · intro tail ht hs
    subst ht
    cases hst : string_args tail with
    | error e => rw [hst] at hs; exact absurd hs (by simp [Except.isOk, Except.toBool])
    | ok l => simp [PROCEDURE_reorder_preset, W.bind_def, W.andThen, hst, hd]
  · intro t preset ht h1
    subst ht
    simp [PROCEDURE_setpreset, W.bind_def, W.andThen, hn, hb, h1, M.eng, W.zoom, B.exec]
  · intro hp
    subst hp
    simp [FUNCTION_rename_preset, W.bind_def, W.andThen, JsonArray.getString, JsonArray.index]

/-- Witness of C28: the name "NoSuchBank" on the sample service, which has no
bank. The call `rename_preset ["NoSuchBank","a","b"]` of session 1 does not
return from the handler, and the call `rename_preset ["NoSuchBank"]` is
answered with the error of the missing argument. -/
theorem C28_missing_bank_dereferenced_witness :
    FUNCTION_rename_preset sample_engine
        [JsonValue.JsonString "NoSuchBank", JsonValue.JsonString "a", JsonValue.JsonString "b"]
        sample_service.eng =
      (.error (Exn.Fatal "null pointer"), [], sample_service.eng) ∧
    (CmdConnection.process sample_engine 1
        (message (sample_request "rename_preset"
          [ArgSrc.string "NoSuchBank", ArgSrc.string "a", ArgSrc.string "b"] "1").toks)
        sample_service).1 = .error (Exn.Fatal "null pointer") ∧
    sent_on 1 (CmdConnection.process sample_engine 1
        (message (sample_request "rename_preset" [ArgSrc.string "NoSuchBank"] "1").toks)
        sample_service).2.2 =
      [error_response (-32602) "Invalid param -- wrong argument count"] := by
  have h := C28_missing_bank_dereferenced sample_engine
    [JsonValue.JsonString "NoSuchBank", JsonValue.JsonString "a", JsonValue.JsonString "b"]
    "NoSuchBank" sample_service.eng (by decide) (by decide)
  exact ⟨h.2.2.2.2.2.1 "a" "b" (by decide) (by decide), by decide, by decide⟩

